import Mathlib

/-!
# Crime reporting system: report lifecycle, access filter, assignment and user administration

A shallow embedding of `server/models/Crime.js`, `server/routes/crimes.js` and
`server/routes/admin.js`.  Documents are records, the two collections are lists, every
route handler is a function from the request and the database to a response and the
database after the request.  The clock, the regular-expression engine and the date parser
are parameters; one request reads one clock value `now`.  Handlers are the final
`async (req, res)` callbacks: the `auth` / `requireX` middleware runs before them and
hands over the authenticated user `req.user`.  Path parameters `:id` are ids that cast to
an ObjectId.
-/

namespace CrimeReporting

/-! ## Identifiers, time, JSON values -/

/-- A MongoDB ObjectId, kept as the number its 12 bytes denote. -/
abbrev ObjectId := Nat

/-- Milliseconds since the epoch (`Date`). -/
abbrev Time := Int

/-- Rendering `ObjectId.prototype.toString()`: the 24-digit lower-case hexadecimal string. -/
def objectIdToString (id : ObjectId) : String :=
  String.mk (List.leftpad 24 '0' (Nat.toDigits 16 id))

/-- A JSON value as it arrives in `req.body` (arrays and objects are not needed by any
field modelled with this type; `undefined` is `none` of `Option JsVal`). -/
inductive JsVal where
  | null
  | bool (b : Bool)
  | num (n : Int)
  | str (s : String)
  deriving DecidableEq, Repr

/-- JavaScript truthiness, as used by `x ? a : b`, `!x`, `x && y` and `if (x)`. -/
def JsVal.truthy : JsVal → Bool
  | .null => false
  | .bool b => b
  | .num n => n != 0
  | .str s => s != ""

/-- The express-validator check `isBoolean()` (non-strict): the value is rendered to a
string and must be one of `true`, `false`, `1`, `0`. -/
def isBooleanValidator : JsVal → Bool
  | .null => false
  | .bool _ => true
  | .num n => n == 0 || n == 1
  | .str s => s == "true" || s == "false" || s == "1" || s == "0"

/-- Mongoose's cast of a value assigned to a `Boolean` path (`convertToTrue` is
`true, 'true', 1, '1', 'yes'`, `convertToFalse` is `false, 'false', 0, '0', 'no'`);
`none` is a cast failure, which makes `save()` reject. -/
def castBoolean : JsVal → Option Bool
  | .bool b => some b
  | .num n => if n == 1 then some true else if n == 0 then some false else none
  | .str s =>
    if s == "true" || s == "1" || s == "yes" then some true
    else if s == "false" || s == "0" || s == "no" then some false
    else none
  | .null => none

/-- The characters of the JavaScript class `\s`, which `trim()` strips. -/
def isJsWhitespace (c : Char) : Bool :=
  let n := c.toNat
  n == 0x20 || (decide (0x09 ≤ n) && decide (n ≤ 0x0d)) || n == 0xa0 || n == 0x1680 ||
  (decide (0x2000 ≤ n) && decide (n ≤ 0x200a)) || n == 0x2028 || n == 0x2029 ||
  n == 0x202f || n == 0x205f || n == 0x3000 || n == 0xfeff

/-- The sanitizer `trim()`: white space is stripped from both ends. -/
def jsTrim (s : String) : String :=
  String.mk ((s.data.dropWhile isJsWhitespace).reverse.dropWhile isJsWhitespace).reverse

/-- Truthiness of a string (`if (s)`): non-empty. -/
def strTruthy (s : String) : Bool := s != ""

/-- Truthiness of an optional string (`undefined` is falsy). -/
def optTruthy : Option String → Bool
  | none => false
  | some s => strTruthy s

/-! ## Enumerations of the Crime schema -/

inductive Category where
  | theft | assault | vandalism | fraud | burglary | vehicle_theft | harassment
  | drug_related | other
  deriving DecidableEq, Repr

inductive Severity where
  | low | medium | high | critical
  deriving DecidableEq, Repr

inductive Status where
  | pending | under_investigation | resolved | closed | false_report
  deriving DecidableEq, Repr

inductive FirStatus where
  | not_requested | pending | approved | rejected
  deriving DecidableEq, Repr

inductive VerificationStatus where
  | unverified | verified | false_report
  deriving DecidableEq, Repr

inductive Priority where
  | low | normal | high | urgent
  deriving DecidableEq, Repr

def Category.toStr : Category → String
  | .theft => "theft" | .assault => "assault" | .vandalism => "vandalism"
  | .fraud => "fraud" | .burglary => "burglary" | .vehicle_theft => "vehicle_theft"
  | .harassment => "harassment" | .drug_related => "drug_related" | .other => "other"

def Category.all : List Category :=
  [.theft, .assault, .vandalism, .fraud, .burglary, .vehicle_theft, .harassment,
   .drug_related, .other]

def Category.ofStr (s : String) : Option Category :=
  Category.all.find? (fun c => c.toStr == s)

def Severity.toStr : Severity → String
  | .low => "low" | .medium => "medium" | .high => "high" | .critical => "critical"

def Severity.all : List Severity := [.low, .medium, .high, .critical]

def Severity.ofStr (s : String) : Option Severity :=
  Severity.all.find? (fun c => c.toStr == s)

def Status.toStr : Status → String
  | .pending => "pending" | .under_investigation => "under_investigation"
  | .resolved => "resolved" | .closed => "closed" | .false_report => "false_report"

def Status.all : List Status :=
  [.pending, .under_investigation, .resolved, .closed, .false_report]

def Status.ofStr (s : String) : Option Status :=
  Status.all.find? (fun c => c.toStr == s)

def VerificationStatus.toStr : VerificationStatus → String
  | .unverified => "unverified" | .verified => "verified"
  | .false_report => "false_report"

/-! ## Users -/

inductive Role where
  | citizen | police | admin
  deriving DecidableEq, Repr

def Role.toStr : Role → String
  | .citizen => "citizen" | .police => "police" | .admin => "admin"

def Role.all : List Role := [.citizen, .police, .admin]

def Role.ofStr (s : String) : Option Role :=
  Role.all.find? (fun c => c.toStr == s)

/-- Modelled from the spec: the User document (`models/User.js` is not among the
sources).  The spec gives it a role in citizen / police / admin, the flags isVerified and
isActive, and optional badgeNumber / department; the routes also read firstName, lastName
and email. -/
structure User where
  _id : ObjectId
  firstName : String
  lastName : String
  email : String
  role : Role
  isVerified : Bool
  isActive : Bool
  badgeNumber : Option String
  department : Option String
  deriving DecidableEq, Repr

/-! ## The Crime document (`models/Crime.js`) -/

structure Location where
  address : String
  lat : Rat
  lng : Rat
  city : Option String
  state : Option String
  zipCode : Option String
  deriving DecidableEq, Repr

structure EvidenceItem where
  url : String
  label : String
  uploadedAt : Time
  deriving DecidableEq, Repr

structure Evidence where
  photos : List EvidenceItem
  videos : List EvidenceItem
  documents : List EvidenceItem
  deriving DecidableEq, Repr

structure PoliceNote where
  officer : ObjectId
  note : String
  timestamp : Time
  deriving DecidableEq, Repr

structure Witness where
  name : String
  contact : String
  statement : String
  deriving DecidableEq, Repr

/-- A document of the `Crime` collection. -/
structure Crime where
  _id : ObjectId
  reporter : ObjectId
  title : String
  description : String
  category : Category
  severity : Severity
  location : Location
  dateTime : Time
  isAnonymous : Bool
  firRequested : Bool
  firStatus : FirStatus
  firNumber : Option String
  firApprovedAt : Option Time
  firApprovedBy : Option ObjectId
  evidence : Evidence
  status : Status
  assignedOfficer : Option ObjectId
  policeNotes : List PoliceNote
  verificationStatus : VerificationStatus
  verifiedBy : Option ObjectId
  verifiedAt : Option Time
  tags : List String
  priority : Priority
  estimatedLoss : Option Int
  witnesses : List Witness
  createdAt : Time
  updatedAt : Time
  deriving DecidableEq, Repr

/-- The database: the two collections.  MongoDB keeps `_id` unique within a collection;
nothing below relies on that. -/
structure Db where
  users : List User
  crimes : List Crime
  deriving DecidableEq, Repr

/-- The outcome of a request: `res.status(code).json(...)`. -/
inductive Response (α : Type) where
  | ok (code : Nat) (body : α)
  | error (code : Nat) (message : String)
  deriving DecidableEq, Repr

def Response.code {α : Type} : Response α → Nat
  | .ok c _ => c
  | .error c _ => c

def Response.isError {α : Type} : Response α → Bool
  | .ok _ _ => false
  | .error _ _ => true

/-- Lookup `User.findById(id)`. -/
def Db.findUser (db : Db) (id : ObjectId) : Option User :=
  db.users.find? (fun u => u._id == id)

/-- Lookup `Crime.findById(id)`. -/
def Db.findCrime (db : Db) (id : ObjectId) : Option Crime :=
  db.crimes.find? (fun c => c._id == id)

/-- Write a loaded document back (`doc.save()` on an existing document). -/
def Db.saveCrime (db : Db) (c : Crime) : Db :=
  { db with crimes := db.crimes.map (fun d => if d._id = c._id then c else d) }

/-- Write a loaded user back (`user.save()`). -/
def Db.saveUser (db : Db) (u : User) : Db :=
  { db with users := db.users.map (fun d => if d._id = u._id then u else d) }

/-! ## Listing reports: `GET /api/crimes` -/

/-- The query string of `GET /api/crimes`.  `page` and `limit` are the numbers the
query strings denote (absent: the defaults 1 and 20 of the destructuring). -/
structure ListQuery where
  page : Option Int
  limit : Option Int
  category : Option String
  status : Option String
  severity : Option String
  city : Option String
  startDate : Option String
  endDate : Option String
  search : Option String

/-- One element of a `$or` array: a conjunction of the conditions that are present. -/
structure OrClause where
  reporter : Option ObjectId
  isAnonymous : Option Bool
  statusNe : Option String
  title : Option (String → Bool)
  description : Option (String → Bool)

/-- The `dateTime` sub-object of the filter (`$gte` / `$lte`). -/
structure DateRange where
  gte : Option Time
  lte : Option Time

/-- The MongoDB filter object built by the list handler.  It is a keyed object: assigning
a key again replaces what the key held. -/
structure Filter where
  category : Option String
  status : Option String
  severity : Option String
  city : Option (String → Bool)
  or : Option (List OrClause)
  dateTime : Option DateRange

/-- The empty filter `\x7b\x7d`. -/
def Filter.empty : Filter :=
  { category := none, status := none, severity := none, city := none, or := none,
    dateTime := none }

/-- A condition that is absent holds. -/
def holdsIfPresent {α : Type} (o : Option α) (p : α → Bool) : Bool :=
  match o with
  | none => true
  | some a => p a

/-- Does the document satisfy one `$or` element? -/
def OrClause.holds (cl : OrClause) (c : Crime) : Bool :=
  holdsIfPresent cl.reporter (fun id => c.reporter == id) &&
  holdsIfPresent cl.isAnonymous (fun b => c.isAnonymous == b) &&
  holdsIfPresent cl.statusNe (fun s => c.status.toStr != s) &&
  holdsIfPresent cl.title (fun re => re c.title) &&
  holdsIfPresent cl.description (fun re => re c.description)

/-- A regular expression on the optional field `location.city`: a missing field does not
match. -/
def cityMatches (re : String → Bool) (c : Crime) : Bool :=
  match c.location.city with
  | none => false
  | some s => re s

/-- Does the document satisfy the filter (MongoDB query semantics of the operators the
handler uses)? -/
def Filter.holds (f : Filter) (c : Crime) : Bool :=
  holdsIfPresent f.category (fun s => c.category.toStr == s) &&
  holdsIfPresent f.status (fun s => c.status.toStr == s) &&
  holdsIfPresent f.severity (fun s => c.severity.toStr == s) &&
  holdsIfPresent f.city (fun re => cityMatches re c) &&
  holdsIfPresent f.or (fun cls => cls.any (fun cl => cl.holds c)) &&
  holdsIfPresent f.dateTime (fun r =>
    holdsIfPresent r.gte (fun t => decide (t ≤ c.dateTime)) &&
    holdsIfPresent r.lte (fun t => decide (c.dateTime ≤ t)))

/-- The two external engines the list handler calls: `new RegExp(p, 'i')` (`none`: the
pattern is not a regular expression and the constructor throws) and `new Date(s)`
(`none`: an invalid date, which the query rejects when it casts the filter). -/
structure Engines where
  regExp : String → Option (String → Bool)
  parseDate : String → Option Time

/-- The array `[ \x7b title: re \x7d, \x7b description: re \x7d ]` of the search step. -/
def searchClauses (re : String → Bool) : List OrClause :=
  [ { reporter := none, isAnonymous := none, statusNe := none,
      title := some re, description := none },
    { reporter := none, isAnonymous := none, statusNe := none,
      title := none, description := some re } ]

/-- The array `[ \x7b reporter: id \x7d, \x7b isAnonymous: false, status: \x7b $ne: 'closed' \x7d \x7d ]`
of the role step. -/
def citizenClauses (id : ObjectId) : List OrClause :=
  [ { reporter := some id, isAnonymous := none, statusNe := none,
      title := none, description := none },
    { reporter := none, isAnonymous := some false, statusNe := some "closed",
      title := none, description := none } ]

/-- Step `if (category) ... if (status) ... if (severity) ...` of the handler. -/
def applyEnumFilters (q : ListQuery) (f : Filter) : Filter :=
  let f := if optTruthy q.category then { f with category := q.category } else f
  let f := if optTruthy q.status then { f with status := q.status } else f
  if optTruthy q.severity then { f with severity := q.severity } else f

/-- Step `if (city) filter['location.city'] = new RegExp(city, 'i')`. -/
def applyCityFilter (e : Engines) (q : ListQuery) (f : Filter) : Option Filter :=
  match q.city with
  | none => some f
  | some p =>
    if strTruthy p then (e.regExp p).map (fun re => { f with city := some re })
    else some f

/-- Step `if (search) filter.$or = [ \x7b title \x7d, \x7b description \x7d ]`. -/
def applySearchFilter (e : Engines) (q : ListQuery) (f : Filter) : Option Filter :=
  match q.search with
  | none => some f
  | some p =>
    if strTruthy p then
      (e.regExp p).map (fun re => { f with or := some (searchClauses re) })
    else some f

/-- One bound of the date range: absent stays absent, present must parse. -/
def parseBound (e : Engines) (o : Option String) : Option (Option Time) :=
  match o with
  | none => some none
  | some s => if strTruthy s then (e.parseDate s).map some else some none

/-- Step `if (startDate || endDate) ...`. -/
def applyDateFilter (e : Engines) (q : ListQuery) (f : Filter) : Option Filter :=
  if optTruthy q.startDate || optTruthy q.endDate then
    match parseBound e q.startDate, parseBound e q.endDate with
    | some g, some l => some { f with dateTime := some { gte := g, lte := l } }
    | _, _ => none
  else some f

/-- Step "Role-based filtering": a citizen gets the `$or` key (re)assigned, police and
admin get nothing added. -/
def applyRoleFilter (actor : User) (f : Filter) : Filter :=
  if actor.role = .citizen then
    { f with or := some (citizenClauses actor._id) }
  else f

/-- The filter part built from the query string alone (`none`: an exception). -/
def queryFilter (e : Engines) (q : ListQuery) : Option Filter :=
  (applyCityFilter e q (applyEnumFilters q Filter.empty)).bind (fun f =>
    (applySearchFilter e q f).bind (fun f => applyDateFilter e q f))

/-- The whole filter of the list handler (lines 138-170). -/
def buildFilter (e : Engines) (actor : User) (q : ListQuery) : Option Filter :=
  (queryFilter e q).map (applyRoleFilter actor)

/-- The populated reference `populate(path, 'firstName lastName ...')` puts in place of
an id: the selected fields of the referenced user, `_id` included. -/
structure UserRef where
  _id : ObjectId
  firstName : String
  lastName : String
  badgeNumber : Option String
  deriving DecidableEq, Repr

/-- Populate a reference: `none` (JavaScript `null`) when no user has the id. -/
def Db.populateRef (db : Db) (withBadge : Bool) (id : ObjectId) : Option UserRef :=
  (db.findUser id).map (fun u =>
    { _id := u._id, firstName := u.firstName, lastName := u.lastName,
      badgeNumber := if withBadge then u.badgeNumber else none })

/-- A Crime document after `populate('reporter')` and `populate('assignedOfficer')`: the
stored document and what the two references resolve to. -/
structure PopulatedCrime where
  doc : Crime
  reporter : Option UserRef
  assignedOfficer : Option UserRef
  deriving DecidableEq, Repr

def Db.populate (db : Db) (c : Crime) : PopulatedCrime :=
  { doc := c
    reporter := db.populateRef false c.reporter
    assignedOfficer := c.assignedOfficer.bind (db.populateRef true) }

structure Pagination where
  currentPage : Int
  totalPages : Option Int
  totalItems : Nat
  itemsPerPage : Int
  deriving DecidableEq, Repr

structure ListBody where
  crimes : List PopulatedCrime
  pagination : Pagination
  deriving DecidableEq, Repr

/-- Order of `sort(\x7b createdAt: -1 \x7d)`: newest first. -/
def newerFirst (a b : Crime) : Prop := b.createdAt ≤ a.createdAt

instance : DecidableRel newerFirst := fun a b =>
  inferInstanceAs (Decidable (b.createdAt ≤ a.createdAt))

/-- The cursor modifier `limit(n)`: 0 is no limit, a negative number asks for at most
its absolute value. -/
def applyLimit (n : Int) (l : List Crime) : List Crime :=
  if n = 0 then l else l.take n.natAbs

/-- The value `Math.ceil(total / limit)` (`none` when `limit` is 0 and the quotient is
not a number). -/
def ceilDiv (total : Nat) (limit : Int) : Option Int :=
  if limit = 0 then none else some (-(Int.fdiv (-(total : Int)) limit))

/-- The handler of `GET /api/crimes`. -/
def getCrimes (e : Engines) (db : Db) (actor : User) (q : ListQuery) :
    Response ListBody :=
  let page := q.page.getD 1
  let limit := q.limit.getD 20
  match buildFilter e actor q with
  | none => .error 500 "Server error while fetching crimes"
  | some filter =>
    let skip := (page - 1) * limit
    if skip < 0 then .error 500 "Server error while fetching crimes"
    else
      let found := (db.crimes.filter filter.holds).insertionSort newerFirst
      let crimes := applyLimit limit (found.drop skip.toNat)
      let total := (db.crimes.filter filter.holds).length
      .ok 200
        { crimes := crimes.map db.populate
          pagination :=
            { currentPage := page
              totalPages := ceilDiv total limit
              totalItems := total
              itemsPerPage := limit } }

/-- The reference definition of the spec, section 4.2: `visibleReportsFilter(actor)`. -/
def visibleReportsFilter (actor : User) (r : Crime) : Bool :=
  match actor.role with
  | .citizen => r.reporter == actor._id || (r.isAnonymous == false && r.status != .closed)
  | .police => true
  | .admin => true

/-! ## Creating a report: `POST /api/crimes` -/

/-- The body of `POST /api/crimes`.  `lat`, `lng` are the numbers the fields denote
(`none`: not a float) and `dateTime` the instant the field denotes (`none`: not an
ISO 8601 date); the two flags are raw JSON values (`none`: the key is absent). -/
structure CreateBody where
  title : String
  description : String
  category : String
  severity : String
  address : String
  city : Option String
  state : Option String
  zipCode : Option String
  lat : Option Rat
  lng : Option Rat
  dateTime : Option Time
  isAnonymous : Option JsVal
  firRequested : Option JsVal
  evidence : Option Evidence
  estimatedLoss : Option Int
  witnesses : Option (List Witness)
  tags : Option (List String)

/-- The check `isLength(\x7b min, max \x7d)`. -/
def isLength (min max : Nat) (s : String) : Bool :=
  decide (min ≤ s.length) && decide (s.length ≤ max)

/-- The check `isFloat(\x7b min, max \x7d)` on a field that may not denote a number. -/
def isFloatIn (min max : Rat) (x : Option Rat) : Bool :=
  match x with
  | none => false
  | some v => decide (min ≤ v) && decide (v ≤ max)

/-- The chain `optional().isBoolean()`: an absent key passes. -/
def optionalIsBoolean (x : Option JsVal) : Bool :=
  match x with
  | none => true
  | some v => isBooleanValidator v

/-- The validation chain of `POST /api/crimes` (lines 16-50): `validationResult(req)` is
empty. -/
def validateCreate (b : CreateBody) : Bool :=
  isLength 5 200 (jsTrim b.title) &&
  isLength 10 1000 (jsTrim b.description) &&
  (Category.ofStr b.category).isSome &&
  (Severity.ofStr b.severity).isSome &&
  jsTrim b.address != "" &&
  isFloatIn (-90) 90 b.lat &&
  isFloatIn (-180) 180 b.lng &&
  b.dateTime.isSome &&
  optionalIsBoolean b.isAnonymous &&
  optionalIsBoolean b.firRequested

/-- What `queueFIRConfirmation(email, firstName, crime)` is called with. -/
structure FirConfirmation where
  email : String
  userName : String
  crimeData : Crime
  deriving DecidableEq, Repr

/-- The `reporter` key of the create response. -/
inductive ReporterView where
  | anonymous
  | populated (firstName lastName email : String)
  | null
  deriving DecidableEq, Repr

structure CreateResponse where
  crime : Crime
  reporter : ReporterView
  deriving DecidableEq, Repr

/-- All effects of one create request. -/
structure CreateResult where
  response : Response CreateResponse
  db : Db
  queued : Option FirConfirmation

/-- The document `new Crime(\x7b ... \x7d)` of lines 77-92 after Mongoose has cast the fields
and filled the schema defaults; `firStatus` is chosen from the raw `firRequested`. -/
def newCrime (actor : User) (b : CreateBody) (newId : ObjectId) (now : Time)
    (cat : Category) (sev : Severity) (lat lng : Rat) (dt : Time) (anon fir : Bool)
    (firRequested : JsVal) : Crime :=
  { _id := newId
    reporter := actor._id
    title := jsTrim b.title
    description := jsTrim b.description
    category := cat
    severity := sev
    location :=
      { address := jsTrim b.address, lat := lat, lng := lng, city := b.city,
        state := b.state, zipCode := b.zipCode }
    dateTime := dt
    isAnonymous := anon
    firRequested := fir
    firStatus := if firRequested.truthy then .pending else .not_requested
    firNumber := none
    firApprovedAt := none
    firApprovedBy := none
    evidence := b.evidence.getD { photos := [], videos := [], documents := [] }
    status := .pending
    assignedOfficer := none
    policeNotes := []
    verificationStatus := .unverified
    verifiedBy := none
    verifiedAt := none
    tags := b.tags.getD []
    priority := .normal
    estimatedLoss := b.estimatedLoss
    witnesses := b.witnesses.getD []
    createdAt := now
    updatedAt := now }

/-- JavaScript `s.length`: the number of UTF-16 code units, two for a character outside
the basic plane. -/
def utf16Length (s : String) : Nat :=
  (s.data.map (fun c => if c.toNat < 0x10000 then 1 else 2)).sum

/-- The schema validators `maxlength: 200` of `title` and `maxlength: 1000` of
`description` (Crime.js lines 13 and 19), which `save()` runs on the JavaScript length of
the strings; when one fails `save()` rejects. -/
def schemaLengthsOk (title description : String) : Bool :=
  decide (utf16Length title ≤ 200) && decide (utf16Length description ≤ 1000)

/-- The handler of `POST /api/crimes`.  `newId` is the ObjectId the driver generates for
the new document, `now` the clock.  The validation chain counts characters, the schema
counts UTF-16 code units. -/
def postCrime (db : Db) (actor : User) (b : CreateBody) (newId : ObjectId) (now : Time) :
    CreateResult :=
  if !validateCreate b then
    { response := .error 400 "Validation failed", db := db, queued := none }
  else
    let isAnonymous := b.isAnonymous.getD (.bool false)
    let firRequested := b.firRequested.getD (.bool false)
    match Category.ofStr b.category, Severity.ofStr b.severity, b.lat, b.lng, b.dateTime,
        castBoolean isAnonymous, castBoolean firRequested with
    | some cat, some sev, some lat, some lng, some dt, some anon, some fir =>
      let crime := newCrime actor b newId now cat sev lat lng dt anon fir firRequested
      if !schemaLengthsOk crime.title crime.description then
        { response := .error 500 "Server error during crime report submission", db := db,
          queued := none }
      else
      { response := .ok 201
          { crime := crime
            reporter :=
              if isAnonymous.truthy then .anonymous
              else match db.findUser actor._id with
                | some u => .populated u.firstName u.lastName u.email
                | none => .null }
        db := { db with crimes := db.crimes ++ [crime] }
        queued :=
          if firRequested.truthy && !isAnonymous.truthy then
            some { email := actor.email, userName := actor.firstName, crimeData := crime }
          else none }
    | _, _, _, _, _, _, _ =>
      { response := .error 500 "Server error during crime report submission", db := db,
        queued := none }

/-! ## Viewing one report: `GET /api/crimes/:id` -/

/-- Rendering `Document.prototype.toString()` of a populated reference: Mongoose returns
the `util.inspect` dump of the sub-document, not its id. -/
def userRefToString (u : UserRef) : String :=
  "\x7b _id: new ObjectId('" ++ objectIdToString u._id ++ "'), firstName: '" ++
    u.firstName ++ "', lastName: '" ++ u.lastName ++ "' \x7d"

/-- The body of the detail response: the report with `reporter`, `assignedOfficer` and
`policeNotes.officer` populated. -/
structure DetailBody where
  crime : PopulatedCrime
  noteOfficers : List (Option UserRef)
  deriving DecidableEq, Repr

def Db.populateDetail (db : Db) (c : Crime) : DetailBody :=
  { crime := db.populate c
    noteOfficers := c.policeNotes.map (fun n => db.populateRef true n.officer) }

/-- The handler of `GET /api/crimes/:id` (lines 202-226).  After `populate('reporter')`
the expression `crime.reporter` is the populated sub-document, or `null` when the user
is gone, in which case `crime.reporter.toString()` throws. -/
def getCrimeById (db : Db) (actor : User) (id : ObjectId) : Response DetailBody :=
  match db.findCrime id with
  | none => .error 404 "Crime report not found"
  | some crime =>
    let body := db.populateDetail crime
    if actor.role = .citizen then
      match body.crime.reporter with
      | none => .error 500 "Server error while fetching crime report"
      | some r =>
        if userRefToString r != objectIdToString actor._id && crime.isAnonymous then
          .error 403 "Access denied"
        else .ok 200 body
    else .ok 200 body

/-! ## The methods of the Crime model -/

/-- Method `crimeSchema.methods.updateStatus(newStatus, officerId, note = '')`: the
document as `this.save()` stores it. -/
def Crime.updateStatus (c : Crime) (newStatus : Status) (officerId : Option ObjectId)
    (note : Option String) (now : Time) : Crime :=
  let note := note.getD ""
  let c := { c with status := newStatus, updatedAt := now }
  match officerId with
  | some o =>
    if strTruthy note then
      { c with policeNotes := c.policeNotes ++ [{ officer := o, note := note, timestamp := now }] }
    else c
  | none => c

/-- Method `crimeSchema.methods.assignOfficer(officerId)`. -/
def Crime.assignOfficer (c : Crime) (officerId : ObjectId) (now : Time) : Crime :=
  { c with assignedOfficer := some officerId, updatedAt := now }

/-- Method `crimeSchema.methods.verifyReport(verificationStatus, verifiedBy)`. -/
def Crime.verifyReport (c : Crime) (v : VerificationStatus) (verifiedBy : ObjectId)
    (now : Time) : Crime :=
  { c with verificationStatus := v, verifiedBy := some verifiedBy, verifiedAt := some now,
           updatedAt := now }

/-- Saving a document of a schema with `timestamps: true`: a modified document gets
`updatedAt` set to the clock, an unmodified one is left as stored. -/
def Db.saveModified (db : Db) (loaded modified : Crime) (now : Time) : Db :=
  if modified = loaded then db else db.saveCrime { modified with updatedAt := now }

/-! ## `PUT /api/crimes/:id/status` -/

structure StatusBody where
  status : String
  note : Option String

/-- The validation chain of the status route: `status` in the enum, `note` optional and,
when given, not empty after trimming. -/
def validateStatus (b : StatusBody) : Bool :=
  (Status.ofStr b.status).isSome &&
  (match b.note with
   | none => true
   | some n => jsTrim n != "")

/-- The handler of `PUT /api/crimes/:id/status`. -/
def putCrimeStatus (db : Db) (actor : User) (id : ObjectId) (b : StatusBody) (now : Time) :
    Response Crime × Db :=
  if !validateStatus b then (.error 400 "Validation failed", db)
  else
    match db.findCrime id with
    | none => (.error 404 "Crime report not found", db)
    | some crime =>
      match Status.ofStr b.status with
      | none => (.error 500 "Server error during status update", db)
      | some st =>
        let crime := crime.updateStatus st (some actor._id) (b.note.map jsTrim) now
        (.ok 200 crime, db.saveCrime crime)

/-! ## `PUT /api/crimes/:id/assign` -/

/-- The handler of `PUT /api/crimes/:id/assign` (lines 282-315).  `officerId` is `none`
when the body field is not a MongoId, which the validation chain rejects. -/
def putCrimeAssign (db : Db) (id : ObjectId) (officerId : Option ObjectId) (now : Time) :
    Response Crime × Db :=
  match officerId with
  | none => (.error 400 "Validation failed", db)
  | some officerId =>
    match db.findUser officerId with
    | none => (.error 400 "Invalid officer ID", db)
    | some officer =>
      if officer.role ≠ .police then (.error 400 "Invalid officer ID", db)
      else
        match db.findCrime id with
        | none => (.error 404 "Crime report not found", db)
        | some crime =>
          let crime := crime.assignOfficer officerId now
          (.ok 200 crime, db.saveCrime crime)

/-! ## `PUT /api/crimes/:id/fir` -/

structure FirBody where
  action : String
  firNumber : Option String
  note : Option String

/-- The validation chain of the FIR route: `action` is approve or reject, `firNumber` is
optional and has 3 to 50 characters when given, `note` is optional. -/
def validateFir (b : FirBody) : Bool :=
  (b.action == "approve" || b.action == "reject") &&
  (match b.firNumber with
   | none => true
   | some n => isLength 3 50 n)

/-- The value of `a || b || c` on optional strings with a string at the end. -/
def firstTruthy (a b : Option String) (c : String) : String :=
  match a with
  | some x => if strTruthy x then x else
    match b with
    | some y => if strTruthy y then y else c
    | none => c
  | none =>
    match b with
    | some y => if strTruthy y then y else c
    | none => c

/-- The fallback token of the approve branch, built from `Date.now()`. -/
def fallbackFirNumber (now : Time) : String := "FIR-" ++ toString now

/-- Lines 521-531: the approve / reject branches. -/
def applyFirAction (c : Crime) (actor : User) (b : FirBody) (now : Time) : Crime :=
  if b.action == "approve" then
    { c with firStatus := .approved
             firNumber := some (firstTruthy b.firNumber c.firNumber (fallbackFirNumber now))
             firApprovedAt := some now
             firApprovedBy := some actor._id }
  else if b.action == "reject" then
    { c with firStatus := .rejected
             firApprovedAt := none
             firApprovedBy := none
             firNumber := none }
  else c

/-- Lines 533-536: `if (note) crime.policeNotes.push(...)`, on the trimmed note. -/
def appendFirNote (c : Crime) (actor : User) (note : Option String) (now : Time) : Crime :=
  match note with
  | none => c
  | some n =>
    if strTruthy (jsTrim n) then
      { c with policeNotes :=
          c.policeNotes ++ [{ officer := actor._id, note := jsTrim n, timestamp := now }] }
    else c

/-- The handler of `PUT /api/crimes/:id/fir` (lines 501-548). -/
def putCrimeFir (db : Db) (actor : User) (id : ObjectId) (b : FirBody) (now : Time) :
    Response Crime × Db :=
  if !validateFir b then (.error 400 "Validation failed", db)
  else
    match db.findCrime id with
    | none => (.error 404 "Crime report not found", db)
    | some crime =>
      if crime.firStatus = .not_requested then
        (.error 400 "FIR was not requested for this report", db)
      else
        let updated := appendFirNote (applyFirAction crime actor b now) actor b.note now
        let db := db.saveModified crime updated now
        (.ok 200 (if updated = crime then crime else { updated with updatedAt := now }), db)

/-! ## Administration: `routes/admin.js` -/

/-- The handler of `PUT /api/admin/crimes/:id/verify`. -/
def putCrimeVerify (db : Db) (actor : User) (id : ObjectId) (verificationStatus : String)
    (now : Time) : Response Crime × Db :=
  let v : Option VerificationStatus :=
    if verificationStatus == "verified" then some .verified
    else if verificationStatus == "false_report" then some .false_report
    else none
  match v with
  | none => (.error 400 "Validation failed", db)
  | some v =>
    match db.findCrime id with
    | none => (.error 404 "Crime report not found", db)
    | some crime =>
      let crime := crime.verifyReport v actor._id now
      (.ok 200 crime, db.saveCrime crime)

/-- The chain `body(field).isBoolean()` without `optional()`: an absent key fails. -/
def requiredIsBoolean (x : Option JsVal) : Option JsVal :=
  match x with
  | none => none
  | some v => if isBooleanValidator v then some v else none

/-- The handler of `PUT /api/admin/users/:id/verify`. -/
def putUserVerify (db : Db) (id : ObjectId) (isVerified : Option JsVal) :
    Response User × Db :=
  match requiredIsBoolean isVerified with
  | none => (.error 400 "Validation failed", db)
  | some v =>
    match db.findUser id with
    | none => (.error 404 "User not found", db)
    | some user =>
      if user.role ≠ .police then (.error 400 "Only police accounts can be verified", db)
      else
        match castBoolean v with
        | none => (.error 500 "Server error during user verification", db)
        | some flag =>
          let user := { user with isVerified := flag }
          (.ok 200 user, db.saveUser user)

/-- The handler of `PUT /api/admin/users/:id/status` (lines 137-170). -/
def putUserStatus (db : Db) (actor : User) (id : ObjectId) (isActive : Option JsVal) :
    Response User × Db :=
  match requiredIsBoolean isActive with
  | none => (.error 400 "Validation failed", db)
  | some v =>
    match db.findUser id with
    | none => (.error 404 "User not found", db)
    | some user =>
      if objectIdToString user._id = objectIdToString actor._id then
        (.error 400 "Cannot deactivate your own account", db)
      else
        match castBoolean v with
        | none => (.error 500 "Server error during user status update", db)
        | some flag =>
          let user := { user with isActive := flag }
          (.ok 200 user, db.saveUser user)

/-- The handler of `PUT /api/admin/users/:id/role` (lines 180-223).  `role` is the body
field as a string (absent: the empty string, which the enum check rejects). -/
def putUserRole (db : Db) (actor : User) (id : ObjectId) (role : String) :
    Response User × Db :=
  match Role.ofStr role with
  | none => (.error 400 "Validation failed", db)
  | some role =>
    match db.findUser id with
    | none => (.error 404 "User not found", db)
    | some user =>
      if objectIdToString user._id = objectIdToString actor._id then
        (.error 400 "Cannot change your own role", db)
      else
        let user := { user with role := role }
        let user :=
          if role = .citizen then
            { user with isVerified := true, badgeNumber := none, department := none }
          else if role = .police then { user with isVerified := false }
          else user
        (.ok 200 user, db.saveUser user)

/-- The handler of `DELETE /api/admin/users/:id` (lines 229-257). -/
def deleteUser (db : Db) (actor : User) (id : ObjectId) : Response Unit × Db :=
  match db.findUser id with
  | none => (.error 404 "User not found", db)
  | some user =>
    if objectIdToString user._id = objectIdToString actor._id then
      (.error 400 "Cannot delete your own account", db)
    else
      let crimeCount := (db.crimes.filter (fun c => c.reporter == user._id)).length
      if crimeCount > 0 then
        (.error 400 "Cannot delete user with existing crime reports. Deactivate instead.", db)
      else
        (.ok 200 (), { db with users := db.users.filter (fun u => u._id != id) })

/-! ## Sequences of requests -/

/-- One mutating request with everything it depends on. -/
inductive Op where
  | create (actor : User) (b : CreateBody) (newId : ObjectId) (now : Time)
  | updateStatus (actor : User) (id : ObjectId) (b : StatusBody) (now : Time)
  | assignOfficer (id : ObjectId) (officerId : Option ObjectId) (now : Time)
  | updateFIR (actor : User) (id : ObjectId) (b : FirBody) (now : Time)
  | verifyReport (actor : User) (id : ObjectId) (verificationStatus : String) (now : Time)
  | verifyPoliceAccount (id : ObjectId) (isVerified : Option JsVal)
  | setUserActive (actor : User) (id : ObjectId) (isActive : Option JsVal)
  | setUserRole (actor : User) (id : ObjectId) (role : String)
  | deleteUser (actor : User) (id : ObjectId)

/-- The database after the request. -/
def Op.run (db : Db) : Op → Db
  | .create actor b newId now => (postCrime db actor b newId now).db
  | .updateStatus actor id b now => (putCrimeStatus db actor id b now).2
  | .assignOfficer id officerId now => (putCrimeAssign db id officerId now).2
  | .updateFIR actor id b now => (putCrimeFir db actor id b now).2
  | .verifyReport actor id v now => (putCrimeVerify db actor id v now).2
  | .verifyPoliceAccount id v => (putUserVerify db id v).2
  | .setUserActive actor id v => (putUserStatus db actor id v).2
  | .setUserRole actor id role => (putUserRole db actor id role).2
  | .deleteUser actor id => (CrimeReporting.deleteUser db actor id).2

/-- The database after a sequence of requests, oldest first. -/
def runOps (db : Db) (ops : List Op) : Db := ops.foldl Op.run db

/-- Requests that change a user's role or remove a user. -/
def Op.changesRoleOrDeletes : Op → Bool
  | .setUserRole _ _ _ => true
  | .deleteUser _ _ => true
  | _ => false

/-- The FIR approval fields are set only on an approved report. -/
def firFieldsOnlyWhenApproved (c : Crime) : Prop :=
  (c.firNumber.isSome ∨ c.firApprovedAt.isSome ∨ c.firApprovedBy.isSome) →
    c.firStatus = .approved

instance (c : Crime) : Decidable (firFieldsOnlyWhenApproved c) :=
  inferInstanceAs (Decidable (_ → _))

/-- The assigned officer of the report, when present, resolves to a police user. -/
def officerIsPolice (db : Db) (c : Crime) : Prop :=
  ∀ o, c.assignedOfficer = some o → ∃ u, db.findUser o = some u ∧ u.role = .police

/-- The invariant of the FIR sub-state at creation: `firStatus` is not_requested exactly
when `firRequested` is false. -/
def firStatusMatchesRequest (c : Crime) : Prop :=
  c.firStatus = .not_requested ↔ c.firRequested = false

instance (c : Crime) : Decidable (firStatusMatchesRequest c) :=
  inferInstanceAs (Decidable (_ ↔ _))

/-- The reports of a list response (none when the request failed). -/
def listedReports (r : Response ListBody) : List PopulatedCrime :=
  match r with
  | .ok _ body => body.crimes
  | .error _ _ => []

/-- The query string without any parameter. -/
def emptyQuery : ListQuery :=
  { page := none, limit := none, category := none, status := none, severity := none,
    city := none, startDate := none, endDate := none, search := none }

/-! ## Sample data -/

def citizenA : User :=
  { _id := 1, firstName := "Asha", lastName := "Rao", email := "asha@example.org",
    role := .citizen, isVerified := true, isActive := true, badgeNumber := none,
    department := none }

def citizenB : User :=
  { _id := 2, firstName := "Bala", lastName := "Nair", email := "bala@example.org",
    role := .citizen, isVerified := true, isActive := true, badgeNumber := none,
    department := none }

def officerP : User :=
  { _id := 3, firstName := "Priya", lastName := "Das", email := "priya@example.org",
    role := .police, isVerified := true, isActive := true, badgeNumber := some "B-17",
    department := some "Central" }

def adminX : User :=
  { _id := 4, firstName := "Xavier", lastName := "Roy", email := "xavier@example.org",
    role := .admin, isVerified := true, isActive := true, badgeNumber := none,
    department := none }

def sampleUsers : List User := [citizenA, citizenB, officerP, adminX]

/-- The create request of the spec's scenario ("Bike stolen"), with `firRequested` and
`isAnonymous` left to the caller. -/
def bikeBody (isAnonymous firRequested : Option JsVal) : CreateBody :=
  { title := "Bike stolen"
    description := "Bike taken from porch overnight"
    category := "theft"
    severity := "low"
    address := "1 Elm St"
    city := none, state := none, zipCode := none
    lat := some 40
    lng := some (-75)
    dateTime := some 1700000000000
    isAnonymous := isAnonymous
    firRequested := firRequested
    evidence := none, estimatedLoss := none, witnesses := none, tags := none }

/-- A stored report of citizen A, pending, with a FIR requested. -/
def bikeReport : Crime :=
  { _id := 100
    reporter := 1
    title := "Bike stolen"
    description := "Bike taken from porch overnight"
    category := .theft
    severity := .low
    location :=
      { address := "1 Elm St", lat := 40, lng := -75, city := none, state := none,
        zipCode := none }
    dateTime := 1700000000000
    isAnonymous := false
    firRequested := true
    firStatus := .pending
    firNumber := none
    firApprovedAt := none
    firApprovedBy := none
    evidence := { photos := [], videos := [], documents := [] }
    status := .pending
    assignedOfficer := none
    policeNotes := []
    verificationStatus := .unverified
    verifiedBy := none
    verifiedAt := none
    tags := []
    priority := .normal
    estimatedLoss := none
    witnesses := []
    createdAt := 1700000000500
    updatedAt := 1700000000500 }

/-- Engines for the examples: a pattern matches the strings equal to it, no string is a
date. -/
def sampleEngines : Engines :=
  { regExp := fun p => some (fun s => decide (p = s))
    parseDate := fun _ => none }

/-- A store with an anonymous report of A, a public report of A and an anonymous report
of B. -/
def sampleDb : Db :=
  { users := sampleUsers
    crimes :=
      [ { bikeReport with _id := 101, isAnonymous := true, createdAt := 10 },
        { bikeReport with _id := 102, createdAt := 20 },
        { bikeReport with _id := 103, reporter := 2, isAnonymous := true, createdAt := 30 } ] }

/-- A stored report of citizen A for which no FIR was requested. -/
def quietReport : Crime :=
  { bikeReport with _id := 104, firRequested := false, firStatus := .not_requested }

/-- A store with one report waiting for a FIR decision and one without a FIR request. -/
def firDb : Db := { users := sampleUsers, crimes := [bikeReport, quietReport] }

/-- A run of the FIR workflow: citizen A files the scenario's report with a FIR request,
an officer takes the case, the admin approves the FIR as "ABC123" and verifies the
report. -/
def firWorkflow : List Op :=
  [ .create citizenA (bikeBody none (some (.bool true))) 200 5000,
    .updateStatus officerP 200 { status := "under_investigation", note := some "on it" } 6000,
    .updateFIR adminX 200 { action := "approve", firNumber := some "ABC123", note := none } 7000,
    .verifyReport adminX 200 "verified" 8000 ]

/-- Does `officerId` resolve to a user whose role is police? -/
def resolvesToPolice (db : Db) (officerId : Option ObjectId) : Bool :=
  match officerId.bind db.findUser with
  | none => false
  | some u => u.role == .police

/-- Is the user the assigned officer of no report? -/
def Db.unassigned (db : Db) (id : ObjectId) : Bool :=
  db.crimes.all (fun c => c.assignedOfficer != some id)

/-- A request that does not take the police role away from an assigned officer: any
request other than a role change or a deletion, a role change to police, or a role change
or deletion whose target is the assigned officer of no report. -/
def Op.sparesOfficers (db : Db) : Op → Bool
  | .setUserRole _ id role => Role.ofStr role == some .police || db.unassigned id
  | .deleteUser _ id => db.unassigned id
  | _ => true

/-- Every request of the sequence spares the assigned officers of the database it is
made on. -/
def sparesOfficersAlong (db : Db) : List Op → Bool
  | [] => true
  | op :: rest => op.sparesOfficers db && sparesOfficersAlong (op.run db) rest

/-- Citizen A files a report, the admin assigns officer P to it, then the admin makes P
a citizen. -/
def demoteAfterAssign : List Op :=
  [ .create citizenA (bikeBody none none) 200 5000,
    .assignOfficer 200 (some 3) 6000,
    .setUserRole adminX 3 "citizen" ]

/-- Citizen A files a report, the admin assigns officer P to it, then the admin deletes
P's account. -/
def deleteAfterAssign : List Op :=
  [ .create citizenA (bikeBody none none) 200 5000,
    .assignOfficer 200 (some 3) 6000,
    .deleteUser adminX 3 ]

/-- Citizen A files a report, the admin assigns officer P to it, P is deactivated and
citizen B is made an admin. -/
def harmlessAdministration : List Op :=
  [ .create citizenA (bikeBody none none) 200 5000,
    .assignOfficer 200 (some 3) 6000,
    .setUserActive adminX 3 (some (.bool false)),
    .setUserRole adminX 2 "admin" ]

/-! ## The email queue: `services/emailQueue.js`

The module state is the array `emailQueue` and the flag `isProcessing`.  The event loop
is single-threaded: a step below is one turn of it (a call from a request handler, the
completion of a send, the end of the 100 ms pause, a retry timer firing).  An execution
of `processEmailQueue` that is suspended at an `await` is a `Worker`; the retry timers that
were set and have not fired are kept with their delay.  The calls to the send functions of
`emailService.js` and the sends reported as successful are recorded in two logs. -/

/-- The argument of `addEmailTask`: the fields the callers pass, and `attempts` /
`maxAttempts` in case the argument carries them. -/
structure TaskInput where
  type : String
  email : String
  userName : String
  crimeData : Option Crime
  resetToken : Option String
  attempts : Option Nat
  maxAttempts : Option Nat
  deriving DecidableEq, Repr

/-- An entry of `emailQueue`.  `id` is the number `Date.now() + Math.random()`. -/
structure EmailTask where
  type : String
  email : String
  userName : String
  crimeData : Option Crime
  resetToken : Option String
  id : Rat
  createdAt : Time
  attempts : Nat
  maxAttempts : Nat
  deriving DecidableEq, Repr

/-- The two cases of the `switch (task.type)`; everything else is the `default`. -/
def knownKind (type : String) : Bool :=
  type == "fir_confirmation" || type == "password_reset"

/-- How a send ends: `result.success` is true, `result.success` is false (the handler
throws itself), or the send function throws. -/
inductive SendOutcome where
  | success
  | failed
  | threw
  deriving DecidableEq, Repr

/-- An execution of `processEmailQueue` suspended at an `await`: at the send of the task
it took (lines 40 / 48) or at the 100 ms pause (line 87). -/
inductive Worker where
  | awaitingSend (task : EmailTask)
  | awaitingDelay
  deriving DecidableEq, Repr

/-- A retry timer set at line 74 and not yet fired: the task it re-inserts and its delay
in milliseconds. -/
structure RetryTimer where
  task : EmailTask
  delay : Nat
  deriving DecidableEq, Repr

structure QueueState where
  emailQueue : List EmailTask
  isProcessing : Bool
  workers : List Worker
  timers : List RetryTimer
  sendLog : List EmailTask
  deliveredLog : List EmailTask
  deriving DecidableEq, Repr

/-- The module right after loading: `emailQueue = []`, `isProcessing = false`. -/
def QueueState.init : QueueState :=
  { emailQueue := [], isProcessing := false, workers := [], timers := [], sendLog := [],
    deliveredLog := [] }

/-- The object pushed by `addEmailTask` (lines 9-15): the spread of the argument with
`id`, `createdAt`, `attempts` and `maxAttempts` written over it. -/
def newEntry (task : TaskInput) (id : Rat) (now : Time) : EmailTask :=
  { type := task.type, email := task.email, userName := task.userName,
    crimeData := task.crimeData, resetToken := task.resetToken,
    id := id, createdAt := now, attempts := 0, maxAttempts := 3 }

/-- The `while` loop from its test up to the first send: entries are shifted off the
head; one of an unknown kind is logged and skipped by `continue`, the first one of a
known kind is the one whose send is started.  The result is the queue that is left and
that entry, if any. -/
def takeNext : List EmailTask → List EmailTask × Option EmailTask
  | [] => ([], none)
  | t :: rest => if knownKind t.type then (rest, some t) else takeNext rest

/-- The drain loop run from the `while` test until it suspends at a send or ends with
`isProcessing = false` (line 90). -/
def drainLoop (s : QueueState) : QueueState :=
  match takeNext s.emailQueue with
  | (rest, some t) =>
    { s with emailQueue := rest, workers := s.workers ++ [.awaitingSend t],
             sendLog := s.sendLog ++ [t] }
  | (rest, none) => { s with emailQueue := rest, isProcessing := false }

/-- A call of `processEmailQueue()` up to its first suspension (lines 24-33). -/
def processEmailQueue (s : QueueState) : QueueState :=
  if s.isProcessing || s.emailQueue.isEmpty then s
  else drainLoop { s with isProcessing := true }

/-- A call of `addEmailTask(task)` (lines 8-21). -/
def addEmailTask (s : QueueState) (task : TaskInput) (id : Rat) (now : Time) : QueueState :=
  let s := { s with emailQueue := s.emailQueue ++ [newEntry task id now] }
  if !s.isProcessing then processEmailQueue s else s

/-- A call of `queueFIRConfirmation(email, userName, crimeData)` (lines 95-102). -/
def queueFIRConfirmation (s : QueueState) (email userName : String) (crimeData : Crime)
    (id : Rat) (now : Time) : QueueState :=
  addEmailTask s
    { type := "fir_confirmation", email := email, userName := userName,
      crimeData := some crimeData, resetToken := none, attempts := none,
      maxAttempts := none } id now

/-- A call of `queuePasswordReset(email, userName, resetToken)` (lines 105-112). -/
def queuePasswordReset (s : QueueState) (email userName resetToken : String)
    (id : Rat) (now : Time) : QueueState :=
  addEmailTask s
    { type := "password_reset", email := email, userName := userName,
      crimeData := none, resetToken := some resetToken, attempts := none,
      maxAttempts := none } id now

/-- The retry logic of the `catch` block (lines 70-83) for the task after
`task.attempts++`: the timers after it. -/
def scheduleRetry (timers : List RetryTimer) (task : EmailTask) : List RetryTimer :=
  if task.attempts < task.maxAttempts then
    timers ++ [{ task := task, delay := 5000 * task.attempts }]
  else timers

/-- The send awaited by worker `i` completes: lines 60-87, up to the 100 ms pause. -/
def sendDone (s : QueueState) (i : Nat) (o : SendOutcome) : QueueState :=
  match s.workers.get? i with
  | some (.awaitingSend task) =>
    match o with
    | .success =>
      { s with workers := s.workers.set i .awaitingDelay,
               deliveredLog := s.deliveredLog ++ [task] }
    | _ =>
      { s with workers := s.workers.set i .awaitingDelay,
               timers := scheduleRetry s.timers { task with attempts := task.attempts + 1 } }
  | _ => s

/-- The 100 ms pause of worker `i` ends: the loop goes back to its test. -/
def delayDone (s : QueueState) (i : Nat) : QueueState :=
  match s.workers.get? i with
  | some .awaitingDelay => drainLoop { s with workers := s.workers.eraseIdx i }
  | _ => s

/-- Retry timer `j` fires: the callback of lines 74-79. -/
def retryFire (s : QueueState) (j : Nat) : QueueState :=
  match s.timers.get? j with
  | some tm =>
    let s := { s with timers := s.timers.eraseIdx j, emailQueue := tm.task :: s.emailQueue }
    if !s.isProcessing then processEmailQueue s else s
  | none => s

/-- One entry of the `tasks` list of the queue status. -/
structure TaskStatus where
  id : Rat
  type : String
  email : String
  attempts : Nat
  createdAt : Time
  deriving DecidableEq, Repr

structure QueueStatus where
  pending : Nat
  processing : Bool
  tasks : List TaskStatus
  deriving DecidableEq, Repr

/-- The mapping of lines 119-125. -/
def taskStatus (task : EmailTask) : TaskStatus :=
  { id := task.id, type := task.type, email := task.email, attempts := task.attempts,
    createdAt := task.createdAt }

/-- A call of `getQueueStatus()` (lines 115-127). -/
def getQueueStatus (s : QueueState) : QueueStatus :=
  { pending := s.emailQueue.length, processing := s.isProcessing,
    tasks := s.emailQueue.map taskStatus }

/-- One turn of the event loop that touches the queue. -/
inductive QEvent where
  | add (task : TaskInput) (id : Rat) (now : Time)
  | sendDone (i : Nat) (o : SendOutcome)
  | delayDone (i : Nat)
  | retryFire (j : Nat)
  | process
  deriving DecidableEq, Repr

/-- The queue after the turn; a turn that cannot happen in the state (no such worker or
timer) leaves it as it is. -/
def QueueState.step (s : QueueState) : QEvent → QueueState
  | .add task id now => addEmailTask s task id now
  | .sendDone i o => CrimeReporting.sendDone s i o
  | .delayDone i => CrimeReporting.delayDone s i
  | .retryFire j => CrimeReporting.retryFire s j
  | .process => processEmailQueue s

/-- The queue after a sequence of turns, oldest first. -/
def runEvents (s : QueueState) (events : List QEvent) : QueueState :=
  events.foldl QueueState.step s

def QEvent.isAdd : QEvent → Bool
  | .add _ _ _ => true
  | _ => false

/-- Let the queue run on its own for one turn: the suspended worker's send completes with
the outcome `o n` for a task with `n` failed attempts so far, or its pause ends; with no
worker, the first retry timer fires. -/
def settleStep (o : Nat → SendOutcome) (s : QueueState) : QueueState :=
  match s.workers with
  | .awaitingSend t :: _ => s.step (.sendDone 0 (o t.attempts))
  | .awaitingDelay :: _ => s.step (.delayDone 0)
  | [] =>
    match s.timers with
    | _ :: _ => s.step (.retryFire 0)
    | [] => s

/-- Let the queue run on its own for `n` turns. -/
def settle (o : Nat → SendOutcome) : Nat → QueueState → QueueState
  | 0, s => s
  | n + 1, s => settle o n (settleStep o s)

/-- Nothing is queued, in flight or scheduled, and no worker runs. -/
def QueueState.quiet (s : QueueState) : Prop :=
  s.emailQueue = [] ∧ s.isProcessing = false ∧ s.workers = [] ∧ s.timers = []

instance (s : QueueState) : Decidable s.quiet :=
  inferInstanceAs (Decidable (_ ∧ _ ∧ _ ∧ _))

/-- The server: the database and the email queue of the process. -/
structure Server where
  db : Db
  mail : QueueState
  deriving DecidableEq, Repr

/-- The whole of `POST /api/crimes`: the handler `postCrime` and, when it calls
`queueFIRConfirmation`, that call on the queue of the process. -/
def Server.create (sv : Server) (actor : User) (b : CreateBody) (newId : ObjectId)
    (now : Time) (taskId : Rat) : Response CreateResponse × Server :=
  let r := postCrime sv.db actor b newId now
  (r.response,
    { db := r.db
      mail :=
        match r.queued with
        | none => sv.mail
        | some t => queueFIRConfirmation sv.mail t.email t.userName t.crimeData taskId now })

/-- Turns of the event loop that belong to the email queue, seen from the server. -/
def Server.mailEvents (sv : Server) (events : List QEvent) : Server :=
  { sv with mail := runEvents sv.mail events }

/-- The flag `isProcessing` counts the suspended executions of the drain loop: one when
it is set, none when it is not. -/
def QueueState.singleDrainer (s : QueueState) : Prop :=
  (s.isProcessing = true ∧ s.workers.length = 1) ∨ (s.isProcessing = false ∧ s.workers = [])

instance (s : QueueState) : Decidable s.singleDrainer :=
  inferInstanceAs (Decidable (_ ∨ _))

/-- Two queue entries agree on what the status may show: id, type, email, attempts and
createdAt. -/
def agreeOnPublic (a b : EmailTask) : Prop :=
  a.id = b.id ∧ a.type = b.type ∧ a.email = b.email ∧ a.attempts = b.attempts ∧
    a.createdAt = b.createdAt

/-- A FIR confirmation for citizen A that also carries `attempts` and `maxAttempts`. -/
def firTaskInput : TaskInput :=
  { type := "fir_confirmation", email := "asha@example.org", userName := "Asha",
    crimeData := some bikeReport, resetToken := none, attempts := some 7,
    maxAttempts := some 9 }

/-- A password reset for citizen B. -/
def resetTaskInput : TaskInput :=
  { type := "password_reset", email := "bala@example.org", userName := "Bala",
    crimeData := none, resetToken := some "tok-1", attempts := none, maxAttempts := none }

/-- A task of a kind the `switch` does not know. -/
def unknownTaskInput : TaskInput :=
  { type := "newsletter", email := "asha@example.org", userName := "Asha",
    crimeData := none, resetToken := none, attempts := none, maxAttempts := none }

/-- A worker is sending a first task while two more are queued. -/
def busyQueue : QueueState :=
  runEvents QueueState.init
    [.add firTaskInput 1 5000, .add resetTaskInput 2 5001, .add firTaskInput 3 5002]

/-- An interleaving of enqueues, a failed send, a retry and direct calls of
`processEmailQueue`. -/
def mixedEvents : List QEvent :=
  [ .add firTaskInput 1 5000, .process, .add resetTaskInput 2 5001, .sendDone 0 .failed,
    .process, .delayDone 0, .retryFire 0, .add firTaskInput 3 5002, .sendDone 0 .success,
    .process, .delayDone 0 ]

/-- A queue holding one FIR confirmation for citizen A's report. -/
def statusQueueA : QueueState :=
  { QueueState.init with emailQueue := [newEntry firTaskInput 1 5000] }

/-- The same queue with another payload in the entry: another user name, no report, a
reset token. -/
def statusQueueB : QueueState :=
  { QueueState.init with
    emailQueue :=
      [{ type := "fir_confirmation", email := "asha@example.org", userName := "someone else",
         crimeData := none, resetToken := some "secret", id := 1, createdAt := 5000,
         attempts := 0, maxAttempts := 3 }] }

/-- The state in which one worker is sending `t` and nothing is queued or scheduled. -/
def QueueState.sending (t : EmailTask) (sendLog deliveredLog : List EmailTask) : QueueState :=
  { emailQueue := [], isProcessing := true, workers := [.awaitingSend t], timers := [],
    sendLog := sendLog, deliveredLog := deliveredLog }

/-- The state in which nothing is queued, in flight or scheduled. -/
def QueueState.idle (sendLog deliveredLog : List EmailTask) : QueueState :=
  { emailQueue := [], isProcessing := false, workers := [], timers := [],
    sendLog := sendLog, deliveredLog := deliveredLog }

/-- Every task that is queued or being sent has `maxAttempts = 3` and fewer than three
failed attempts; every retry timer holds a task with one or two failed attempts and has
the delay 5000 ms times that number. -/
def QueueState.retriesBounded (s : QueueState) : Prop :=
  (∀ t ∈ s.emailQueue, t.maxAttempts = 3 ∧ t.attempts < 3) ∧
  (∀ t, Worker.awaitingSend t ∈ s.workers → t.maxAttempts = 3 ∧ t.attempts < 3) ∧
  (∀ tm ∈ s.timers, tm.task.maxAttempts = 3 ∧
    ((tm.task.attempts = 1 ∧ tm.delay = 5000) ∨ (tm.task.attempts = 2 ∧ tm.delay = 10000)))

/-- Send outcomes by number of earlier failed attempts: the first two sends fail, the
third succeeds. -/
def failTwiceThenSucceed : Nat → SendOutcome :=
  fun n => if n < 2 then .failed else .success

/-- Every send throws. -/
def alwaysFail : Nat → SendOutcome := fun _ => .threw

/-- The turns of a task whose three sends all fail, up to the third failure. -/
def threeFailures : List QEvent :=
  [ .add firTaskInput 1 5000, .sendDone 0 .failed, .delayDone 0, .retryFire 0,
    .sendDone 0 .failed, .delayDone 0, .retryFire 0, .sendDone 0 .failed ]

/-- Enqueue a task and let the queue run on its own for `n` turns, the send made after
`j` failed attempts ending with the outcome `o j`. -/
def runTask (o : Nat → SendOutcome) (n : Nat) (s : QueueState) (task : TaskInput) (id : Rat)
    (now : Time) : QueueState :=
  settle o n (addEmailTask s task id now)

/-- The array of `body('category').isIn([...])` (line 25). -/
def categoryNames : List String :=
  ["theft", "assault", "vandalism", "fraud", "burglary", "vehicle_theft", "harassment",
   "drug_related", "other"]

/-- The array of `body('severity').isIn([...])` (line 28). -/
def severityNames : List String := ["low", "medium", "high", "critical"]

/-- The scenario's request at the lower bounds: a title of 5 and a description of 10
characters once trimmed, latitude -90, longitude -180. -/
def lowBoundaryBody : CreateBody :=
  { title := "  Theft ", description := " 0123456789 ", category := "theft",
    severity := "low", address := "1 Elm St", city := none, state := none, zipCode := none,
    lat := some (-90), lng := some (-180), dateTime := some 1700000000000,
    isAnonymous := none, firRequested := none, evidence := none, estimatedLoss := none,
    witnesses := none, tags := none }

/-- The scenario's request at the upper bounds: a title of 200 and a description of 1000
characters, latitude 90, longitude 180. -/
def highBoundaryBody : CreateBody :=
  { title := String.mk (List.replicate 200 'a'),
    description := String.mk (List.replicate 1000 'b'), category := "other",
    severity := "critical", address := "1 Elm St", city := none, state := none,
    zipCode := none, lat := some 90, lng := some 180, dateTime := some 1700000000000,
    isAnonymous := none, firRequested := none, evidence := none, estimatedLoss := none,
    witnesses := none, tags := none }

/-- A report of citizen A that is resolved and has one police note. -/
def resolvedReport : Crime :=
  { bikeReport with _id := 105, status := .resolved,
                    policeNotes := [{ officer := 3, note := "closed the file", timestamp := 7000 }] }

/-- The lower-bound request with a title of 4 characters once trimmed. -/
def shortTitleBody : CreateBody := { lowBoundaryBody with title := "  Thef " }

/-- The lower-bound request with latitude 91. -/
def farNorthBody : CreateBody := { lowBoundaryBody with lat := some 91 }

/-- The police note `updateStatus` pushes when both `officerId` and `note` are truthy,
as a list: one entry, or none. -/
def statusNote (officerId : Option ObjectId) (note : Option String) (now : Time) :
    List PoliceNote :=
  match officerId, note with
  | some o, some n => if n ≠ "" then [{ officer := o, note := n, timestamp := now }] else []
  | _, _ => []

/-! ## Reading an id back from its rendering -/

/-- The value of a hexadecimal digit character (0 for any other character). -/
def hexDigitValue (c : Char) : Nat := "0123456789abcdef".data.indexOf c % 16

/-- The number a string of hexadecimal digits denotes, most significant digit first. -/
def hexValue (l : List Char) : Nat := l.foldl (fun v c => 16 * v + hexDigitValue c) 0

/-! ## More sample data -/

/-- The store `firDb` after the admin has deactivated officer P. -/
def inactiveOfficerDb : Db := (putUserStatus firDb adminX 3 (some (.bool false))).2

/-- The query string with nothing but a free-text search. -/
def searchQuery (s : String) : ListQuery := { emptyQuery with search := some s }

/-- A report of citizen A that is not anonymous and is closed. -/
def closedReport : Crime := { bikeReport with _id := 106, status := .closed }

/-- A store that holds the closed report. -/
def closedCaseDb : Db := { users := sampleUsers, crimes := [closedReport] }

/-! ## Queue invariants and runs without failure -/

/-- No task is stranded: a queue that is not empty has a drain loop. -/
def QueueState.noStranded (s : QueueState) : Prop :=
  s.emailQueue ≠ [] → s.isProcessing = true

instance (s : QueueState) : Decidable s.noStranded :=
  inferInstanceAs (Decidable (_ → _))

/-- Every task that is being sent or waits for a retry is of a kind the `switch` knows. -/
def QueueState.knownInFlight (s : QueueState) : Prop :=
  (∀ t, Worker.awaitingSend t ∈ s.workers → knownKind t.type = true) ∧
  (∀ tm ∈ s.timers, knownKind tm.task.type = true)

/-- The entries `addEmailTask` pushes during the turns, in the order of the calls. -/
def enqueuedEntries : List QEvent → List EmailTask
  | [] => []
  | .add task id now :: rest => newEntry task id now :: enqueuedEntries rest
  | _ :: rest => enqueuedEntries rest

/-- The turn is not a send that fails. -/
def QEvent.noFailure : QEvent → Bool
  | .sendDone _ o => o == .success
  | _ => true

/-- The turn does not enqueue a task of an unknown kind. -/
def QEvent.knownAdd : QEvent → Bool
  | .add task _ _ => knownKind task.type
  | _ => true

/-- Every send succeeds. -/
def alwaysSucceed : Nat → SendOutcome := fun _ => .success

/-- A failed first send followed by the pause: the queue is idle with one retry timer. -/
def retryPending : List QEvent :=
  [ .add firTaskInput 1 5000, .sendDone 0 .failed, .delayDone 0 ]

/-- Three enqueues interleaved with successful sends and pauses. -/
def fifoEvents : List QEvent :=
  [ .add firTaskInput 1 5000, .add resetTaskInput 2 5001, .sendDone 0 .success,
    .add firTaskInput 3 5002, .delayDone 0 ]

/-- The sends made so far followed by the queue are the list `l`, no retry is scheduled,
and every queued task is of a known kind. -/
def QueueState.fifoUpTo (s : QueueState) (l : List EmailTask) : Prop :=
  s.sendLog ++ s.emailQueue = l ∧ s.timers = [] ∧
  ∀ t ∈ s.emailQueue, knownKind t.type = true

/-! ## Pages of the list -/

/-- The reports the filter accepts, in the order of the list: newest first. -/
def matchingReports (db : Db) (f : Filter) : List Crime :=
  (db.crimes.filter f.holds).insertionSort newerFirst

/-- The reports on page `pg` of a list query: those of the response to the query with
`page = pg`. -/
def pageReports (e : Engines) (db : Db) (actor : User) (q : ListQuery) (pg : Int) :
    List PopulatedCrime :=
  listedReports (getCrimes e db actor { q with page := some pg })

/-- A store with five reports of citizen A, created one after the other. -/
def fiveReportsDb : Db :=
  { users := sampleUsers
    crimes := (List.range 5).map (fun i => { bikeReport with _id := 300 + i, createdAt := i }) }

/-- Page 2 with two reports per page. -/
def pageTwoOfTwo : ListQuery := { emptyQuery with page := some 2, limit := some 2 }

/-! ## Statistics: `GET /api/crimes/stats/summary` -/

/-- The query string of the summary.  `startDate` and `endDate` are the instants the
strings denote (`none`: absent or empty). -/
structure StatsQuery where
  startDate : Option Time
  endDate : Option Time

/-- The `$match` object of the summary: the keys `dateTime` and `isAnonymous`. -/
structure StatsFilter where
  dateTime : Option DateRange
  isAnonymous : Option Bool

/-- The filter of the summary (lines 365-377). -/
def statsFilter (actor : User) (q : StatsQuery) : StatsFilter :=
  { dateTime :=
      if q.startDate.isSome || q.endDate.isSome then
        some { gte := q.startDate, lte := q.endDate }
      else none
    isAnonymous := if actor.role = .citizen then some false else none }

/-- Does the document pass the `$match` stage? -/
def StatsFilter.holds (f : StatsFilter) (c : Crime) : Bool :=
  holdsIfPresent f.dateTime (fun r =>
    holdsIfPresent r.gte (fun t => decide (t ≤ c.dateTime)) &&
    holdsIfPresent r.lte (fun t => decide (c.dateTime ≤ t))) &&
  holdsIfPresent f.isAnonymous (fun b => c.isAnonymous == b)

/-- The document of the `$group` stage (lines 382-397). -/
structure StatsGroup where
  totalReports : Nat
  pendingReports : Nat
  resolvedReports : Nat
  byCategory : List String
  bySeverity : List String
  deriving DecidableEq, Repr

/-- The `$group` stage with `_id: null`: no document for an empty input, otherwise one
document with the sums and the pushed values. -/
def groupStats (matched : List Crime) : List StatsGroup :=
  match matched with
  | [] => []
  | _ :: _ =>
    [ { totalReports := (matched.map (fun _ => 1)).sum
        pendingReports := (matched.map (fun c => if c.status = .pending then 1 else 0)).sum
        resolvedReports := (matched.map (fun c => if c.status = .resolved then 1 else 0)).sum
        byCategory := matched.map (fun c => c.category.toStr)
        bySeverity := matched.map (fun c => c.severity.toStr) } ]

/-- One step of the `reduce` of lines 414-417: `acc[key] = (acc[key] || 0) + 1`.  The
object is kept as the list of its keys with their values, in insertion order. -/
def countKey (acc : List (String × Nat)) (key : String) : List (String × Nat) :=
  match acc with
  | [] => [(key, 1)]
  | (k, n) :: rest => if k = key then (k, n + 1) :: rest else (k, n) :: countKey rest key

/-- The `reduce` over the pushed values, starting from the empty object. -/
def breakdown (keys : List String) : List (String × Nat) :=
  keys.foldl countKey []

/-- The body of the summary response. -/
structure StatsBody where
  totalReports : Nat
  pendingReports : Nat
  resolvedReports : Nat
  categoryBreakdown : List (String × Nat)
  severityBreakdown : List (String × Nat)
  deriving DecidableEq, Repr

/-- The documents that pass the `$match` stage of the summary. -/
def statsMatching (db : Db) (actor : User) (q : StatsQuery) : List Crime :=
  db.crimes.filter (statsFilter actor q).holds

/-- The handler of `GET /api/crimes/stats/summary` (lines 362-437). -/
def getStatsSummary (db : Db) (actor : User) (q : StatsQuery) : Response StatsBody :=
  let stats := groupStats (statsMatching db actor q)
  match stats with
  | [] =>
    .ok 200
      { totalReports := 0, pendingReports := 0, resolvedReports := 0,
        categoryBreakdown := [], severityBreakdown := [] }
  | stat :: _ =>
    .ok 200
      { totalReports := stat.totalReports
        pendingReports := stat.pendingReports
        resolvedReports := stat.resolvedReports
        categoryBreakdown := breakdown stat.byCategory
        severityBreakdown := breakdown stat.bySeverity }

/-- The value of `obj[key]` read as a count: 0 when the object has no such key. -/
def countAt (obj : List (String × Nat)) (key : String) : Nat :=
  (obj.lookup key).getD 0

/-- The query string of the summary without any parameter. -/
def allTime : StatsQuery := { startDate := none, endDate := none }

/-- A store with two thefts and one assault, one of them resolved. -/
def statsDb : Db :=
  { users := sampleUsers
    crimes :=
      [ bikeReport,
        { bikeReport with _id := 107, category := .assault, severity := .high },
        { bikeReport with _id := 108, status := .resolved } ] }

/-! ## The case detail modal: `client/src/components/common/CaseDetailModal.js` -/

/-- What a click handler of the modal does: `onClose`, `setMapLoaded(true)`,
`setSelectedImage(photo)`, `setSelectedImage(null)` and `updateStatus(newStatus)`. -/
inductive ModalAction where
  | close
  | loadMap
  | selectImage (photo : EvidenceItem)
  | clearImage
  | updateStatus (newStatus : String)
  deriving DecidableEq, Repr

/-- An element of the rendered modal, as far as its content and its click handler go
(class names and icons are left out).  The output of the component is kept as the list of
these elements in document order. -/
inductive Rendered where
  | text (s : String)
  | date (t : Time)
  | button (label : String) (onClick : ModalAction)
  | clickable (onClick : ModalAction)
  | image (url alt : String)
  | video (url : String)
  | link (href label : String)
  | map (provider : String) (lat lng : Rat)
  deriving DecidableEq, Repr

/-- The props of the component (`onClose` is the handler behind `ModalAction.close`). -/
structure ModalProps where
  caseId : Option ObjectId
  isOpen : Bool
  userRole : Option String
  deriving DecidableEq, Repr

/-- The state of the component (the four `useState` hooks) and the Google Maps key of the
environment. -/
structure ModalState where
  caseData : Option DetailBody
  loading : Bool
  selectedImage : Option EvidenceItem
  mapLoaded : Bool
  googleKey : Option String
  deriving DecidableEq, Repr

/-- The expression `s.replace('_', ' ')`: the first underscore becomes a blank. -/
def replaceFirstUnderscore : List Char → List Char
  | [] => []
  | c :: rest => if c = '_' then ' ' :: rest else c :: replaceFirstUnderscore rest

/-- The expression `s.replace('_', ' ').toUpperCase()` of the badges. -/
def badgeText (s : String) : String :=
  String.mk ((replaceFirstUnderscore s.data).map Char.toUpper)

/-- The name shown for a populated user: first and last name with a blank between. -/
def refName (u : Option UserRef) : String :=
  match u with
  | none => " "
  | some r => r.firstName ++ " " ++ r.lastName

/-- Lines 115-150: title, description, incident date, reporter and the three badges. -/
def renderBasics (d : DetailBody) : List Rendered :=
  [ .text d.crime.doc.title, .text d.crime.doc.description, .date d.crime.doc.dateTime,
    .text (if d.crime.doc.isAnonymous then "Anonymous" else jsTrim (refName d.crime.reporter)),
    .text (badgeText d.crime.doc.status.toStr),
    .text (String.mk (d.crime.doc.severity.toStr.data.map Char.toUpper)),
    .text (badgeText d.crime.doc.category.toStr) ]

/-- Lines 153-211: the address and the map, which is loaded on request. -/
def renderLocation (st : ModalState) (d : DetailBody) : List Rendered :=
  [ .text "Location", .text d.crime.doc.location.address ] ++
  (if optTruthy d.crime.doc.location.city then
    [ .text (d.crime.doc.location.city.getD "" ++ ", " ++
        d.crime.doc.location.state.getD "" ++ " " ++ d.crime.doc.location.zipCode.getD "") ]
   else []) ++
  (if !st.mapLoaded then [ .button "Load Map" .loadMap ]
   else
    [ .map (if optTruthy st.googleKey then "google" else "leaflet")
        d.crime.doc.location.lat d.crime.doc.location.lng ])

/-- The index-based default of line 237: `Evidence photo N`. -/
def photoAlt (photo : EvidenceItem) (index : Nat) : String :=
  if strTruthy photo.label then photo.label else "Evidence photo " ++ toString (index + 1)

/-- Lines 229-247: one photo of the grid. -/
def renderPhoto (photo : EvidenceItem) (index : Nat) : List Rendered :=
  [ .clickable (.selectImage photo), .image photo.url (photoAlt photo index) ] ++
  (if strTruthy photo.label then [ .text photo.label ] else [])

/-- The photos of the grid with their indices. -/
def renderPhotos : List EvidenceItem → Nat → List Rendered
  | [], _ => []
  | photo :: rest, index => renderPhoto photo index ++ renderPhotos rest (index + 1)

/-- Lines 260-271: one video. -/
def renderVideo (video : EvidenceItem) : List Rendered :=
  [ .video video.url ] ++ (if strTruthy video.label then [ .text video.label ] else [])

/-- Lines 284-302: one document. -/
def renderDocument (doc : EvidenceItem) : List Rendered :=
  [ .text doc.label, .text "Uploaded: ", .date doc.uploadedAt, .link doc.url "View" ]

/-- Lines 215-307: the evidence section, shown when there is any evidence. -/
def renderEvidence (d : DetailBody) : List Rendered :=
  let ev := d.crime.doc.evidence
  if ev.photos.length > 0 || ev.videos.length > 0 || ev.documents.length > 0 then
    [ .text "Evidence" ] ++
    (if ev.photos.length > 0 then
      [ .text ("Photos (" ++ toString ev.photos.length ++ ")") ] ++ renderPhotos ev.photos 0
     else []) ++
    (if ev.videos.length > 0 then
      [ .text ("Videos (" ++ toString ev.videos.length ++ ")") ] ++
        ev.videos.flatMap renderVideo
     else []) ++
    (if ev.documents.length > 0 then
      [ .text ("Documents (" ++ toString ev.documents.length ++ ")") ] ++
        ev.documents.flatMap renderDocument
     else [])
  else []

/-- The text of lines 335-337: the officer's name and, when there is one, the badge number
in brackets. -/
def officerLine (r : UserRef) : String :=
  r.firstName ++ " " ++ r.lastName ++
    (if optTruthy r.badgeNumber then " (" ++ r.badgeNumber.getD "" ++ ")" else "")

/-- Lines 312-360: the case information. -/
def renderCaseInformation (d : DetailBody) : List Rendered :=
  [ .text "Case Information", .text "Report ID:", .text (objectIdToString d.crime.doc._id),
    .text "Created:", .date d.crime.doc.createdAt,
    .text "Last Updated:", .date d.crime.doc.updatedAt ] ++
  (match d.crime.assignedOfficer with
   | some r => [ .text "Assigned Officer:", .text (officerLine r) ]
   | none => []) ++
  (if d.crime.doc.firRequested then
    [ .text "FIR Status:", .text (badgeText
        (match d.crime.doc.firStatus with
         | .not_requested => "not_requested"
         | .pending => "pending"
         | .approved => "approved"
         | .rejected => "rejected")) ]
   else []) ++
  (if optTruthy d.crime.doc.firNumber then
    [ .text "FIR Number:", .text (d.crime.doc.firNumber.getD "") ]
   else [])

/-- Lines 367-380: one police note with the populated officer. -/
def renderNote (n : PoliceNote × Option UserRef) : List Rendered :=
  [ .text (refName n.2), .date n.1.timestamp, .text n.1.note ]

/-- Lines 363-383: the police notes, shown when there is any. -/
def renderPoliceNotes (d : DetailBody) : List Rendered :=
  if d.crime.doc.policeNotes.length > 0 then
    [ .text "Police Notes" ] ++ (d.crime.doc.policeNotes.zip d.noteOfficers).flatMap renderNote
  else []

/-- The four buttons of lines 391-414. -/
def statusActionButtons : List Rendered :=
  [ .button "Mark Under Investigation" (.updateStatus "under_investigation"),
    .button "Mark Resolved" (.updateStatus "resolved"),
    .button "Close Case" (.updateStatus "closed"),
    .button "Mark as False Report" (.updateStatus "false_report") ]

/-- Lines 386-417: the action section, under `userRole === 'police' || userRole === 'admin'`. -/
def renderActions (p : ModalProps) : List Rendered :=
  if p.userRole = some "police" || p.userRole = some "admin" then
    [ .text "Actions" ] ++ statusActionButtons
  else []

/-- Lines 107-423: the content area. -/
def renderContent (p : ModalProps) (st : ModalState) : List Rendered :=
  if st.loading then [ .text "Loading case details..." ]
  else
    match st.caseData with
    | some d =>
      renderBasics d ++ renderLocation st d ++ renderEvidence d ++ renderCaseInformation d ++
        renderPoliceNotes d ++ renderActions p
    | none => [ .text "Failed to load case details" ]

/-- Lines 428-449: the enlarged photo. -/
def renderImageModal (st : ModalState) : List Rendered :=
  match st.selectedImage with
  | some photo =>
    [ .button "" .clearImage,
      .image photo.url (if strTruthy photo.label then photo.label else "Evidence photo") ] ++
    (if strTruthy photo.label then [ .text photo.label ] else [])
  | none => []

/-- The component's render (lines 89-451): `none` is `return null`. -/
def CaseDetailModal (p : ModalProps) (st : ModalState) : Option (List Rendered) :=
  if !p.isOpen then none
  else
    some ([ .text "Case Details", .button "" .close ] ++ renderContent p st ++
      renderImageModal st)

/-- Is the element a button whose handler calls `updateStatus`? -/
def Rendered.isStatusButton : Rendered → Bool
  | .button _ (.updateStatus _) => true
  | _ => false

/-- The detail body of the sample report 100 in the store `firDb`. -/
def loadedCase : DetailBody := firDb.populateDetail bikeReport

/-- The modal open on a loaded case. -/
def loadedState : ModalState :=
  { caseData := some loadedCase, loading := false, selectedImage := none, mapLoaded := false,
    googleKey := none }

/-! ## Lemmas on the list handler -/

theorem status_toStr_ne_closed (st : Status) :
    (st.toStr != "closed") = true ↔ st ≠ .closed := by
  cases st <;> decide

theorem citizenClauses_holds (id : ObjectId) (c : Crime) :
    (citizenClauses id).any (fun cl => cl.holds c) =
      (c.reporter == id || (c.isAnonymous == false && c.status != .closed)) := by
  have hst : (c.status.toStr != "closed") = (c.status != .closed) := by
    cases c.status <;> decide
  simp [citizenClauses, OrClause.holds, holdsIfPresent, hst]

theorem applyRoleFilter_citizen (actor : User) (f : Filter) (h : actor.role = .citizen) :
    applyRoleFilter actor f = { f with or := some (citizenClauses actor._id) } := by
  simp [applyRoleFilter, h]

theorem applyRoleFilter_other (actor : User) (f : Filter) (h : actor.role ≠ .citizen) :
    applyRoleFilter actor f = f := by
  simp [applyRoleFilter, h]

theorem buildFilter_citizen_holds (e : Engines) (actor : User) (q : ListQuery) (f : Filter)
    (c : Crime) (hrole : actor.role = .citizen) (hf : buildFilter e actor q = some f)
    (hc : f.holds c = true) :
    c.reporter = actor._id ∨ (c.isAnonymous = false ∧ c.status ≠ .closed) := by
  unfold buildFilter at hf
  cases hq : queryFilter e q with
  | none => simp [hq] at hf
  | some g =>
    simp only [hq, Option.map_some', Option.some.injEq] at hf
    subst hf
    rw [applyRoleFilter_citizen actor g hrole] at hc
    have hor : (citizenClauses actor._id).any (fun cl => cl.holds c) = true := by
      simp only [Filter.holds, holdsIfPresent, Bool.and_eq_true] at hc
      exact hc.1.2
    rw [citizenClauses_holds] at hor
    simpa using hor

theorem mem_applyLimit (n : Int) (l : List Crime) (c : Crime) (h : c ∈ applyLimit n l) :
    c ∈ l := by
  unfold applyLimit at h
  split at h
  · exact h
  · exact List.mem_of_mem_take h

/-- Every report of a list response is a stored report that satisfies the filter the
handler built, populated. -/
theorem getCrimes_mem (e : Engines) (db : Db) (actor : User) (q : ListQuery) (code : Nat)
    (body : ListBody) (h : getCrimes e db actor q = .ok code body) (p : PopulatedCrime)
    (hp : p ∈ body.crimes) :
    ∃ f, buildFilter e actor q = some f ∧ p.doc ∈ db.crimes ∧ f.holds p.doc = true ∧
      p = db.populate p.doc := by
  unfold getCrimes at h
  cases hf : buildFilter e actor q with
  | none => simp [hf] at h
  | some f =>
    simp only [hf] at h
    split at h
    · simp at h
    · simp only [Response.ok.injEq] at h
      obtain ⟨_, hb⟩ := h
      subst hb
      simp only [List.mem_map] at hp
      obtain ⟨c, hc, rfl⟩ := hp
      have h1 := List.mem_of_mem_drop (mem_applyLimit _ _ _ hc)
      have h2 : c ∈ db.crimes.filter f.holds :=
        (List.perm_insertionSort newerFirst _).mem_iff.mp h1
      rw [List.mem_filter] at h2
      exact ⟨f, rfl, h2.1, h2.2, rfl⟩

/-! ## C1: a citizen's list never shows someone else's anonymous report -/

/-- C1: for every citizen actor, every store and every combination of query parameters,
no report in the response of `GET /api/crimes` is anonymous and reported by somebody
other than the actor. -/
theorem citizen_list_excludes_foreign_anonymous (e : Engines) (db : Db) (actor : User)
    (q : ListQuery) (hrole : actor.role = .citizen) :
    ∀ p ∈ listedReports (getCrimes e db actor q),
      ¬ (p.doc.isAnonymous = true ∧ p.doc.reporter ≠ actor._id) := by
  intro p hp
  cases hr : getCrimes e db actor q with
  | error code msg => simp [hr, listedReports] at hp
  | ok code body =>
    simp only [hr, listedReports] at hp
    obtain ⟨f, hf, _, hh, _⟩ := getCrimes_mem e db actor q code body hr p hp
    rcases buildFilter_citizen_holds e actor q f p.doc hrole hf hh with h | h
    · exact fun hc => hc.2 h
    · intro hc
      rw [h.1] at hc
      exact Bool.noConfusion hc.1

/-- C1 at the sample store: citizen B lists without parameters and receives B's own
anonymous report and A's public one, not A's anonymous one. -/
theorem citizen_list_excludes_foreign_anonymous_witness :
    citizenB.role = .citizen ∧
    (listedReports (getCrimes sampleEngines sampleDb citizenB emptyQuery)).map
        (fun p => p.doc._id) = [103, 102] ∧
    ∀ p ∈ listedReports (getCrimes sampleEngines sampleDb citizenB emptyQuery),
      ¬ (p.doc.isAnonymous = true ∧ p.doc.reporter ≠ citizenB._id) :=
  ⟨rfl, by decide,
    citizen_list_excludes_foreign_anonymous sampleEngines sampleDb citizenB emptyQuery rfl⟩

/-! ## C4: the role step of the list filter is the reference access filter -/

/-- C4: the role-based step of the list handler contributes exactly the reference
predicate `visibleReportsFilter`: for a citizen the filter it produces accepts a report
iff the other keys accept it and the report is the actor's own or is neither anonymous
nor closed; for police and admin the filter is left as it was and every report is
visible.  With no query parameter the filter of the list operation is the reference
predicate itself. -/
theorem role_filter_eq_visibleReportsFilter (e : Engines) (actor : User) (f : Filter)
    (r : Crime) :
    (applyRoleFilter actor f).holds r =
      ((if actor.role = .citizen then { f with or := none } else f).holds r &&
        visibleReportsFilter actor r) ∧
    (actor.role ≠ .citizen → applyRoleFilter actor f = f ∧ visibleReportsFilter actor r = true) ∧
    (visibleReportsFilter actor r = true ↔
      (actor.role = .citizen →
        r.reporter = actor._id ∨ (r.isAnonymous = false ∧ r.status ≠ .closed))) ∧
    ∃ g, buildFilter e actor emptyQuery = some g ∧ g.holds r = visibleReportsFilter actor r := by
  have hcit : actor.role = .citizen →
      visibleReportsFilter actor r =
        (r.reporter == actor._id || (r.isAnonymous == false && r.status != .closed)) := by
    intro h
    simp [visibleReportsFilter, h]
  have hoth : actor.role ≠ .citizen → visibleReportsFilter actor r = true := by
    intro h
    unfold visibleReportsFilter
    cases hr : actor.role <;> simp_all
  refine ⟨?_, ?_, ?_, ?_⟩
  · by_cases h : actor.role = .citizen
    · rw [applyRoleFilter_citizen actor f h, hcit h, ← citizenClauses_holds]
      simp [h, Filter.holds, holdsIfPresent, Bool.and_comm, Bool.and_left_comm, Bool.and_assoc]
    · rw [applyRoleFilter_other actor f h, hoth h]
      simp [h]
  · intro h
    exact ⟨applyRoleFilter_other actor f h, hoth h⟩
  · by_cases h : actor.role = .citizen
    · rw [hcit h]
      simp [h]
    · simp [hoth h, h]
  · refine ⟨applyRoleFilter actor Filter.empty, by rfl, ?_⟩
    by_cases h : actor.role = .citizen
    · rw [applyRoleFilter_citizen actor _ h, hcit h, ← citizenClauses_holds]
      simp [Filter.holds, holdsIfPresent, Filter.empty]
    · rw [applyRoleFilter_other actor _ h, hoth h]
      simp [Filter.holds, holdsIfPresent, Filter.empty]

/-- C4 at the sample data: for citizen B the role step accepts A's public report and
the reference predicate agrees; for officer P the filter is left as it was. -/
theorem role_filter_eq_visibleReportsFilter_witness :
    ((applyRoleFilter citizenB Filter.empty).holds bikeReport =
      ((if citizenB.role = .citizen then { Filter.empty with or := none }
        else Filter.empty).holds bikeReport && visibleReportsFilter citizenB bikeReport)) ∧
    visibleReportsFilter citizenB bikeReport = true ∧
    officerP.role ≠ .citizen ∧
    (applyRoleFilter officerP Filter.empty = Filter.empty ∧
      visibleReportsFilter officerP bikeReport = true) :=
  ⟨(role_filter_eq_visibleReportsFilter sampleEngines citizenB Filter.empty bikeReport).1,
    by decide, by decide,
    (role_filter_eq_visibleReportsFilter sampleEngines officerP Filter.empty bikeReport).2.1
      (by decide)⟩

/-! ## C2: `firStatus` against the stored `firRequested` at creation -/

/-- What a create request that passes validation stores: the request succeeds with 201,
appends exactly one report, and that report has `firStatus` chosen by the truthiness of
the raw `firRequested` while its `firRequested` is the Mongoose cast of the same value. -/
theorem postCrime_valid (db : Db) (actor : User) (b : CreateBody) (newId : ObjectId)
    (now : Time) (hv : validateCreate b = true)
    (hm : schemaLengthsOk (jsTrim b.title) (jsTrim b.description) = true) :
    ∃ c, (postCrime db actor b newId now).db = { db with crimes := db.crimes ++ [c] } ∧
      (postCrime db actor b newId now).response.code = 201 ∧
      c.firStatus = (if (b.firRequested.getD (.bool false)).truthy then FirStatus.pending
        else FirStatus.not_requested) ∧
      castBoolean (b.firRequested.getD (.bool false)) = some c.firRequested ∧
      c.firNumber = none ∧ c.firApprovedAt = none ∧ c.firApprovedBy = none ∧
      c.assignedOfficer = none := by
  have hv2 := hv
  simp only [validateCreate, Bool.and_eq_true] at hv2
  obtain ⟨⟨⟨⟨⟨⟨⟨⟨⟨_, _⟩, hcat⟩, hsev⟩, _⟩, hlat⟩, hlng⟩, hdt⟩, hanon⟩, hfir⟩ := hv2
  obtain ⟨cat, hcat⟩ := Option.isSome_iff_exists.mp hcat
  obtain ⟨sev, hsev⟩ := Option.isSome_iff_exists.mp hsev
  obtain ⟨dt, hdt⟩ := Option.isSome_iff_exists.mp hdt
  obtain ⟨lat, hlat⟩ : ∃ v, b.lat = some v := by
    cases h : b.lat with
    | none => simp [h, isFloatIn] at hlat
    | some v => exact ⟨v, rfl⟩
  obtain ⟨lng, hlng⟩ : ∃ v, b.lng = some v := by
    cases h : b.lng with
    | none => simp [h, isFloatIn] at hlng
    | some v => exact ⟨v, rfl⟩
  have hcast : ∀ x : Option JsVal, optionalIsBoolean x = true →
      ∃ v, castBoolean (x.getD (.bool false)) = some v := by
    intro x hx
    cases x with
    | none => exact ⟨false, rfl⟩
    | some v =>
      cases v with
      | null => simp [optionalIsBoolean, isBooleanValidator] at hx
      | bool t => exact ⟨t, rfl⟩
      | num n =>
        simp only [optionalIsBoolean, isBooleanValidator, Bool.or_eq_true, beq_iff_eq] at hx
        rcases hx with h | h <;> subst h
        · exact ⟨false, rfl⟩
        · exact ⟨true, rfl⟩
      | str t =>
        simp only [optionalIsBoolean, isBooleanValidator, Bool.or_eq_true, beq_iff_eq] at hx
        rcases hx with ((h | h) | h) | h <;> subst h
        · exact ⟨true, rfl⟩
        · exact ⟨false, rfl⟩
        · exact ⟨true, rfl⟩
        · exact ⟨false, rfl⟩
  obtain ⟨anon, hanon⟩ := hcast _ hanon
  obtain ⟨fir, hfir⟩ := hcast _ hfir
  have hm2 : schemaLengthsOk
      (newCrime actor b newId now cat sev lat lng dt anon fir
        (b.firRequested.getD (.bool false))).title
      (newCrime actor b newId now cat sev lat lng dt anon fir
        (b.firRequested.getD (.bool false))).description = true := hm
  refine ⟨newCrime actor b newId now cat sev lat lng dt anon fir
    (b.firRequested.getD (.bool false)), ?_, ?_, ?_, ?_, rfl, rfl, rfl, rfl⟩
  · simp [postCrime, hv, hcat, hsev, hdt, hlat, hlng, hanon, hfir, hm2]
  · simp [postCrime, hv, hcat, hsev, hdt, hlat, hlng, hanon, hfir, Response.code, hm2]
  · rfl
  · exact hfir

/-- C2, the failing request: the scenario's body with `firRequested` sent as the JSON
string "false" passes validation and is answered 201, and the stored report has
`firRequested = false` together with `firStatus = pending`, so the equivalence between
`firStatus = not_requested` and `firRequested = false` does not hold for it. -/
theorem create_with_string_false_stores_pending :
    validateCreate (bikeBody none (some (.str "false"))) = true ∧
    (postCrime sampleDb citizenA (bikeBody none (some (.str "false"))) 200 5000).response.code
      = 201 ∧
    ((postCrime sampleDb citizenA (bikeBody none (some (.str "false"))) 200 5000).db.findCrime
        200).map (fun c => (c.firRequested, c.firStatus)) = some (false, FirStatus.pending) ∧
    ∃ c ∈ (postCrime sampleDb citizenA (bikeBody none (some (.str "false"))) 200 5000).db.crimes,
      ¬ firStatusMatchesRequest c := by
  refine ⟨by decide, by decide, by decide, ?_⟩
  refine ⟨newCrime citizenA (bikeBody none (some (.str "false"))) 200 5000 .theft .low 40
    (-75) 1700000000000 false false (.str "false"), by decide, by decide⟩

/-! ## C3: the detail view -/

theorem digitChar_ne_brace (d : Nat) (h : d < 16) : Nat.digitChar d ≠ Char.ofNat 123 := by
  interval_cases d <;> decide

theorem toDigitsCore_hex_ne_brace :
    ∀ (fuel n : Nat) (acc : List Char), (∀ c ∈ acc, c ≠ Char.ofNat 123) →
      ∀ c ∈ Nat.toDigitsCore 16 fuel n acc, c ≠ Char.ofNat 123 := by
  intro fuel
  induction fuel with
  | zero =>
    intro n acc hacc c hc
    simp only [Nat.toDigitsCore] at hc
    exact hacc c hc
  | succ k ih =>
    intro n acc hacc c hc
    have hacc2 : ∀ x ∈ Nat.digitChar (n % 16) :: acc, x ≠ Char.ofNat 123 := by
      intro x hx
      rcases List.mem_cons.mp hx with h | h
      · rw [h]
        exact digitChar_ne_brace _ (Nat.mod_lt _ (by decide))
      · exact hacc x h
    simp only [Nat.toDigitsCore] at hc
    split at hc
    · exact hacc2 c hc
    · exact ih _ _ hacc2 c hc

/-- No character of the hexadecimal rendering of an ObjectId is an opening brace. -/
theorem objectIdToString_no_brace (id : ObjectId) :
    ∀ c ∈ (objectIdToString id).data, c ≠ Char.ofNat 123 := by
  intro c hc
  simp only [objectIdToString, List.leftpad, List.mem_append, List.mem_replicate] at hc
  rcases hc with h | h
  · rw [h.2]
    decide
  · exact toDigitsCore_hex_ne_brace _ _ [] (by simp) c h

/-- The dump of a populated reference is never the id string of a user. -/
theorem userRefToString_ne_objectIdToString (r : UserRef) (id : ObjectId) :
    userRefToString r ≠ objectIdToString id := by
  intro h
  have hmem : Char.ofNat 123 ∈ (userRefToString r).data := by
    simp [userRefToString, String.data_append]
  rw [h] at hmem
  exact objectIdToString_no_brace id _ hmem rfl

/-- What the detail handler does for an existing report whose reporter still exists: it
answers 403 exactly when the actor is a citizen and the report is anonymous, whoever
reported it, and answers 200 with the report otherwise. -/
theorem getCrimeById_existing (db : Db) (actor : User) (id : ObjectId) (crime : Crime)
    (reporter : User) (hc : db.findCrime id = some crime)
    (hr : db.findUser crime.reporter = some reporter) :
    getCrimeById db actor id =
      if actor.role = .citizen ∧ crime.isAnonymous = true then .error 403 "Access denied"
      else .ok 200 (db.populateDetail crime) := by
  have hpop : (db.populateDetail crime).crime.reporter =
      some { _id := reporter._id, firstName := reporter.firstName,
             lastName := reporter.lastName, badgeNumber := none } := by
    simp [Db.populateDetail, Db.populate, Db.populateRef, hr]
  unfold getCrimeById
  simp only [hc]
  by_cases hrole : actor.role = .citizen
  · simp only [hrole, if_true, hpop, true_and]
    have hne := userRefToString_ne_objectIdToString
      { _id := reporter._id, firstName := reporter.firstName,
        lastName := reporter.lastName, badgeNumber := none } actor._id
    cases hanon : crime.isAnonymous <;> simp [hne]
  · simp [hrole]

/-- C3, the failing request: citizen A asks for report 101 of the sample store, which A
reported anonymously, and is refused with 403 instead of receiving the report. -/
theorem owner_of_anonymous_report_is_refused :
    citizenA.role = .citizen ∧
    (sampleDb.findCrime 101).map (fun c => (c.reporter, c.isAnonymous)) =
      some (citizenA._id, true) ∧
    getCrimeById sampleDb citizenA 101 = .error 403 "Access denied" := by
  refine ⟨rfl, by decide, by decide⟩

/-! ## Lemmas on the stores -/

theorem findCrime_id (db : Db) (id : ObjectId) (c : Crime) (h : db.findCrime id = some c) :
    c._id = id := by
  have := List.find?_some h
  simpa using this

theorem findCrime_mem (db : Db) (id : ObjectId) (c : Crime) (h : db.findCrime id = some c) :
    c ∈ db.crimes :=
  List.mem_of_find?_eq_some h

theorem findUser_id (db : Db) (id : ObjectId) (u : User) (h : db.findUser id = some u) :
    u._id = id := by
  have := List.find?_some h
  simpa using this

theorem find_replace (l : List Crime) (id : ObjectId) (c x : Crime)
    (h : l.find? (fun d => d._id == id) = some c) (hx : x._id = id) :
    (l.map (fun d => if d._id = x._id then x else d)).find? (fun d => d._id == id) =
      some x := by
  induction l with
  | nil => simp at h
  | cons a t ih =>
    subst hx
    by_cases ha : a._id = x._id
    · have hb : (x._id == x._id) = true := by simp
      simp only [List.map_cons, ha, if_true, List.find?_cons, hb]
    · have hb : (a._id == x._id) = false := by simp [ha]
      have ht : t.find? (fun d => d._id == x._id) = some c := by
        simpa only [List.find?_cons, hb] using h
      simp only [List.map_cons, ha, if_false, List.find?_cons, hb]
      exact ih ht

/-- After `save()` the document read back under the same id is the saved one. -/
theorem findCrime_saveCrime (db : Db) (id : ObjectId) (c x : Crime)
    (h : db.findCrime id = some c) (hx : x._id = id) :
    (db.saveCrime x).findCrime id = some x :=
  find_replace db.crimes id c x h hx

theorem mem_saveCrime (db : Db) (x c : Crime) (h : c ∈ (db.saveCrime x).crimes) :
    c = x ∨ c ∈ db.crimes := by
  simp only [Db.saveCrime, List.mem_map] at h
  obtain ⟨d, hd, rfl⟩ := h
  split
  · exact Or.inl rfl
  · exact Or.inr hd

/-! ## C5: updateFIR on a report without a FIR request -/

/-- C5: for an existing report and a request that passes validation, `PUT /:id/fir`
answers with an error exactly when the report's `firStatus` is not_requested, and then
the database, hence every field of the report (the police notes included, even when a
note was sent), is what it was. -/
theorem updateFIR_error_iff_not_requested (db : Db) (actor : User) (id : ObjectId)
    (b : FirBody) (now : Time) (crime : Crime) (hv : validateFir b = true)
    (hc : db.findCrime id = some crime) :
    ((putCrimeFir db actor id b now).1.isError = true ↔ crime.firStatus = .not_requested) ∧
    (crime.firStatus = .not_requested →
      (putCrimeFir db actor id b now).2 = db ∧
      (putCrimeFir db actor id b now).2.findCrime id = some crime) := by
  by_cases hs : crime.firStatus = .not_requested
  · simp [putCrimeFir, hv, hc, hs, Response.isError]
  · simp [putCrimeFir, hv, hc, hs, Response.isError]

/-- C5 at the sample store: approving, with a note, the report for which no FIR was
requested is an error and changes nothing. -/
theorem updateFIR_error_iff_not_requested_witness :
    validateFir { action := "approve", firNumber := some "ABC123", note := some "seen" } = true ∧
    firDb.findCrime 104 = some quietReport ∧
    (((putCrimeFir firDb officerP 104
        { action := "approve", firNumber := some "ABC123", note := some "seen" } 9000).1.isError
          = true ↔ quietReport.firStatus = .not_requested) ∧
     (quietReport.firStatus = .not_requested →
      (putCrimeFir firDb officerP 104
        { action := "approve", firNumber := some "ABC123", note := some "seen" } 9000).2 = firDb ∧
      (putCrimeFir firDb officerP 104
        { action := "approve", firNumber := some "ABC123", note := some "seen" }
          9000).2.findCrime 104 = some quietReport)) :=
  ⟨by decide, by decide,
    updateFIR_error_iff_not_requested firDb officerP 104
      { action := "approve", firNumber := some "ABC123", note := some "seen" } 9000 quietReport
      (by decide) (by decide)⟩

/-! ## C6: approving a FIR -/

theorem isLength_three_truthy (n : String) (max : Nat) (h : isLength 3 max n = true) :
    strTruthy n = true := by
  simp only [isLength, Bool.and_eq_true, decide_eq_true_eq] at h
  have hne : n ≠ "" := by
    intro he
    rw [he] at h
    exact absurd h.1 (by decide)
  simp [strTruthy, hne]

/-- The response and the stored document of a FIR request that gets past the checks. -/
theorem putCrimeFir_accepted (db : Db) (actor : User) (id : ObjectId) (b : FirBody)
    (now : Time) (crime : Crime) (hv : validateFir b = true)
    (hc : db.findCrime id = some crime) (hs : crime.firStatus ≠ .not_requested) :
    ∃ c, (putCrimeFir db actor id b now).1 = .ok 200 c ∧
      (putCrimeFir db actor id b now).2.findCrime id = some c ∧
      (c = crime ∨ c = { appendFirNote (applyFirAction crime actor b now) actor b.note now
                          with updatedAt := now }) ∧
      c.firStatus = (applyFirAction crime actor b now).firStatus ∧
      c.firNumber = (applyFirAction crime actor b now).firNumber ∧
      c.firApprovedAt = (applyFirAction crime actor b now).firApprovedAt ∧
      c.firApprovedBy = (applyFirAction crime actor b now).firApprovedBy := by
  have hnote : ∀ x : Crime, (appendFirNote x actor b.note now).firStatus = x.firStatus ∧
      (appendFirNote x actor b.note now).firNumber = x.firNumber ∧
      (appendFirNote x actor b.note now).firApprovedAt = x.firApprovedAt ∧
      (appendFirNote x actor b.note now).firApprovedBy = x.firApprovedBy ∧
      (appendFirNote x actor b.note now)._id = x._id := by
    intro x
    unfold appendFirNote
    cases b.note with
    | none => simp
    | some n => by_cases hn : strTruthy (jsTrim n) = true <;> simp [hn]
  have hid : (applyFirAction crime actor b now)._id = crime._id := by
    unfold applyFirAction
    split
    · rfl
    · split <;> rfl
  by_cases he : appendFirNote (applyFirAction crime actor b now) actor b.note now = crime
  · refine ⟨crime, ?_, ?_, Or.inl rfl, ?_, ?_, ?_, ?_⟩
    · simp [putCrimeFir, hv, hc, hs, he]
    · simp [putCrimeFir, hv, hc, hs, he, Db.saveModified]
    · have h := (hnote (applyFirAction crime actor b now)).1
      rw [he] at h
      exact h
    · have h := (hnote (applyFirAction crime actor b now)).2.1
      rw [he] at h
      exact h
    · have h := (hnote (applyFirAction crime actor b now)).2.2.1
      rw [he] at h
      exact h
    · have h := (hnote (applyFirAction crime actor b now)).2.2.2.1
      rw [he] at h
      exact h
  · refine ⟨{ appendFirNote (applyFirAction crime actor b now) actor b.note now
              with updatedAt := now }, ?_, ?_, Or.inr rfl, (hnote _).1, (hnote _).2.1,
              (hnote _).2.2.1, (hnote _).2.2.2.1⟩
    · simp [putCrimeFir, hv, hc, hs, he]
    · have hsave : (putCrimeFir db actor id b now).2 =
          db.saveCrime { appendFirNote (applyFirAction crime actor b now) actor b.note now
                         with updatedAt := now } := by
        simp [putCrimeFir, hv, hc, hs, he, Db.saveModified]
      rw [hsave]
      apply findCrime_saveCrime db id crime _ hc
      show (appendFirNote (applyFirAction crime actor b now) actor b.note now)._id = id
      rw [(hnote _).2.2.2.2, hid]
      exact findCrime_id db id crime hc

/-- C6: on a report whose `firStatus` is not not_requested, a valid request with action
approve is answered 200 and stores `firStatus = approved`, `firApprovedBy` = the acting
user, `firApprovedAt` = the clock, and `firNumber` = the supplied number when one is
supplied, otherwise the report's existing number when it has a (non-empty) one,
otherwise the fallback token built from the clock. -/
theorem updateFIR_approve (db : Db) (actor : User) (id : ObjectId) (b : FirBody)
    (now : Time) (crime : Crime) (hv : validateFir b = true)
    (hc : db.findCrime id = some crime) (hs : crime.firStatus ≠ .not_requested)
    (ha : b.action = "approve") :
    ∃ c, (putCrimeFir db actor id b now).1 = .ok 200 c ∧
      (putCrimeFir db actor id b now).2.findCrime id = some c ∧
      c.firStatus = .approved ∧
      c.firApprovedBy = some actor._id ∧
      c.firApprovedAt = some now ∧
      c.firNumber = some
        (match b.firNumber with
         | some n => n
         | none =>
           match crime.firNumber with
           | some m => if m ≠ "" then m else fallbackFirNumber now
           | none => fallbackFirNumber now) := by
  obtain ⟨c, h1, h2, _, h4, h5, h6, h7⟩ := putCrimeFir_accepted db actor id b now crime hv hc hs
  have happ : applyFirAction crime actor b now =
      { crime with firStatus := .approved
                   firNumber := some (firstTruthy b.firNumber crime.firNumber
                     (fallbackFirNumber now))
                   firApprovedAt := some now
                   firApprovedBy := some actor._id } := by
    simp [applyFirAction, ha]
  rw [happ] at h4 h5 h6 h7
  refine ⟨c, h1, h2, h4, h7, h6, ?_⟩
  rw [h5]
  cases hn : b.firNumber with
  | some n =>
    have hlen : isLength 3 50 n = true := by
      simpa [validateFir, hn, ha] using hv
    simp [firstTruthy, isLength_three_truthy n 50 hlen]
  | none =>
    cases crime.firNumber with
    | none => simp [firstTruthy]
    | some m => by_cases hm : m = "" <;> simp [firstTruthy, strTruthy, hm]

/-- C6 at the sample store: approving the pending report with firNumber "ABC123" stores
`firNumber = "ABC123"`. -/
theorem updateFIR_approve_witness :
    validateFir { action := "approve", firNumber := some "ABC123", note := none } = true ∧
    firDb.findCrime 100 = some bikeReport ∧
    bikeReport.firStatus ≠ .not_requested ∧
    ∃ c, (putCrimeFir firDb adminX 100
            { action := "approve", firNumber := some "ABC123", note := none } 9000).1
          = .ok 200 c ∧
      (putCrimeFir firDb adminX 100
            { action := "approve", firNumber := some "ABC123", note := none }
            9000).2.findCrime 100 = some c ∧
      c.firStatus = .approved ∧
      c.firApprovedBy = some adminX._id ∧
      c.firApprovedAt = some 9000 ∧
      c.firNumber = some "ABC123" :=
  ⟨by decide, by decide, by decide,
    updateFIR_approve firDb adminX 100
      { action := "approve", firNumber := some "ABC123", note := none } 9000 bikeReport
      (by decide) (by decide) (by decide) rfl⟩

/-! ## What each request does to the database -/

theorem postCrime_db (db : Db) (actor : User) (b : CreateBody) (newId : ObjectId)
    (now : Time) :
    (postCrime db actor b newId now).db = db ∨
    ∃ c, (postCrime db actor b newId now).db = { db with crimes := db.crimes ++ [c] } ∧
      c.firNumber = none ∧ c.firApprovedAt = none ∧ c.firApprovedBy = none ∧
      c.assignedOfficer = none := by
  by_cases hv : validateCreate b = true
  · by_cases hm : schemaLengthsOk (jsTrim b.title) (jsTrim b.description) = true
    · obtain ⟨c, h1, _, _, _, h5, h6, h7, h8⟩ := postCrime_valid db actor b newId now hv hm
      exact Or.inr ⟨c, h1, h5, h6, h7, h8⟩
    · left
      have hm2 : ∀ c : Crime, c.title = jsTrim b.title → c.description = jsTrim b.description →
          schemaLengthsOk c.title c.description = false := by
        intro c h1 h2
        rw [h1, h2]
        simpa using hm
      unfold postCrime
      simp only [hv, Bool.not_true, Bool.false_eq_true, if_false]
      split
      · rw [hm2 _ rfl rfl]
        rfl
      · rfl
  · left
    simp [postCrime, hv]

theorem putCrimeStatus_db (db : Db) (actor : User) (id : ObjectId) (b : StatusBody)
    (now : Time) :
    (putCrimeStatus db actor id b now).2 = db ∨
    ∃ crime st, db.findCrime id = some crime ∧
      (putCrimeStatus db actor id b now).2 =
        db.saveCrime (crime.updateStatus st (some actor._id) (b.note.map jsTrim) now) := by
  unfold putCrimeStatus
  split
  · exact Or.inl rfl
  · cases hc : db.findCrime id with
    | none => exact Or.inl rfl
    | some crime =>
      cases hst : Status.ofStr b.status with
      | none => exact Or.inl rfl
      | some st => exact Or.inr ⟨crime, st, rfl, rfl⟩

theorem putCrimeAssign_db (db : Db) (id : ObjectId) (officerId : Option ObjectId)
    (now : Time) :
    (putCrimeAssign db id officerId now).2 = db ∨
    ∃ crime o u, officerId = some o ∧ db.findUser o = some u ∧ u.role = .police ∧
      db.findCrime id = some crime ∧
      (putCrimeAssign db id officerId now).2 = db.saveCrime (crime.assignOfficer o now) := by
  cases officerId with
  | none => exact Or.inl rfl
  | some o =>
    cases hu : db.findUser o with
    | none => simp [putCrimeAssign, hu]
    | some u =>
      by_cases hr : u.role = .police
      · cases hc : db.findCrime id with
        | none => simp [putCrimeAssign, hu, hr, hc]
        | some crime =>
          right
          exact ⟨crime, o, u, rfl, hu, hr, rfl, by simp [putCrimeAssign, hu, hr, hc]⟩
      · simp [putCrimeAssign, hu, hr]

theorem putCrimeFir_db (db : Db) (actor : User) (id : ObjectId) (b : FirBody) (now : Time) :
    (putCrimeFir db actor id b now).2 = db ∨
    ∃ crime, db.findCrime id = some crime ∧ validateFir b = true ∧
      crime.firStatus ≠ .not_requested ∧
      (putCrimeFir db actor id b now).2 =
        db.saveCrime { appendFirNote (applyFirAction crime actor b now) actor b.note now
                       with updatedAt := now } := by
  by_cases hv : validateFir b = true
  · cases hc : db.findCrime id with
    | none => simp [putCrimeFir, hv, hc]
    | some crime =>
      by_cases hs : crime.firStatus = .not_requested
      · simp [putCrimeFir, hv, hc, hs]
      · by_cases he : appendFirNote (applyFirAction crime actor b now) actor b.note now = crime
        · left
          simp [putCrimeFir, hv, hc, hs, he, Db.saveModified]
        · right
          exact ⟨crime, rfl, hv, hs, by simp [putCrimeFir, hv, hc, hs, he, Db.saveModified]⟩
  · simp [putCrimeFir, hv]

theorem putCrimeVerify_db (db : Db) (actor : User) (id : ObjectId) (vs : String)
    (now : Time) :
    (putCrimeVerify db actor id vs now).2 = db ∨
    ∃ crime v, db.findCrime id = some crime ∧
      (putCrimeVerify db actor id vs now).2 =
        db.saveCrime (crime.verifyReport v actor._id now) := by
  cases hc : db.findCrime id with
  | none =>
    left
    unfold putCrimeVerify
    simp only [hc]
    split <;> rfl
  | some crime =>
    by_cases h1 : (vs == "verified") = true
    · exact Or.inr ⟨crime, .verified, rfl, by simp [putCrimeVerify, h1, hc]⟩
    · by_cases h2 : (vs == "false_report") = true
      · exact Or.inr ⟨crime, .false_report, rfl, by simp [putCrimeVerify, h1, h2, hc]⟩
      · exact Or.inl (by simp [putCrimeVerify, h1, h2])

theorem putUserVerify_crimes (db : Db) (id : ObjectId) (v : Option JsVal) :
    (putUserVerify db id v).2.crimes = db.crimes := by
  unfold putUserVerify
  repeat' split
  all_goals rfl

theorem putUserStatus_crimes (db : Db) (actor : User) (id : ObjectId) (v : Option JsVal) :
    (putUserStatus db actor id v).2.crimes = db.crimes := by
  unfold putUserStatus
  repeat' split
  all_goals rfl

theorem putUserRole_crimes (db : Db) (actor : User) (id : ObjectId) (role : String) :
    (putUserRole db actor id role).2.crimes = db.crimes := by
  unfold putUserRole
  repeat' split
  all_goals rfl

theorem deleteUser_crimes (db : Db) (actor : User) (id : ObjectId) :
    (deleteUser db actor id).2.crimes = db.crimes := by
  unfold deleteUser
  split
  · rfl
  · split
    · rfl
    · simp only []
      split <;> rfl

theorem putUserVerify_db (db : Db) (id : ObjectId) (v : Option JsVal) :
    (putUserVerify db id v).2 = db ∨
    ∃ user flag, db.findUser id = some user ∧ user.role = .police ∧
      (putUserVerify db id v).2 = db.saveUser { user with isVerified := flag } := by
  cases hv : requiredIsBoolean v with
  | none => simp [putUserVerify, hv]
  | some val =>
    cases hf : db.findUser id with
    | none => simp [putUserVerify, hv, hf]
    | some user =>
      by_cases hp : user.role = .police
      · cases hcast : castBoolean val with
        | none => simp [putUserVerify, hv, hf, hp, hcast]
        | some flag =>
          exact Or.inr ⟨user, flag, rfl, hp, by simp [putUserVerify, hv, hf, hp, hcast]⟩
      · simp [putUserVerify, hv, hf, hp]

theorem putUserStatus_db (db : Db) (actor : User) (id : ObjectId) (v : Option JsVal) :
    (putUserStatus db actor id v).2 = db ∨
    ∃ user flag, db.findUser id = some user ∧
      objectIdToString user._id ≠ objectIdToString actor._id ∧
      (putUserStatus db actor id v).2 = db.saveUser { user with isActive := flag } := by
  cases hv : requiredIsBoolean v with
  | none => simp [putUserStatus, hv]
  | some val =>
    cases hf : db.findUser id with
    | none => simp [putUserStatus, hv, hf]
    | some user =>
      by_cases hp : objectIdToString user._id = objectIdToString actor._id
      · simp [putUserStatus, hv, hf, hp]
      · cases hcast : castBoolean val with
        | none => simp [putUserStatus, hv, hf, hp, hcast]
        | some flag =>
          exact Or.inr ⟨user, flag, rfl, hp, by simp [putUserStatus, hv, hf, hp, hcast]⟩

theorem putUserRole_db (db : Db) (actor : User) (id : ObjectId) (role : String) :
    (putUserRole db actor id role).2 = db ∨
    ∃ user r x, Role.ofStr role = some r ∧ db.findUser id = some user ∧
      objectIdToString user._id ≠ objectIdToString actor._id ∧
      x._id = user._id ∧ x.role = r ∧ (putUserRole db actor id role).2 = db.saveUser x := by
  cases hr : Role.ofStr role with
  | none => simp [putUserRole, hr]
  | some r =>
    cases hf : db.findUser id with
    | none => simp [putUserRole, hr, hf]
    | some user =>
      by_cases hp : objectIdToString user._id = objectIdToString actor._id
      · simp [putUserRole, hr, hf, hp]
      · right
        cases r with
        | citizen =>
          exact ⟨user, .citizen,
            { user with role := .citizen, isVerified := true, badgeNumber := none,
                        department := none },
            rfl, rfl, hp, rfl, rfl, by simp [putUserRole, hr, hf, hp]⟩
        | police =>
          exact ⟨user, .police, { user with role := .police, isVerified := false },
            rfl, rfl, hp, rfl, rfl, by simp [putUserRole, hr, hf, hp]⟩
        | admin =>
          exact ⟨user, .admin, { user with role := .admin },
            rfl, rfl, hp, rfl, rfl, by simp [putUserRole, hr, hf, hp]⟩

theorem deleteUser_db (db : Db) (actor : User) (id : ObjectId) :
    (deleteUser db actor id).2 = db ∨
    ∃ user, db.findUser id = some user ∧
      objectIdToString user._id ≠ objectIdToString actor._id ∧
      (db.crimes.filter (fun c => c.reporter == user._id)).length = 0 ∧
      (deleteUser db actor id).2 =
        { db with users := db.users.filter (fun u => u._id != id) } := by
  cases hf : db.findUser id with
  | none => simp [deleteUser, hf]
  | some user =>
    by_cases hp : objectIdToString user._id = objectIdToString actor._id
    · simp [deleteUser, hf, hp]
    · by_cases hn : (db.crimes.filter (fun c => c.reporter == user._id)).length > 0
      · simp [deleteUser, hf, hp, hn]
      · right
        refine ⟨user, rfl, hp, by omega, ?_⟩
        simp only [deleteUser, hf, hp, if_false, hn]

theorem applyFirAction_inv (c : Crime) (actor : User) (b : FirBody) (now : Time)
    (hv : validateFir b = true) :
    firFieldsOnlyWhenApproved (applyFirAction c actor b now) ∧
    (applyFirAction c actor b now).assignedOfficer = c.assignedOfficer := by
  have hact : b.action = "approve" ∨ b.action = "reject" := by
    simp only [validateFir, Bool.and_eq_true, Bool.or_eq_true, beq_iff_eq] at hv
    exact hv.1
  by_cases ha : b.action = "approve"
  · simp [applyFirAction, ha, firFieldsOnlyWhenApproved]
  · have hr : b.action = "reject" := hact.resolve_left ha
    simp [applyFirAction, hr, firFieldsOnlyWhenApproved]

theorem appendFirNote_fields (x : Crime) (actor : User) (note : Option String) (now : Time) :
    (appendFirNote x actor note now).firStatus = x.firStatus ∧
    (appendFirNote x actor note now).firNumber = x.firNumber ∧
    (appendFirNote x actor note now).firApprovedAt = x.firApprovedAt ∧
    (appendFirNote x actor note now).firApprovedBy = x.firApprovedBy ∧
    (appendFirNote x actor note now).assignedOfficer = x.assignedOfficer := by
  unfold appendFirNote
  cases note with
  | none => simp
  | some n => by_cases hn : strTruthy (jsTrim n) = true <;> simp [hn]

theorem updateStatus_fields (c : Crime) (st : Status) (o : Option ObjectId)
    (note : Option String) (now : Time) :
    (c.updateStatus st o note now).firStatus = c.firStatus ∧
    (c.updateStatus st o note now).firNumber = c.firNumber ∧
    (c.updateStatus st o note now).firApprovedAt = c.firApprovedAt ∧
    (c.updateStatus st o note now).firApprovedBy = c.firApprovedBy ∧
    (c.updateStatus st o note now).assignedOfficer = c.assignedOfficer := by
  unfold Crime.updateStatus
  cases o with
  | none => simp
  | some x => by_cases hn : strTruthy (note.getD "") = true <;> simp [hn]

/-! ## C7: the approval fields are set only on approved reports -/

theorem firFields_transfer (c x : Crime) (h1 : x.firStatus = c.firStatus)
    (h2 : x.firNumber = c.firNumber) (h3 : x.firApprovedAt = c.firApprovedAt)
    (h4 : x.firApprovedBy = c.firApprovedBy) (h : firFieldsOnlyWhenApproved c) :
    firFieldsOnlyWhenApproved x := by
  unfold firFieldsOnlyWhenApproved at *
  rw [h1, h2, h3, h4]
  exact h

theorem run_preserves_firFields (db : Db) (op : Op)
    (h : ∀ c ∈ db.crimes, firFieldsOnlyWhenApproved c) :
    ∀ c ∈ (op.run db).crimes, firFieldsOnlyWhenApproved c := by
  intro c hc
  cases op with
  | create actor b newId now =>
    rcases postCrime_db db actor b newId now with h1 | ⟨x, h1, h2, h3, h4, _⟩
    · simp only [Op.run, h1] at hc
      exact h c hc
    · simp only [Op.run, h1, List.mem_append, List.mem_singleton] at hc
      rcases hc with hc | hc
      · exact h c hc
      · subst hc
        simp [firFieldsOnlyWhenApproved, h2, h3, h4]
  | updateStatus actor id b now =>
    rcases putCrimeStatus_db db actor id b now with h1 | ⟨crime, st, hf, h1⟩
    · simp only [Op.run, h1] at hc
      exact h c hc
    · simp only [Op.run, h1] at hc
      rcases mem_saveCrime _ _ _ hc with hc | hc
      · subst hc
        have hu := updateStatus_fields crime st (some actor._id) (b.note.map jsTrim) now
        exact firFields_transfer crime _ hu.1 hu.2.1 hu.2.2.1 hu.2.2.2.1
          (h crime (findCrime_mem db id crime hf))
      · exact h c hc
  | assignOfficer id officerId now =>
    rcases putCrimeAssign_db db id officerId now with h1 | ⟨crime, o, u, _, _, _, hf, h1⟩
    · simp only [Op.run, h1] at hc
      exact h c hc
    · simp only [Op.run, h1] at hc
      rcases mem_saveCrime _ _ _ hc with hc | hc
      · subst hc
        exact firFields_transfer crime _ rfl rfl rfl rfl (h crime (findCrime_mem db id crime hf))
      · exact h c hc
  | updateFIR actor id b now =>
    rcases putCrimeFir_db db actor id b now with h1 | ⟨crime, hf, hv, _, h1⟩
    · simp only [Op.run, h1] at hc
      exact h c hc
    · simp only [Op.run, h1] at hc
      rcases mem_saveCrime _ _ _ hc with hc | hc
      · subst hc
        have hn := appendFirNote_fields (applyFirAction crime actor b now) actor b.note now
        exact firFields_transfer (applyFirAction crime actor b now) _ hn.1 hn.2.1 hn.2.2.1
          hn.2.2.2.1 (applyFirAction_inv crime actor b now hv).1
      · exact h c hc
  | verifyReport actor id v now =>
    rcases putCrimeVerify_db db actor id v now with h1 | ⟨crime, w, hf, h1⟩
    · simp only [Op.run, h1] at hc
      exact h c hc
    · simp only [Op.run, h1] at hc
      rcases mem_saveCrime _ _ _ hc with hc | hc
      · subst hc
        exact firFields_transfer crime _ rfl rfl rfl rfl (h crime (findCrime_mem db id crime hf))
      · exact h c hc
  | verifyPoliceAccount id v =>
    simp only [Op.run, putUserVerify_crimes] at hc
    exact h c hc
  | setUserActive actor id v =>
    simp only [Op.run, putUserStatus_crimes] at hc
    exact h c hc
  | setUserRole actor id role =>
    simp only [Op.run, putUserRole_crimes] at hc
    exact h c hc
  | deleteUser actor id =>
    simp only [Op.run, deleteUser_crimes] at hc
    exact h c hc

theorem runOps_preserves_firFields (ops : List Op) :
    ∀ db : Db, (∀ c ∈ db.crimes, firFieldsOnlyWhenApproved c) →
      ∀ c ∈ (runOps db ops).crimes, firFieldsOnlyWhenApproved c := by
  induction ops with
  | nil =>
    intro db h
    exact h
  | cons op rest ih =>
    intro db h
    exact ih (op.run db) (run_preserves_firFields db op h)

/-- C7: in every database reached from a store without reports by any sequence of
requests (create, updateStatus, assignOfficer, verifyReport, updateFIR and the user
administration requests), each report has `firNumber`, `firApprovedAt` or
`firApprovedBy` set only if its `firStatus` is approved; and a valid reject request on a
report whose `firStatus` is not not_requested is answered 200 and stores
`firStatus = rejected` with the three fields cleared. -/
theorem fir_fields_only_when_approved (users : List User) (ops : List Op) :
    (∀ c ∈ (runOps { users := users, crimes := [] } ops).crimes,
      firFieldsOnlyWhenApproved c) ∧
    (∀ (db : Db) (actor : User) (id : ObjectId) (b : FirBody) (now : Time) (crime : Crime),
      validateFir b = true → db.findCrime id = some crime →
      crime.firStatus ≠ .not_requested → b.action = "reject" →
      ∃ c, (putCrimeFir db actor id b now).1 = .ok 200 c ∧
        (putCrimeFir db actor id b now).2.findCrime id = some c ∧
        c.firStatus = .rejected ∧ c.firNumber = none ∧ c.firApprovedAt = none ∧
        c.firApprovedBy = none) := by
  constructor
  · exact runOps_preserves_firFields ops _ (by simp)
  · intro db actor id b now crime hv hc hs hr
    obtain ⟨c, h1, h2, _, h4, h5, h6, h7⟩ :=
      putCrimeFir_accepted db actor id b now crime hv hc hs
    have hne : ¬ (b.action = "approve") := by
      rw [hr]
      decide
    have happ : applyFirAction crime actor b now =
        { crime with firStatus := .rejected, firApprovedAt := none, firApprovedBy := none,
                     firNumber := none } := by
      simp [applyFirAction, hr]
    rw [happ] at h4 h5 h6 h7
    exact ⟨c, h1, h2, h4, h5, h6, h7⟩

/-- C7 on the sample workflow and on a reject request: after create, status update,
approve and verify the one report is approved with number "ABC123", and rejecting the
pending report of the sample store clears the fields. -/
theorem fir_fields_only_when_approved_witness :
    ((runOps { users := sampleUsers, crimes := [] } firWorkflow).crimes.map
        (fun c => (c.firStatus, c.firNumber, c.firApprovedAt, c.firApprovedBy)) =
      [(FirStatus.approved, some "ABC123", some 7000, some 4)]) ∧
    (∀ c ∈ (runOps { users := sampleUsers, crimes := [] } firWorkflow).crimes,
      firFieldsOnlyWhenApproved c) ∧
    ∃ c, (putCrimeFir firDb adminX 100
            { action := "reject", firNumber := none, note := some "duplicate" } 9000).1
          = .ok 200 c ∧
        (putCrimeFir firDb adminX 100
            { action := "reject", firNumber := none, note := some "duplicate" }
            9000).2.findCrime 100 = some c ∧
        c.firStatus = .rejected ∧ c.firNumber = none ∧ c.firApprovedAt = none ∧
        c.firApprovedBy = none :=
  ⟨by decide, (fir_fields_only_when_approved sampleUsers firWorkflow).1,
    (fir_fields_only_when_approved sampleUsers firWorkflow).2 firDb adminX 100
      { action := "reject", firNumber := none, note := some "duplicate" } 9000 bikeReport
      (by decide) (by decide) (by decide) rfl⟩

/-! ## C8: officer assignment -/

/-- C8: `PUT /:id/assign` answers 400 and leaves the database as it was whenever
`officerId` does not resolve to a user or resolves to a user whose role is not police;
when the officer is a police user it answers 404 exactly when the report does not exist
(again without any change), and otherwise answers 200 and stores the report with
`assignedOfficer = officerId`. -/
theorem assign_officer_checked (db : Db) (id : ObjectId) (officerId : Option ObjectId)
    (now : Time) :
    (resolvesToPolice db officerId = false →
      (putCrimeAssign db id officerId now).1.code = 400 ∧
      (putCrimeAssign db id officerId now).1.isError = true ∧
      (putCrimeAssign db id officerId now).2 = db) ∧
    (resolvesToPolice db officerId = true →
      ((putCrimeAssign db id officerId now).1.code = 404 ↔ db.findCrime id = none) ∧
      (db.findCrime id = none →
        (putCrimeAssign db id officerId now).1.isError = true ∧
        (putCrimeAssign db id officerId now).2 = db) ∧
      ∀ crime, db.findCrime id = some crime →
        ∃ c, (putCrimeAssign db id officerId now).1 = .ok 200 c ∧
          (putCrimeAssign db id officerId now).2.findCrime id = some c ∧
          c.assignedOfficer = officerId ∧ officerId.isSome = true) := by
  cases officerId with
  | none => simp [resolvesToPolice, putCrimeAssign, Response.code, Response.isError]
  | some o =>
    cases hu : db.findUser o with
    | none => simp [resolvesToPolice, putCrimeAssign, hu, Response.code, Response.isError]
    | some u =>
      by_cases hr : u.role = .police
      · cases hc : db.findCrime id with
        | none =>
          simp [resolvesToPolice, putCrimeAssign, hu, hr, hc, Response.code, Response.isError]
        | some crime =>
          have hfind : (db.saveCrime (crime.assignOfficer o now)).findCrime id =
              some (crime.assignOfficer o now) :=
            findCrime_saveCrime db id crime _ hc (findCrime_id db id crime hc)
          have hoff : (crime.assignOfficer o now).assignedOfficer = some o := rfl
          simp [resolvesToPolice, putCrimeAssign, hu, hr, hc, Response.code, hfind, hoff]
      · simp [resolvesToPolice, putCrimeAssign, hu, hr, Response.code, Response.isError]

/-- C8 at the sample store: assigning citizen A is refused with 400 and changes nothing;
assigning officer P to report 100 stores the assignment. -/
theorem assign_officer_checked_witness :
    resolvesToPolice firDb (some 1) = false ∧
    ((putCrimeAssign firDb 100 (some 1) 9000).1.code = 400 ∧
      (putCrimeAssign firDb 100 (some 1) 9000).1.isError = true ∧
      (putCrimeAssign firDb 100 (some 1) 9000).2 = firDb) ∧
    resolvesToPolice firDb (some 3) = true ∧
    firDb.findCrime 100 = some bikeReport ∧
    ∃ c, (putCrimeAssign firDb 100 (some 3) 9000).1 = .ok 200 c ∧
      (putCrimeAssign firDb 100 (some 3) 9000).2.findCrime 100 = some c ∧
      c.assignedOfficer = some 3 ∧ (some 3 : Option ObjectId).isSome = true :=
  ⟨by decide, (assign_officer_checked firDb 100 (some 1) 9000).1 (by decide), by decide,
    by decide,
    ((assign_officer_checked firDb 100 (some 3) 9000).2 (by decide)).2.2 bikeReport
      (by decide)⟩

/-! ## C10: the self-action guard -/

/-- C10: whatever the payload, `PUT /users/:id/status`, `PUT /users/:id/role` and
`DELETE /users/:id` aimed at the acting admin's own id are answered with an error and
leave the database, hence the admin's user record, as it was. -/
theorem self_action_refused (db : Db) (actor : User) (isActive : Option JsVal)
    (role : String) :
    ((putUserStatus db actor actor._id isActive).1.isError = true ∧
      (putUserStatus db actor actor._id isActive).2 = db) ∧
    ((putUserRole db actor actor._id role).1.isError = true ∧
      (putUserRole db actor actor._id role).2 = db) ∧
    ((deleteUser db actor actor._id).1.isError = true ∧
      (deleteUser db actor actor._id).2 = db) := by
  have hself : ∀ u, db.findUser actor._id = some u →
      objectIdToString u._id = objectIdToString actor._id := by
    intro u hu
    rw [findUser_id db actor._id u hu]
  refine ⟨?_, ?_, ?_⟩
  · unfold putUserStatus
    cases requiredIsBoolean isActive with
    | none => simp [Response.isError]
    | some v =>
      cases hu : db.findUser actor._id with
      | none => simp [Response.isError]
      | some u => simp [hself u hu, Response.isError]
  · unfold putUserRole
    cases Role.ofStr role with
    | none => simp [Response.isError]
    | some r =>
      cases hu : db.findUser actor._id with
      | none => simp [Response.isError]
      | some u => simp [hself u hu, Response.isError]
  · unfold deleteUser
    cases hu : db.findUser actor._id with
    | none => simp [Response.isError]
    | some u => simp [hself u hu, Response.isError]

/-! ## C9: the assigned officer is a police user -/

theorem find_map_keep (l : List User) (o : ObjectId) (f : User → User)
    (hf : ∀ u, (f u)._id = u._id) :
    (l.map f).find? (fun u => u._id == o) = (l.find? (fun u => u._id == o)).map f := by
  induction l with
  | nil => rfl
  | cons a t ih =>
    by_cases ha : a._id = o
    · have h1 : ((f a)._id == o) = true := by simp [hf, ha]
      have h2 : (a._id == o) = true := by simp [ha]
      simp only [List.map_cons, List.find?_cons, h1, h2, Option.map_some']
    · have h1 : ((f a)._id == o) = false := by simp [hf, ha]
      have h2 : (a._id == o) = false := by simp [ha]
      simp only [List.map_cons, List.find?_cons, h1, h2]
      exact ih

theorem findUser_saveUser (db : Db) (x : User) (o : ObjectId) :
    (db.saveUser x).findUser o =
      (db.findUser o).map (fun d => if d._id = x._id then x else d) := by
  apply find_map_keep
  intro u
  by_cases h : u._id = x._id
  · simp [h]
  · simp [h]

theorem find_filter_other (l : List User) (o id : ObjectId) (h : o ≠ id) :
    (l.filter (fun u => u._id != id)).find? (fun u => u._id == o) =
      l.find? (fun u => u._id == o) := by
  induction l with
  | nil => rfl
  | cons a t ih =>
    by_cases ha : a._id = id
    · have h2 : (a._id == o) = false := by
        simp only [beq_eq_false_iff_ne, ne_eq]
        intro hao
        exact h (hao.symm.trans ha)
      have h3 : (a._id != id) = false := by simp [ha]
      simp only [List.filter_cons, h3, List.find?_cons, h2]
      exact ih
    · have h3 : (a._id != id) = true := by simp [ha]
      simp only [List.filter_cons, h3, if_true, List.find?_cons, ih]

/-- The users after a request that saves user `x` in place of the stored `user`: an id
that resolved to a police user still does, provided `x` keeps the role or the id is
another one. -/
theorem police_after_saveUser (db : Db) (id o : ObjectId) (user x u : User)
    (hfind : db.findUser id = some user) (hx : x._id = user._id)
    (hkeep : x.role = .police ∨ x.role = user.role ∨ o ≠ id)
    (hu : db.findUser o = some u) (hrole : u.role = .police) :
    ∃ w, (db.saveUser x).findUser o = some w ∧ w.role = .police := by
  rw [findUser_saveUser, hu]
  have huid := findUser_id db o u hu
  have hid := findUser_id db id user hfind
  by_cases h : u._id = x._id
  · refine ⟨x, by simp [h], ?_⟩
    have hoid : o = id := by rw [← huid, h, hx, hid]
    rcases hkeep with hk | hk | hk
    · exact hk
    · subst hoid
      rw [hfind] at hu
      cases hu
      rw [hk]
      exact hrole
    · exact absurd hoid hk
  · exact ⟨u, by simp [h], hrole⟩

theorem unassigned_ne (db : Db) (id o : ObjectId) (c : Crime) (hun : db.unassigned id = true)
    (hc : c ∈ db.crimes) (ho : c.assignedOfficer = some o) : o ≠ id := by
  intro h
  have := (List.all_eq_true.mp hun) c hc
  simp [ho, h] at this

/-- Every report's assigned officer resolves to a police user. -/
theorem run_preserves_officers (db : Db) (op : Op) (hs : op.sparesOfficers db = true)
    (h : ∀ c ∈ db.crimes, officerIsPolice db c) :
    ∀ c ∈ (op.run db).crimes, officerIsPolice (op.run db) c := by
  intro c hc o ho
  cases op with
  | create actor b newId now =>
    rcases postCrime_db db actor b newId now with h1 | ⟨x, h1, _, _, _, h5⟩
    · simp only [Op.run, h1] at hc ⊢
      exact h c hc o ho
    · simp only [Op.run, h1, List.mem_append, List.mem_singleton] at hc ⊢
      rcases hc with hc | hc
      · exact h c hc o ho
      · subst hc
        rw [h5] at ho
        cases ho
  | updateStatus actor id b now =>
    rcases putCrimeStatus_db db actor id b now with h1 | ⟨crime, st, hf, h1⟩
    · simp only [Op.run, h1] at hc ⊢
      exact h c hc o ho
    · simp only [Op.run, h1] at hc ⊢
      rcases mem_saveCrime _ _ _ hc with hc | hc
      · subst hc
        rw [(updateStatus_fields crime st (some actor._id) (b.note.map jsTrim) now).2.2.2.2]
          at ho
        exact h crime (findCrime_mem db id crime hf) o ho
      · exact h c hc o ho
  | assignOfficer id officerId now =>
    rcases putCrimeAssign_db db id officerId now with h1 | ⟨crime, p, u, _, hu, hr, hf, h1⟩
    · simp only [Op.run, h1] at hc ⊢
      exact h c hc o ho
    · simp only [Op.run, h1] at hc ⊢
      rcases mem_saveCrime _ _ _ hc with hc | hc
      · subst hc
        have hop : o = p := by
          have : some p = some o := ho
          exact (Option.some.inj this).symm
        subst hop
        exact ⟨u, hu, hr⟩
      · exact h c hc o ho
  | updateFIR actor id b now =>
    rcases putCrimeFir_db db actor id b now with h1 | ⟨crime, hf, hv, _, h1⟩
    · simp only [Op.run, h1] at hc ⊢
      exact h c hc o ho
    · simp only [Op.run, h1] at hc ⊢
      rcases mem_saveCrime _ _ _ hc with hc | hc
      · subst hc
        have hn := (appendFirNote_fields (applyFirAction crime actor b now) actor b.note
          now).2.2.2.2
        have ha := (applyFirAction_inv crime actor b now hv).2
        have ho2 : crime.assignedOfficer = some o := by
          rw [← ha, ← hn]
          exact ho
        exact h crime (findCrime_mem db id crime hf) o ho2
      · exact h c hc o ho
  | verifyReport actor id v now =>
    rcases putCrimeVerify_db db actor id v now with h1 | ⟨crime, w, hf, h1⟩
    · simp only [Op.run, h1] at hc ⊢
      exact h c hc o ho
    · simp only [Op.run, h1] at hc ⊢
      rcases mem_saveCrime _ _ _ hc with hc | hc
      · subst hc
        exact h crime (findCrime_mem db id crime hf) o ho
      · exact h c hc o ho
  | verifyPoliceAccount id v =>
    simp only [Op.run, putUserVerify_crimes] at hc
    obtain ⟨u, hu, hr⟩ := h c hc o ho
    rcases putUserVerify_db db id v with h1 | ⟨user, flag, hf, _, h1⟩
    · simp only [Op.run, h1]
      exact ⟨u, hu, hr⟩
    · simp only [Op.run, h1]
      exact police_after_saveUser db id o user _ u hf rfl (Or.inr (Or.inl rfl)) hu hr
  | setUserActive actor id v =>
    simp only [Op.run, putUserStatus_crimes] at hc
    obtain ⟨u, hu, hr⟩ := h c hc o ho
    rcases putUserStatus_db db actor id v with h1 | ⟨user, flag, hf, _, h1⟩
    · simp only [Op.run, h1]
      exact ⟨u, hu, hr⟩
    · simp only [Op.run, h1]
      exact police_after_saveUser db id o user _ u hf rfl (Or.inr (Or.inl rfl)) hu hr
  | setUserRole actor id role =>
    simp only [Op.run, putUserRole_crimes] at hc
    obtain ⟨u, hu, hr⟩ := h c hc o ho
    rcases putUserRole_db db actor id role with h1 | ⟨user, r, x, hrl, hf, _, hx, hxr, h1⟩
    · simp only [Op.run, h1]
      exact ⟨u, hu, hr⟩
    · simp only [Op.run, h1]
      have hkeep : x.role = .police ∨ x.role = user.role ∨ o ≠ id := by
        simp only [Op.sparesOfficers, hrl, Bool.or_eq_true, beq_iff_eq,
          Option.some.injEq] at hs
        rcases hs with hs | hs
        · exact Or.inl (hxr.trans hs)
        · exact Or.inr (Or.inr (unassigned_ne db id o c hs hc ho))
      exact police_after_saveUser db id o user x u hf hx hkeep hu hr
  | deleteUser actor id =>
    simp only [Op.run, deleteUser_crimes] at hc
    obtain ⟨u, hu, hr⟩ := h c hc o ho
    have hne : o ≠ id := by
      simp only [Op.sparesOfficers] at hs
      exact unassigned_ne db id o c hs hc ho
    rcases deleteUser_db db actor id with h1 | ⟨user, _, _, _, h1⟩
    · simp only [Op.run, h1]
      exact ⟨u, hu, hr⟩
    · simp only [Op.run, h1]
      refine ⟨u, ?_, hr⟩
      show (db.users.filter (fun u => u._id != id)).find? (fun u => u._id == o) = some u
      rw [find_filter_other db.users o id hne]
      exact hu

theorem runOps_preserves_officers (ops : List Op) :
    ∀ db : Db, sparesOfficersAlong db ops = true → (∀ c ∈ db.crimes, officerIsPolice db c) →
      ∀ c ∈ (runOps db ops).crimes, officerIsPolice (runOps db ops) c := by
  induction ops with
  | nil =>
    intro db _ h
    exact h
  | cons op rest ih =>
    intro db hs h
    simp only [sparesOfficersAlong, Bool.and_eq_true] at hs
    exact ih (op.run db) hs.2 (run_preserves_officers db op hs.1 h)

/-- C9 as stated fails: after create, assignment of officer P and a role change of P to
citizen, the report's assigned officer is a citizen; after create, assignment and
deletion of P, the report's assigned officer is no user at all.  So not every reachable
database has all assigned officers police. -/
theorem assigned_officer_may_stop_being_police :
    (∃ c ∈ (runOps { users := sampleUsers, crimes := [] } demoteAfterAssign).crimes,
      c.assignedOfficer = some 3 ∧
      ((runOps { users := sampleUsers, crimes := [] } demoteAfterAssign).findUser 3).map
        (fun u => u.role) = some Role.citizen) ∧
    (∃ c ∈ (runOps { users := sampleUsers, crimes := [] } deleteAfterAssign).crimes,
      c.assignedOfficer = some 3 ∧
      (runOps { users := sampleUsers, crimes := [] } deleteAfterAssign).findUser 3 = none) ∧
    ¬ (∀ (users : List User) (ops : List Op),
        ∀ c ∈ (runOps { users := users, crimes := [] } ops).crimes,
          officerIsPolice (runOps { users := users, crimes := [] } ops) c) := by
  refine ⟨by decide, by decide, ?_⟩
  intro hall
  have hex : ∃ c ∈ (runOps { users := sampleUsers, crimes := [] } deleteAfterAssign).crimes,
      c.assignedOfficer = some 3 := by decide
  obtain ⟨c, hc, ho⟩ := hex
  obtain ⟨u, hu, _⟩ := hall sampleUsers deleteAfterAssign c hc 3 ho
  have hnone : (runOps { users := sampleUsers, crimes := [] } deleteAfterAssign).findUser 3
      = none := by decide
  rw [hnone] at hu
  cases hu

/-- C9, amended: in every database reached from a store without reports by a sequence of
requests none of which changes the role of a report's assigned officer to something other
than police or deletes a report's assigned officer, every report whose `assignedOfficer`
is present references an existing user whose role is police. -/
theorem assigned_officer_is_police (users : List User) (ops : List Op)
    (hs : sparesOfficersAlong { users := users, crimes := [] } ops = true) :
    ∀ c ∈ (runOps { users := users, crimes := [] } ops).crimes,
      officerIsPolice (runOps { users := users, crimes := [] } ops) c :=
  runOps_preserves_officers ops _ hs (by simp)

/-- C9, amended, on a sample run: after create, assignment of officer P, deactivation of
P and a role change of citizen B, the report is assigned to P and P is police. -/
theorem assigned_officer_is_police_witness :
    sparesOfficersAlong { users := sampleUsers, crimes := [] } harmlessAdministration = true ∧
    (runOps { users := sampleUsers, crimes := [] } harmlessAdministration).crimes.map
      (fun c => c.assignedOfficer) = [some 3] ∧
    ∀ c ∈ (runOps { users := sampleUsers, crimes := [] } harmlessAdministration).crimes,
      officerIsPolice (runOps { users := sampleUsers, crimes := [] } harmlessAdministration) c :=
  ⟨by decide, by decide,
    assigned_officer_is_police sampleUsers harmlessAdministration (by decide)⟩

/-! ## Lemmas on the email queue -/

theorem takeNext_spec (l : List EmailTask) :
    ∃ skipped, (∀ t ∈ skipped, knownKind t.type = false) ∧
      ((∃ t rest, takeNext l = (rest, some t) ∧ l = skipped ++ t :: rest ∧
          knownKind t.type = true) ∨
       (takeNext l = ([], none) ∧ l = skipped)) := by
  induction l with
  | nil => exact ⟨[], by simp, Or.inr ⟨rfl, rfl⟩⟩
  | cons a t ih =>
    by_cases ha : knownKind a.type = true
    · exact ⟨[], by simp, Or.inl ⟨a, t, by simp [takeNext, ha], rfl, ha⟩⟩
    · obtain ⟨sk, hsk, h⟩ := ih
      have ha2 : knownKind a.type = false := by simpa using ha
      refine ⟨a :: sk, ?_, ?_⟩
      · intro x hx
        rcases List.mem_cons.mp hx with h1 | h1
        · rw [h1]
          exact ha2
        · exact hsk x h1
      · rcases h with ⟨x, rest, h1, h2, h3⟩ | ⟨h1, h2⟩
        · exact Or.inl ⟨x, rest, by simp [takeNext, ha2, h1], by simp [h2], h3⟩
        · exact Or.inr ⟨by simp [takeNext, ha2, h1], by simp [h2]⟩

theorem drainLoop_singleDrainer (s : QueueState) (hp : s.isProcessing = true)
    (hw : s.workers = []) : (drainLoop s).singleDrainer := by
  unfold drainLoop
  rcases h : takeNext s.emailQueue with ⟨rest, _ | t⟩
  · right
    simp [hw]
  · left
    simp [hw, hp]

theorem processEmailQueue_singleDrainer (s : QueueState) (h : s.singleDrainer) :
    (processEmailQueue s).singleDrainer := by
  unfold processEmailQueue
  split
  · exact h
  · rename_i hc
    simp only [Bool.or_eq_true, not_or, Bool.not_eq_true] at hc
    rcases h with ⟨h1, _⟩ | ⟨_, h2⟩
    · rw [h1] at hc
      exact absurd hc.1 (by decide)
    · exact drainLoop_singleDrainer _ rfl h2

theorem step_singleDrainer (s : QueueState) (e : QEvent) (h : s.singleDrainer) :
    (s.step e).singleDrainer := by
  cases e with
  | add task id now =>
    simp only [QueueState.step, addEmailTask]
    split
    · apply processEmailQueue_singleDrainer
      exact h
    · exact h
  | sendDone i o =>
    simp only [QueueState.step, sendDone]
    split
    · split
      · rcases h with ⟨h1, h2⟩ | ⟨h1, h2⟩
        · exact Or.inl ⟨h1, by simpa using h2⟩
        · exact Or.inr ⟨h1, by simp [h2]⟩
      · rcases h with ⟨h1, h2⟩ | ⟨h1, h2⟩
        · exact Or.inl ⟨h1, by simpa using h2⟩
        · exact Or.inr ⟨h1, by simp [h2]⟩
    · exact h
  | delayDone i =>
    simp only [QueueState.step, delayDone]
    split
    · rename_i hget
      rcases h with ⟨h1, h2⟩ | ⟨_, h2⟩
      · have hi : i < s.workers.length := (List.get?_eq_some.mp hget).1
        have hi0 : i = 0 := by omega
        subst hi0
        have hw : s.workers.eraseIdx 0 = [] := by
          obtain ⟨w, hw⟩ := List.length_eq_one.mp h2
          rw [hw]
          rfl
        exact drainLoop_singleDrainer _ h1 hw
      · rw [h2] at hget
        simp at hget
    · exact h
  | retryFire j =>
    simp only [QueueState.step, retryFire]
    split
    · split
      · apply processEmailQueue_singleDrainer
        exact h
      · exact h
    · exact h
  | process => exact processEmailQueue_singleDrainer s h

theorem runEvents_singleDrainer (events : List QEvent) :
    ∀ s : QueueState, s.singleDrainer → (runEvents s events).singleDrainer := by
  induction events with
  | nil =>
    intro s h
    exact h
  | cons e rest ih =>
    intro s h
    exact ih (s.step e) (step_singleDrainer s e h)

/-! ## C12: one drain loop at a time -/

/-- C12: after any sequence of turns of the event loop (enqueues, send completions, pause
ends, retry timers, direct calls of `processEmailQueue`) at most one execution of the
drain loop exists, and there is one exactly when `isProcessing` is set, so a new loop is
only ever started when none exists; a call of `processEmailQueue` made while
`isProcessing` is set returns without touching the state, and `addEmailTask` made while it
is set only appends the entry: no worker is added and no send is started. -/
theorem single_drain_loop (events : List QEvent) :
    (runEvents QueueState.init events).workers.length ≤ 1 ∧
    ((runEvents QueueState.init events).isProcessing = true ↔
      (runEvents QueueState.init events).workers.length = 1) ∧
    (∀ s : QueueState, s.isProcessing = true → processEmailQueue s = s) ∧
    (∀ (s : QueueState) (task : TaskInput) (id : Rat) (now : Time), s.isProcessing = true →
      (addEmailTask s task id now).workers = s.workers ∧
      (addEmailTask s task id now).sendLog = s.sendLog ∧
      (addEmailTask s task id now).emailQueue = s.emailQueue ++ [newEntry task id now]) := by
  have hinv : (runEvents QueueState.init events).singleDrainer :=
    runEvents_singleDrainer events _ (Or.inr ⟨rfl, rfl⟩)
  refine ⟨?_, ?_, ?_, ?_⟩
  · rcases hinv with ⟨_, h⟩ | ⟨_, h⟩
    · omega
    · simp [h]
  · rcases hinv with ⟨h1, h2⟩ | ⟨h1, h2⟩
    · simp [h1, h2]
    · simp [h1, h2]
  · intro s hs
    simp [processEmailQueue, hs]
  · intro s task id now hs
    simp [addEmailTask, hs]

/-- C12 on a sample interleaving and on a busy queue: calling `processEmailQueue` or
enqueueing while a worker is sending changes neither the worker nor the sends. -/
theorem single_drain_loop_witness :
    (runEvents QueueState.init mixedEvents).workers.length ≤ 1 ∧
    busyQueue.isProcessing = true ∧
    busyQueue.emailQueue.length = 2 ∧
    processEmailQueue busyQueue = busyQueue ∧
    ((addEmailTask busyQueue resetTaskInput 9 6000).workers = busyQueue.workers ∧
      (addEmailTask busyQueue resetTaskInput 9 6000).sendLog = busyQueue.sendLog ∧
      (addEmailTask busyQueue resetTaskInput 9 6000).emailQueue =
        busyQueue.emailQueue ++ [newEntry resetTaskInput 9 6000]) :=
  ⟨(single_drain_loop mixedEvents).1, by decide, by decide,
    (single_drain_loop []).2.2.1 busyQueue (by decide),
    (single_drain_loop []).2.2.2 busyQueue resetTaskInput 9 6000 (by decide)⟩

/-! ## C14: enqueueing -/

/-- C14 as stated fails: on the idle empty queue `addEmailTask` with a FIR confirmation
returns with the queue empty, not with the entry at its tail, because the worker it
starts has already taken the entry; and with a task of an unknown kind it returns with
no worker active. -/
theorem addEmailTask_when_idle :
    QueueState.init.isProcessing = false ∧
    (addEmailTask QueueState.init firTaskInput 1 5000).emailQueue = [] ∧
    (addEmailTask QueueState.init firTaskInput 1 5000).emailQueue ≠
      QueueState.init.emailQueue ++ [newEntry firTaskInput 1 5000] ∧
    (addEmailTask QueueState.init firTaskInput 1 5000).workers =
      [.awaitingSend (newEntry firTaskInput 1 5000)] ∧
    (addEmailTask QueueState.init unknownTaskInput 1 5000).isProcessing = false ∧
    (addEmailTask QueueState.init unknownTaskInput 1 5000).emailQueue = [] := by
  decide

/-- C14, amended: `addEmailTask` appends exactly one entry at the tail, with
`attempts = 0`, `maxAttempts = 3` and the task's type, email and payload, whatever the
task carries, and leaves the queued entries as they are.  While a worker is active that
is all, and the worker stays active.  When no worker is active, one is started before the
call returns: it removes from the head of the queue the entries up to and including the
first one of a known kind, starts sending that one and is active on return; if no queued
entry is of a known kind the queue is emptied and no worker is active on return. -/
theorem addEmailTask_appends (s : QueueState) (task : TaskInput) (id : Rat) (now : Time) :
    ((newEntry task id now).attempts = 0 ∧ (newEntry task id now).maxAttempts = 3 ∧
      (newEntry task id now).type = task.type ∧ (newEntry task id now).email = task.email ∧
      (newEntry task id now).userName = task.userName ∧
      (newEntry task id now).crimeData = task.crimeData ∧
      (newEntry task id now).resetToken = task.resetToken) ∧
    (s.isProcessing = true →
      addEmailTask s task id now =
        { s with emailQueue := s.emailQueue ++ [newEntry task id now] }) ∧
    (s.isProcessing = false →
      ∃ skipped, (∀ t ∈ skipped, knownKind t.type = false) ∧
        ((∃ t rest, s.emailQueue ++ [newEntry task id now] = skipped ++ t :: rest ∧
            knownKind t.type = true ∧
            addEmailTask s task id now =
              { s with emailQueue := rest, isProcessing := true,
                       workers := s.workers ++ [.awaitingSend t],
                       sendLog := s.sendLog ++ [t] }) ∨
         (s.emailQueue ++ [newEntry task id now] = skipped ∧
            addEmailTask s task id now =
              { s with emailQueue := [], isProcessing := false }))) := by
  refine ⟨⟨rfl, rfl, rfl, rfl, rfl, rfl, rfl⟩, ?_, ?_⟩
  · intro hs
    simp [addEmailTask, hs]
  · intro hs
    obtain ⟨sk, hsk, h⟩ := takeNext_spec (s.emailQueue ++ [newEntry task id now])
    refine ⟨sk, hsk, ?_⟩
    rcases h with ⟨t, rest, h1, h2, h3⟩ | ⟨h1, h2⟩
    · left
      refine ⟨t, rest, h2, h3, ?_⟩
      simp [addEmailTask, hs, processEmailQueue, drainLoop, h1]
    · right
      refine ⟨h2, ?_⟩
      simp [addEmailTask, hs, processEmailQueue, drainLoop, h1]

/-- C14, amended, on samples: enqueueing on the busy queue appends at the tail; enqueueing
a FIR confirmation that carries `attempts = 7` on the idle queue starts a worker that
sends it with `attempts = 0`. -/
theorem addEmailTask_appends_witness :
    busyQueue.isProcessing = true ∧
    addEmailTask busyQueue firTaskInput 9 6000 =
      { busyQueue with emailQueue := busyQueue.emailQueue ++ [newEntry firTaskInput 9 6000] } ∧
    firTaskInput.attempts = some 7 ∧
    (newEntry firTaskInput 9 6000).attempts = 0 ∧
    (addEmailTask QueueState.init firTaskInput 9 6000).isProcessing = true :=
  ⟨by decide, (addEmailTask_appends busyQueue firTaskInput 9 6000).2.1 (by decide),
    by decide, (addEmailTask_appends busyQueue firTaskInput 9 6000).1.1, by decide⟩

/-! ## C15: the queue status -/

theorem agreeOnPublic_map (l1 l2 : List EmailTask) (hq : List.Forall₂ agreeOnPublic l1 l2) :
    l1.map taskStatus = l2.map taskStatus := by
  induction hq with
  | nil => rfl
  | cons hab _ ih =>
    obtain ⟨h1, h2, h3, h4, h5⟩ := hab
    simp only [List.map_cons, ih, taskStatus, h1, h2, h3, h4, h5]

/-- C15: `getQueueStatus` returns the same value on two states that have the same
`isProcessing` and whose queues agree, entry by entry, on id, type, email, attempts and
createdAt, however the payloads (userName, crimeData, resetToken) differ; its `pending` is
the queue length, its `processing` is `isProcessing`, and `tasks` lists the five public
fields of each queued entry in queue order. -/
theorem getQueueStatus_hides_payload (s1 s2 : QueueState)
    (hq : List.Forall₂ agreeOnPublic s1.emailQueue s2.emailQueue)
    (hp : s1.isProcessing = s2.isProcessing) :
    getQueueStatus s1 = getQueueStatus s2 ∧
    (getQueueStatus s1).pending = s1.emailQueue.length ∧
    (getQueueStatus s1).processing = s1.isProcessing ∧
    (getQueueStatus s1).tasks.length = s1.emailQueue.length ∧
    ∀ i : Nat, (getQueueStatus s1).tasks[i]? =
      (s1.emailQueue[i]?).map (fun t =>
        { id := t.id, type := t.type, email := t.email, attempts := t.attempts,
          createdAt := t.createdAt }) := by
  have hmap := agreeOnPublic_map _ _ hq
  refine ⟨?_, rfl, rfl, by simp [getQueueStatus], ?_⟩
  · simp only [getQueueStatus, hmap, hq.length_eq, hp]
  · intro i
    simp only [getQueueStatus, List.getElem?_map]
    rfl

/-- C15 on samples: a queue holding a FIR confirmation for a report and the same queue
with another user name, no report and a reset token have the same status. -/
theorem getQueueStatus_hides_payload_witness :
    List.Forall₂ agreeOnPublic statusQueueA.emailQueue statusQueueB.emailQueue ∧
    statusQueueA ≠ statusQueueB ∧
    getQueueStatus statusQueueA = getQueueStatus statusQueueB ∧
    (getQueueStatus statusQueueA).pending = 1 :=
  ⟨List.Forall₂.cons ⟨rfl, rfl, rfl, rfl, rfl⟩ List.Forall₂.nil, by decide,
    (getQueueStatus_hides_payload statusQueueA statusQueueB
      (List.Forall₂.cons ⟨rfl, rfl, rfl, rfl, rfl⟩ List.Forall₂.nil) rfl).1,
    by decide⟩

/-! ## The life of one task -/

theorem settle_add (o : Nat → SendOutcome) (m n : Nat) :
    ∀ s : QueueState, settle o (m + n) s = settle o n (settle o m s) := by
  induction m with
  | zero =>
    intro s
    simp [settle]
  | succ k ih =>
    intro s
    have : k + 1 + n = (k + n) + 1 := by omega
    rw [this]
    simp only [settle]
    exact ih _

theorem step_idle (sl dl : List EmailTask) (e : QEvent) (he : e.isAdd = false) :
    (QueueState.idle sl dl).step e = QueueState.idle sl dl := by
  cases e with
  | add task id now => simp [QEvent.isAdd] at he
  | sendDone i o => simp [QueueState.step, sendDone, QueueState.idle]
  | delayDone i => simp [QueueState.step, delayDone, QueueState.idle]
  | retryFire j => simp [QueueState.step, retryFire, QueueState.idle]
  | process => simp [QueueState.step, processEmailQueue, QueueState.idle]

theorem runEvents_idle (sl dl : List EmailTask) (events : List QEvent)
    (he : ∀ e ∈ events, e.isAdd = false) :
    runEvents (QueueState.idle sl dl) events = QueueState.idle sl dl := by
  induction events with
  | nil => rfl
  | cons e rest ih =>
    have h1 := step_idle sl dl e (he e (List.mem_cons_self _ _))
    have h2 := ih (fun x hx => he x (List.mem_cons_of_mem _ hx))
    simp only [runEvents, List.foldl_cons] at h2 ⊢
    rw [h1]
    exact h2

theorem settle_idle (o : Nat → SendOutcome) (sl dl : List EmailTask) (n : Nat) :
    settle o n (QueueState.idle sl dl) = QueueState.idle sl dl := by
  induction n with
  | zero => rfl
  | succ k ih =>
    simp only [settle]
    have : settleStep o (QueueState.idle sl dl) = QueueState.idle sl dl := by
      simp [settleStep, QueueState.idle]
    rw [this]
    exact ih

theorem addEmailTask_quiet (s : QueueState) (task : TaskInput) (id : Rat) (now : Time)
    (hs : s.quiet) (hk : knownKind task.type = true) :
    addEmailTask s task id now =
      QueueState.sending (newEntry task id now) (s.sendLog ++ [newEntry task id now])
        s.deliveredLog := by
  obtain ⟨h1, h2, h3, h4⟩ := hs
  have hk2 : knownKind (newEntry task id now).type = true := hk
  simp [addEmailTask, processEmailQueue, drainLoop, takeNext, h1, h2, h3, h4, hk2,
    QueueState.sending]

theorem settle_success (o : Nat → SendOutcome) (t : EmailTask) (sl dl : List EmailTask)
    (ho : o t.attempts = .success) :
    settle o 2 (QueueState.sending t sl dl) = QueueState.idle sl (dl ++ [t]) := by
  simp [settle, settleStep, QueueState.step, QueueState.sending, sendDone, delayDone, drainLoop,
    takeNext, ho, QueueState.idle]

theorem sendDone_failure (s : QueueState) (i : Nat) (o : SendOutcome) (task : EmailTask)
    (hw : s.workers.get? i = some (.awaitingSend task)) (ho : o ≠ .success) :
    sendDone s i o =
      { s with workers := s.workers.set i .awaitingDelay,
               timers := scheduleRetry s.timers { task with attempts := task.attempts + 1 } } := by
  rw [List.get?_eq_getElem?] at hw
  cases o with
  | success => exact absurd rfl ho
  | failed => simp [sendDone, hw]
  | threw => simp [sendDone, hw]

theorem settle_retry (o : Nat → SendOutcome) (t : EmailTask) (sl dl : List EmailTask)
    (ho : o t.attempts ≠ .success) (hlt : t.attempts + 1 < t.maxAttempts)
    (hk : knownKind t.type = true) :
    settle o 3 (QueueState.sending t sl dl) =
      QueueState.sending { t with attempts := t.attempts + 1 }
        (sl ++ [{ t with attempts := t.attempts + 1 }]) dl := by
  cases hov : o t.attempts with
  | success => exact absurd hov ho
  | failed =>
    simp [settle, settleStep, QueueState.step, QueueState.sending, sendDone, hov, scheduleRetry,
      hlt, delayDone, drainLoop, takeNext, retryFire, processEmailQueue, hk]
  | threw =>
    simp [settle, settleStep, QueueState.step, QueueState.sending, sendDone, hov, scheduleRetry,
      hlt, delayDone, drainLoop, takeNext, retryFire, processEmailQueue, hk]

theorem settle_drop (o : Nat → SendOutcome) (t : EmailTask) (sl dl : List EmailTask)
    (ho : o t.attempts ≠ .success) (hge : ¬ (t.attempts + 1 < t.maxAttempts)) :
    settle o 2 (QueueState.sending t sl dl) = QueueState.idle sl dl := by
  cases hov : o t.attempts with
  | success => exact absurd hov ho
  | failed =>
    simp [settle, settleStep, QueueState.step, QueueState.sending, sendDone, hov, scheduleRetry,
      hge, delayDone, drainLoop, takeNext, QueueState.idle]
  | threw =>
    simp [settle, settleStep, QueueState.step, QueueState.sending, sendDone, hov, scheduleRetry,
      hge, delayDone, drainLoop, takeNext, QueueState.idle]

/-- The whole life of a task that starts being sent with no failed attempt and
`maxAttempts = 3`, by the outcomes of its sends. -/
theorem settle_lifecycle (o : Nat → SendOutcome) (e : EmailTask) (sl dl : List EmailTask)
    (n : Nat) (h0 : e.attempts = 0) (hmax : e.maxAttempts = 3) (hk : knownKind e.type = true) :
    settle o (8 + n) (QueueState.sending e (sl ++ [e]) dl) =
      if o 0 = .success then QueueState.idle (sl ++ [e]) (dl ++ [e])
      else if o 1 = .success then
        QueueState.idle (sl ++ [e, { e with attempts := 1 }]) (dl ++ [{ e with attempts := 1 }])
      else if o 2 = .success then
        QueueState.idle (sl ++ [e, { e with attempts := 1 }, { e with attempts := 2 }])
          (dl ++ [{ e with attempts := 2 }])
      else QueueState.idle (sl ++ [e, { e with attempts := 1 }, { e with attempts := 2 }]) dl := by
  by_cases s0 : o 0 = .success
  · have hs : o e.attempts = .success := by rw [h0]; exact s0
    have : 8 + n = 2 + (6 + n) := by omega
    rw [this, settle_add, settle_success o e _ _ hs, settle_idle]
    simp [s0]
  · have hf0 : o e.attempts ≠ .success := by rw [h0]; exact s0
    have e1 : settle o 3 (QueueState.sending e (sl ++ [e]) dl) =
        QueueState.sending { e with attempts := 1 } (sl ++ [e] ++ [{ e with attempts := 1 }])
          dl := by
      have := settle_retry o e (sl ++ [e]) dl hf0 (by omega) hk
      simpa [h0] using this
    by_cases s1 : o 1 = .success
    · have : 8 + n = 3 + (2 + (3 + n)) := by omega
      rw [this, settle_add, e1, settle_add,
        settle_success o { e with attempts := 1 } _ _ s1, settle_idle]
      simp [s0, s1]
    · have e2 : settle o 3 (QueueState.sending { e with attempts := 1 }
          (sl ++ [e] ++ [{ e with attempts := 1 }]) dl) =
          QueueState.sending { e with attempts := 2 }
            (sl ++ [e] ++ [{ e with attempts := 1 }] ++ [{ e with attempts := 2 }]) dl := by
        have := settle_retry o { e with attempts := 1 } (sl ++ [e] ++ [{ e with attempts := 1 }])
          dl s1 (by simp [hmax]) hk
        simpa using this
      have : 8 + n = 3 + (3 + (2 + n)) := by omega
      rw [this, settle_add, e1, settle_add, e2, settle_add]
      by_cases s2 : o 2 = .success
      · rw [settle_success o { e with attempts := 2 } _ _ s2, settle_idle]
        simp [s0, s1, s2]
      · rw [settle_drop o { e with attempts := 2 } _ _ s2 (by simp [hmax]), settle_idle]
        simp [s0, s1, s2]

theorem runTask_eq (o : Nat → SendOutcome) (n : Nat) (s : QueueState) (task : TaskInput)
    (id : Rat) (now : Time) (hs : s.quiet) (hk : knownKind task.type = true) :
    runTask o (8 + n) s task id now =
      if o 0 = .success then
        QueueState.idle (s.sendLog ++ [newEntry task id now])
          (s.deliveredLog ++ [newEntry task id now])
      else if o 1 = .success then
        QueueState.idle
          (s.sendLog ++ [newEntry task id now, { newEntry task id now with attempts := 1 }])
          (s.deliveredLog ++ [{ newEntry task id now with attempts := 1 }])
      else if o 2 = .success then
        QueueState.idle
          (s.sendLog ++ [newEntry task id now, { newEntry task id now with attempts := 1 },
            { newEntry task id now with attempts := 2 }])
          (s.deliveredLog ++ [{ newEntry task id now with attempts := 2 }])
      else
        QueueState.idle
          (s.sendLog ++ [newEntry task id now, { newEntry task id now with attempts := 1 },
            { newEntry task id now with attempts := 2 }])
          s.deliveredLog := by
  unfold runTask
  rw [addEmailTask_quiet s task id now hs hk]
  exact settle_lifecycle o (newEntry task id now) s.sendLog s.deliveredLog n rfl rfl hk

/-! ## Bounded retries -/

theorem takeNext_sub (l : List EmailTask) :
    (∀ t ∈ (takeNext l).1, t ∈ l) ∧ (∀ t, (takeNext l).2 = some t → t ∈ l) := by
  induction l with
  | nil => simp [takeNext]
  | cons a rest ih =>
    by_cases ha : knownKind a.type = true
    · simp only [takeNext, ha, if_true]
      constructor
      · intro t ht
        exact List.mem_cons_of_mem _ ht
      · intro t ht
        simp only [Option.some.injEq] at ht
        rw [← ht]
        exact List.mem_cons_self _ _
    · simp only [takeNext, ha]
      constructor
      · intro t ht
        exact List.mem_cons_of_mem _ (ih.1 t ht)
      · intro t ht
        exact List.mem_cons_of_mem _ (ih.2 t ht)

theorem drainLoop_retriesBounded (s : QueueState) (h : s.retriesBounded) :
    (drainLoop s).retriesBounded := by
  obtain ⟨hq, hw, ht⟩ := h
  have hsub := takeNext_sub s.emailQueue
  unfold drainLoop
  rcases hn : takeNext s.emailQueue with ⟨rest, _ | t⟩
  · rw [hn] at hsub
    exact ⟨fun x hx => hq x (hsub.1 x hx), hw, ht⟩
  · rw [hn] at hsub
    refine ⟨fun x hx => hq x (hsub.1 x hx), ?_, ht⟩
    intro x hx
    simp only [List.mem_append, List.mem_singleton, Worker.awaitingSend.injEq] at hx
    rcases hx with hx | hx
    · exact hw x hx
    · rw [hx]
      exact hq t (hsub.2 t rfl)

theorem processEmailQueue_retriesBounded (s : QueueState) (h : s.retriesBounded) :
    (processEmailQueue s).retriesBounded := by
  unfold processEmailQueue
  split
  · exact h
  · exact drainLoop_retriesBounded _ h

theorem step_retriesBounded (s : QueueState) (e : QEvent) (h : s.retriesBounded) :
    (s.step e).retriesBounded := by
  obtain ⟨hq, hw, ht⟩ := h
  cases e with
  | add task id now =>
    have h1 : QueueState.retriesBounded
        { s with emailQueue := s.emailQueue ++ [newEntry task id now] } := by
      refine ⟨?_, hw, ht⟩
      intro x hx
      simp only [List.mem_append, List.mem_singleton] at hx
      rcases hx with hx | hx
      · exact hq x hx
      · rw [hx]
        exact ⟨rfl, Nat.zero_lt_succ 2⟩
    simp only [QueueState.step, addEmailTask]
    split
    · exact processEmailQueue_retriesBounded _ h1
    · exact h1
  | sendDone i o =>
    simp only [QueueState.step, sendDone]
    split
    · rename_i task hget
      have htask := hw task (List.get?_mem hget)
      have hset : ∀ x, Worker.awaitingSend x ∈ s.workers.set i Worker.awaitingDelay →
          x.maxAttempts = 3 ∧ x.attempts < 3 := by
        intro x hx
        rcases List.mem_or_eq_of_mem_set hx with h1 | h1
        · exact hw x h1
        · cases h1
      split
      · exact ⟨hq, hset, ht⟩
      · refine ⟨hq, hset, ?_⟩
        intro tm htm
        unfold scheduleRetry at htm
        split at htm
        · rename_i hlt
          simp only [List.mem_append, List.mem_singleton] at htm
          rcases htm with h1 | h1
          · exact ht tm h1
          · subst h1
            refine ⟨htask.1, ?_⟩
            have hm : task.maxAttempts = 3 := htask.1
            have hlt2 : task.attempts + 1 < 3 := by
              have := hlt
              simp only [hm] at this
              exact this
            have hc : task.attempts = 0 ∨ task.attempts = 1 := by omega
            rcases hc with hc | hc
            · left
              simp [hc]
            · right
              simp [hc]
        · exact ht tm htm
    · exact ⟨hq, hw, ht⟩
  | delayDone i =>
    simp only [QueueState.step, delayDone]
    split
    · apply drainLoop_retriesBounded
      refine ⟨hq, ?_, ht⟩
      intro x hx
      exact hw x (List.mem_of_mem_eraseIdx hx)
    · exact ⟨hq, hw, ht⟩
  | retryFire j =>
    simp only [QueueState.step, retryFire]
    split
    · rename_i tm hget
      have htm := ht tm (List.get?_mem hget)
      have h1 : QueueState.retriesBounded
          { s with timers := s.timers.eraseIdx j, emailQueue := tm.task :: s.emailQueue } := by
        refine ⟨?_, hw, ?_⟩
        · intro x hx
          rcases List.mem_cons.mp hx with hx | hx
          · rw [hx]
            refine ⟨htm.1, ?_⟩
            rcases htm.2 with h2 | h2 <;> omega
          · exact hq x hx
        · intro x hx
          exact ht x (List.mem_of_mem_eraseIdx hx)
      split
      · exact processEmailQueue_retriesBounded _ h1
      · exact h1
    · exact ⟨hq, hw, ht⟩
  | process => exact processEmailQueue_retriesBounded s ⟨hq, hw, ht⟩

theorem runEvents_retriesBounded (events : List QEvent) :
    ∀ s : QueueState, s.retriesBounded → (runEvents s events).retriesBounded := by
  induction events with
  | nil =>
    intro s h
    exact h
  | cons e rest ih =>
    intro s h
    exact ih (s.step e) (step_retriesBounded s e h)

/-! ## C11: a task is sent min(k, 3) times -/

/-- C11: a task of a known kind is enqueued on a queue where nothing is queued, in flight
or scheduled, and the queue runs on its own (8 turns or more), the send made after `j`
failed attempts ending with the outcome `o j`.  Then the queue ends with nothing queued,
in flight or scheduled; if the first success is at send `k`, the task was sent
`min k 3` times and delivered once when `k ≤ 3` and never otherwise; if the first three
sends fail it was sent three times and never delivered; every send was of that task; and
no later turn other than a new enqueue changes anything, so the task is never sent or
re-inserted again.  Under every interleaving of turns, with any number of tasks, a task
that is being sent has failed at most twice before. -/
theorem task_sent_min_k_three (s : QueueState) (task : TaskInput) (id : Rat) (now : Time)
    (o : Nat → SendOutcome) (n : Nat) (hs : s.quiet) (hk : knownKind task.type = true) :
    (runTask o (8 + n) s task id now).quiet ∧
    (∀ k, 1 ≤ k → o (k - 1) = .success → (∀ j, j < k - 1 → o j ≠ .success) →
      (runTask o (8 + n) s task id now).sendLog.length = s.sendLog.length + min k 3 ∧
      (runTask o (8 + n) s task id now).deliveredLog.length =
        s.deliveredLog.length + (if k ≤ 3 then 1 else 0)) ∧
    (o 0 ≠ .success → o 1 ≠ .success → o 2 ≠ .success →
      (runTask o (8 + n) s task id now).sendLog.length = s.sendLog.length + 3 ∧
      (runTask o (8 + n) s task id now).deliveredLog = s.deliveredLog) ∧
    (∃ sends delivered,
      (runTask o (8 + n) s task id now).sendLog = s.sendLog ++ sends ∧
      (runTask o (8 + n) s task id now).deliveredLog = s.deliveredLog ++ delivered ∧
      ∀ t, t ∈ sends ∨ t ∈ delivered →
        t.id = id ∧ t.type = task.type ∧ t.email = task.email) ∧
    (∀ events : List QEvent, (∀ e ∈ events, e.isAdd = false) →
      runEvents (runTask o (8 + n) s task id now) events =
        runTask o (8 + n) s task id now) ∧
    (∀ (events : List QEvent) (t : EmailTask),
      Worker.awaitingSend t ∈ (runEvents QueueState.init events).workers →
      t.maxAttempts = 3 ∧ t.attempts < 3) := by
  have hF := runTask_eq o n s task id now hs hk
  refine ⟨?_, ?_, ?_, ?_, ?_, ?_⟩
  rotate_right
  · intro events t ht
    have hinv : (runEvents QueueState.init events).retriesBounded :=
      runEvents_retriesBounded events _ ⟨by simp [QueueState.init], by simp [QueueState.init],
        by simp [QueueState.init]⟩
    exact hinv.2.1 t ht
  · rw [hF]
    split_ifs <;> exact ⟨rfl, rfl, rfl, rfl⟩
  · intro k hk1 hsucc hmin
    by_cases s0 : o 0 = .success
    · have hk : k = 1 := by
        by_contra hne
        exact hmin 0 (by omega) s0
      subst hk
      rw [hF]
      simp [s0, QueueState.idle]
    · by_cases s1 : o 1 = .success
      · have hk : k = 2 := by
          by_contra hne
          have hk0 : k ≠ 1 := by
            intro h
            subst h
            exact s0 hsucc
          exact hmin 1 (by omega) s1
        subst hk
        rw [hF]
        simp [s0, s1, QueueState.idle]
      · by_cases s2 : o 2 = .success
        · have hk : k = 3 := by
            by_contra hne
            have hk0 : k ≠ 1 := by
              intro h
              subst h
              exact s0 hsucc
            have hk2 : k ≠ 2 := by
              intro h
              subst h
              exact s1 hsucc
            exact hmin 2 (by omega) s2
          subst hk
          rw [hF]
          simp [s0, s1, s2, QueueState.idle]
        · have hk4 : 4 ≤ k := by
            by_contra hlt
            have hcases : k = 1 ∨ k = 2 ∨ k = 3 := by omega
            rcases hcases with h | h | h <;> subst h
            · exact s0 hsucc
            · exact s1 hsucc
            · exact s2 hsucc
          rw [hF]
          have h3 : min k 3 = 3 := by omega
          have hle : ¬ k ≤ 3 := by omega
          simp [s0, s1, s2, QueueState.idle, h3, hle]
  · intro s0 s1 s2
    rw [hF]
    simp [s0, s1, s2, QueueState.idle]
  · rw [hF]
    by_cases s0 : o 0 = .success
    · refine ⟨[newEntry task id now], [newEntry task id now], ?_, ?_, ?_⟩
      · simp [s0, QueueState.idle]
      · simp [s0, QueueState.idle]
      · intro t ht
        simp only [List.mem_singleton, or_self] at ht
        subst ht
        exact ⟨rfl, rfl, rfl⟩
    · by_cases s1 : o 1 = .success
      · refine ⟨[newEntry task id now, { newEntry task id now with attempts := 1 }],
          [{ newEntry task id now with attempts := 1 }], ?_, ?_, ?_⟩
        · simp [s0, s1, QueueState.idle]
        · simp [s0, s1, QueueState.idle]
        · intro t ht
          simp only [List.mem_cons, List.mem_singleton, List.not_mem_nil, or_false] at ht
          rcases ht with (h | h) | h <;> subst h <;> exact ⟨rfl, rfl, rfl⟩
      · by_cases s2 : o 2 = .success
        · refine ⟨[newEntry task id now, { newEntry task id now with attempts := 1 },
            { newEntry task id now with attempts := 2 }],
            [{ newEntry task id now with attempts := 2 }], ?_, ?_, ?_⟩
          · simp [s0, s1, s2, QueueState.idle]
          · simp [s0, s1, s2, QueueState.idle]
          · intro t ht
            simp only [List.mem_cons, List.mem_singleton, List.not_mem_nil, or_false] at ht
            rcases ht with (h | h | h) | h <;> subst h <;> exact ⟨rfl, rfl, rfl⟩
        · refine ⟨[newEntry task id now, { newEntry task id now with attempts := 1 },
            { newEntry task id now with attempts := 2 }], [], ?_, ?_, ?_⟩
          · simp [s0, s1, s2, QueueState.idle]
          · simp [s0, s1, s2, QueueState.idle]
          · intro t ht
            simp only [List.mem_cons, List.mem_singleton, List.not_mem_nil, or_false] at ht
            rcases ht with h | h | h <;> subst h <;> exact ⟨rfl, rfl, rfl⟩
  · intro events hev
    rw [hF]
    split_ifs <;> exact runEvents_idle _ _ events hev

/-- C11 on the sample task: with two failures and then a success it is sent three times
and delivered once; with every send failing it is sent three times and never delivered;
both runs end with nothing queued, in flight or scheduled. -/
theorem task_sent_min_k_three_witness :
    QueueState.init.quiet ∧ knownKind firTaskInput.type = true ∧
    (runTask failTwiceThenSucceed (8 + 0) QueueState.init firTaskInput 1 5000).quiet ∧
    ((runTask failTwiceThenSucceed (8 + 0) QueueState.init firTaskInput 1 5000).sendLog.length =
        QueueState.init.sendLog.length + min 3 3 ∧
      (runTask failTwiceThenSucceed (8 + 0) QueueState.init firTaskInput 1
          5000).deliveredLog.length =
        QueueState.init.deliveredLog.length + (if 3 ≤ 3 then 1 else 0)) ∧
    ((runTask alwaysFail (8 + 0) QueueState.init firTaskInput 1 5000).sendLog.length =
        QueueState.init.sendLog.length + 3 ∧
      (runTask alwaysFail (8 + 0) QueueState.init firTaskInput 1 5000).deliveredLog =
        QueueState.init.deliveredLog) :=
  ⟨by decide, by decide,
    (task_sent_min_k_three QueueState.init firTaskInput 1 5000 failTwiceThenSucceed 0
      (by decide) (by decide)).1,
    (task_sent_min_k_three QueueState.init firTaskInput 1 5000 failTwiceThenSucceed 0
      (by decide) (by decide)).2.1 3 (by decide) (by decide)
      (fun j hj => by
        have h2 : j < 2 := hj
        interval_cases j <;> decide),
    (task_sent_min_k_three QueueState.init firTaskInput 1 5000 alwaysFail 0
      (by decide) (by decide)).2.2.1 (by decide) (by decide) (by decide)⟩

/-! ## C13: the retry delays -/

/-- C13, the failing run: a task whose three sends all fail.  The first failure sets a
retry timer of 5000 ms and the second one of 10000 ms, but the third failure sets none:
the guard `task.attempts < task.maxAttempts` of line 71 is false with three failed
attempts, the task is dropped, and the delay of 15 s that the comment of line 79 lists
("5s, 10s, 15s") never occurs.  So a failed send is not always followed by a re-insertion
after 5000 ms times the attempt counter. -/
theorem no_retry_after_third_failure :
    (runEvents QueueState.init (threeFailures.take 2)).timers.map (fun tm => tm.delay)
      = [5000] ∧
    (runEvents QueueState.init (threeFailures.take 5)).timers.map (fun tm => tm.delay)
      = [10000] ∧
    (runEvents QueueState.init (threeFailures.take 7)).workers.map
        (fun w => match w with
          | .awaitingSend t => some (t.attempts, t.maxAttempts)
          | .awaitingDelay => none) = [some (2, 3)] ∧
    (runEvents QueueState.init threeFailures).timers = [] ∧
    (runEvents QueueState.init threeFailures).emailQueue = [] ∧
    ¬ (∀ (s : QueueState) (i : Nat) (task : EmailTask) (o : SendOutcome),
        s.workers.get? i = some (.awaitingSend task) → task.maxAttempts = 3 →
        o ≠ .success →
        ∃ tm ∈ (sendDone s i o).timers, tm.delay = 5000 * (task.attempts + 1)) := by
  refine ⟨by decide, by decide, by decide, by decide, by decide, ?_⟩
  intro hall
  obtain ⟨tm, htm, _⟩ := hall (runEvents QueueState.init (threeFailures.take 7)) 0
    { newEntry firTaskInput 1 5000 with attempts := 2 } .failed (by decide) (by decide)
    (by decide)
  have hnil : (sendDone (runEvents QueueState.init (threeFailures.take 7)) 0 .failed).timers
      = [] := by decide
  rw [hnil] at htm
  cases htm

/-- The retry logic as lines 70-83 run it: when the send of a task with `maxAttempts = 3`
fails, a retry timer is set with the delay 5000 ms times the attempt counter after the
increment as long as that counter is below 3: 5000 ms after the first failed attempt,
10000 ms after the second, and none after the third, when the task is dropped.  When the
timer fires the task is put at the front of the queue (and, if no worker is active,
`processEmailQueue` is called on that queue).  In every state the queue reaches, each
pending timer has the delay 5000 ms with one failed attempt or 10000 ms with two. -/
theorem retry_delays (events : List QEvent) (s : QueueState) (i : Nat) (task : EmailTask)
    (o : SendOutcome) (hget : s.workers.get? i = some (.awaitingSend task))
    (hmax : task.maxAttempts = 3) (ho : o ≠ .success) :
    (task.attempts = 0 →
      (sendDone s i o).timers =
        s.timers ++ [{ task := { task with attempts := 1 }, delay := 5000 }]) ∧
    (task.attempts = 1 →
      (sendDone s i o).timers =
        s.timers ++ [{ task := { task with attempts := 2 }, delay := 10000 }]) ∧
    (2 ≤ task.attempts → (sendDone s i o).timers = s.timers) ∧
    (sendDone s i o).emailQueue = s.emailQueue ∧
    (∀ (j : Nat) (tm : RetryTimer), s.timers.get? j = some tm →
      (s.isProcessing = true →
        (retryFire s j).emailQueue = tm.task :: s.emailQueue ∧
        (retryFire s j).timers = s.timers.eraseIdx j) ∧
      (s.isProcessing = false →
        retryFire s j =
          processEmailQueue
            { s with timers := s.timers.eraseIdx j, emailQueue := tm.task :: s.emailQueue })) ∧
    (∀ tm ∈ (runEvents QueueState.init events).timers,
      (tm.task.attempts = 1 ∧ tm.delay = 5000) ∨ (tm.task.attempts = 2 ∧ tm.delay = 10000)) := by
  have hsd := sendDone_failure s i o task hget ho
  refine ⟨?_, ?_, ?_, ?_, ?_, ?_⟩
  · intro h0
    rw [hsd]
    simp [scheduleRetry, h0, hmax]
  · intro h1
    rw [hsd]
    simp [scheduleRetry, h1, hmax]
  · intro h2
    rw [hsd]
    have : ¬ (task.attempts + 1 < 3) := by omega
    simp [scheduleRetry, hmax, this]
  · rw [hsd]
  · intro j tm hj
    rw [List.get?_eq_getElem?] at hj
    constructor
    · intro hp
      simp [retryFire, hj, hp]
    · intro hp
      simp [retryFire, hj, hp]
  · intro tm htm
    have hinv : (runEvents QueueState.init events).retriesBounded :=
      runEvents_retriesBounded events _ ⟨by simp [QueueState.init], by simp [QueueState.init],
        by simp [QueueState.init]⟩
    exact (hinv.2.2 tm htm).2

/-- The retry logic on the sample run: the first failure of the sample task sets a timer
of 5000 ms, and every timer pending after the first five turns of the failing run has the
delay 10000 ms with two failed attempts. -/
theorem retry_delays_witness :
    (runEvents QueueState.init (threeFailures.take 1)).workers.get? 0 =
      some (.awaitingSend (newEntry firTaskInput 1 5000)) ∧
    (newEntry firTaskInput 1 5000).maxAttempts = 3 ∧
    (newEntry firTaskInput 1 5000).attempts = 0 ∧
    (sendDone (runEvents QueueState.init (threeFailures.take 1)) 0 .failed).timers =
      (runEvents QueueState.init (threeFailures.take 1)).timers ++
        [{ task := { newEntry firTaskInput 1 5000 with attempts := 1 }, delay := 5000 }] ∧
    ∀ tm ∈ (runEvents QueueState.init (threeFailures.take 5)).timers,
      (tm.task.attempts = 1 ∧ tm.delay = 5000) ∨ (tm.task.attempts = 2 ∧ tm.delay = 10000) :=
  ⟨by decide, by decide, by decide,
    (retry_delays (threeFailures.take 5) (runEvents QueueState.init (threeFailures.take 1)) 0
      (newEntry firTaskInput 1 5000) .failed (by decide) (by decide) (by decide)).1 (by decide),
    (retry_delays (threeFailures.take 5) (runEvents QueueState.init (threeFailures.take 1)) 0
      (newEntry firTaskInput 1 5000) .failed (by decide) (by decide) (by decide)).2.2.2.2.2⟩

/-! ## C16: the confirmation task of a create request -/

/-- Everything a create request that passes validation does: it answers 201 with the new
report, appends that report to the collection, and calls `queueFIRConfirmation` with the
actor's email, first name and the report exactly when the raw `firRequested` is truthy
and the raw `isAnonymous` is not; the stored flags are the Mongoose casts of the raw
values. -/
theorem postCrime_accepted (db : Db) (actor : User) (b : CreateBody) (newId : ObjectId)
    (now : Time) (hv : validateCreate b = true)
    (hm : schemaLengthsOk (jsTrim b.title) (jsTrim b.description) = true) :
    ∃ c rv, (postCrime db actor b newId now).response = .ok 201 { crime := c, reporter := rv } ∧
      (postCrime db actor b newId now).db = { db with crimes := db.crimes ++ [c] } ∧
      (postCrime db actor b newId now).queued =
        (if (b.firRequested.getD (.bool false)).truthy &&
            !(b.isAnonymous.getD (.bool false)).truthy then
          some { email := actor.email, userName := actor.firstName, crimeData := c }
        else none) ∧
      castBoolean (b.firRequested.getD (.bool false)) = some c.firRequested ∧
      castBoolean (b.isAnonymous.getD (.bool false)) = some c.isAnonymous ∧
      c.firStatus = (if (b.firRequested.getD (.bool false)).truthy then FirStatus.pending
        else FirStatus.not_requested) ∧
      c._id = newId ∧ c.reporter = actor._id := by
  have hv2 := hv
  simp only [validateCreate, Bool.and_eq_true] at hv2
  obtain ⟨⟨⟨⟨⟨⟨⟨⟨⟨_, _⟩, hcat⟩, hsev⟩, _⟩, hlat⟩, hlng⟩, hdt⟩, hanon⟩, hfir⟩ := hv2
  obtain ⟨cat, hcat⟩ := Option.isSome_iff_exists.mp hcat
  obtain ⟨sev, hsev⟩ := Option.isSome_iff_exists.mp hsev
  obtain ⟨dt, hdt⟩ := Option.isSome_iff_exists.mp hdt
  obtain ⟨lat, hlat⟩ : ∃ v, b.lat = some v := by
    cases h : b.lat with
    | none => simp [h, isFloatIn] at hlat
    | some v => exact ⟨v, rfl⟩
  obtain ⟨lng, hlng⟩ : ∃ v, b.lng = some v := by
    cases h : b.lng with
    | none => simp [h, isFloatIn] at hlng
    | some v => exact ⟨v, rfl⟩
  have hcast : ∀ x : Option JsVal, optionalIsBoolean x = true →
      ∃ v, castBoolean (x.getD (.bool false)) = some v := by
    intro x hx
    cases x with
    | none => exact ⟨false, rfl⟩
    | some v =>
      cases v with
      | null => simp [optionalIsBoolean, isBooleanValidator] at hx
      | bool t => exact ⟨t, rfl⟩
      | num n =>
        simp only [optionalIsBoolean, isBooleanValidator, Bool.or_eq_true, beq_iff_eq] at hx
        rcases hx with h | h <;> subst h
        · exact ⟨false, rfl⟩
        · exact ⟨true, rfl⟩
      | str t =>
        simp only [optionalIsBoolean, isBooleanValidator, Bool.or_eq_true, beq_iff_eq] at hx
        rcases hx with ((h | h) | h) | h <;> subst h
        · exact ⟨true, rfl⟩
        · exact ⟨false, rfl⟩
        · exact ⟨true, rfl⟩
        · exact ⟨false, rfl⟩
  obtain ⟨anon, hanon⟩ := hcast _ hanon
  obtain ⟨fir, hfir⟩ := hcast _ hfir
  have hm2 : schemaLengthsOk
      (newCrime actor b newId now cat sev lat lng dt anon fir
        (b.firRequested.getD (.bool false))).title
      (newCrime actor b newId now cat sev lat lng dt anon fir
        (b.firRequested.getD (.bool false))).description = true := hm
  refine ⟨newCrime actor b newId now cat sev lat lng dt anon fir
    (b.firRequested.getD (.bool false)),
    (if (b.isAnonymous.getD (.bool false)).truthy then ReporterView.anonymous
      else match db.findUser actor._id with
        | some u => ReporterView.populated u.firstName u.lastName u.email
        | none => ReporterView.null),
    ?_, ?_, ?_, hfir, hanon, rfl, rfl, rfl⟩
  · simp [postCrime, hv, hcat, hsev, hdt, hlat, hlng, hanon, hfir, hm2]
  · simp [postCrime, hv, hcat, hsev, hdt, hlat, hlng, hanon, hfir, hm2]
  · simp [postCrime, hv, hcat, hsev, hdt, hlat, hlng, hanon, hfir, hm2]

/-- C16, the failing requests: with `firRequested` sent as the string "false" the stored
report has `firRequested = false` and `isAnonymous = false`, yet a FIR confirmation
addressed to the reporter is enqueued; with `firRequested = true` and `isAnonymous` sent
as the string "false" the stored report has `firRequested = true` and
`isAnonymous = false`, yet nothing is enqueued.  Both requests pass validation and are
answered 201. -/
theorem create_enqueues_by_raw_flags :
    validateCreate (bikeBody none (some (.str "false"))) = true ∧
    ((postCrime sampleDb citizenA (bikeBody none (some (.str "false"))) 200 5000).db.findCrime
        200).map (fun c => (c.firRequested, c.isAnonymous)) = some (false, false) ∧
    (postCrime sampleDb citizenA (bikeBody none (some (.str "false"))) 200 5000).queued.map
        (fun t => t.email) = some "asha@example.org" ∧
    ((Server.create { db := sampleDb, mail := QueueState.init } citizenA
        (bikeBody none (some (.str "false"))) 200 5000 1).2.mail.sendLog.map
        (fun t => (t.type, t.email))) = [("fir_confirmation", "asha@example.org")] ∧
    validateCreate (bikeBody (some (.str "false")) (some (.bool true))) = true ∧
    ((postCrime sampleDb citizenA (bikeBody (some (.str "false")) (some (.bool true))) 200
        5000).db.findCrime 200).map (fun c => (c.firRequested, c.isAnonymous))
      = some (true, false) ∧
    (postCrime sampleDb citizenA (bikeBody (some (.str "false")) (some (.bool true))) 200
        5000).queued = none ∧
    (postCrime sampleDb citizenA (bikeBody (some (.str "false")) (some (.bool true))) 200
        5000).response.code = 201 := by
  refine ⟨by decide, by decide, by decide, by decide, by decide, by decide, by decide,
    by decide⟩

/-! ## C17: mail outcomes do not reach the create response or the store -/

theorem mailEvents_db (sv : Server) (events : List QEvent) :
    (sv.mailEvents events).db = sv.db := rfl

/-- C17: take two runs of the create operation on the same request and the same database
that differ in everything about mail: the state of the queue before the request, and the
turns of the queue after it (send outcomes, pauses, retries, in any number and order).
The two HTTP responses are equal and the two databases after the runs are equal; for a
request that passes validation and that `save()` accepts the response is 201 with the
created report and that report is what both databases gained. -/
theorem create_isolated_from_mail (db : Db) (mail1 mail2 : QueueState) (actor : User)
    (b : CreateBody) (newId : ObjectId) (now : Time) (taskId1 taskId2 : Rat)
    (events1 events2 : List QEvent) :
    (Server.create { db := db, mail := mail1 } actor b newId now taskId1).1 =
      (Server.create { db := db, mail := mail2 } actor b newId now taskId2).1 ∧
    ((Server.create { db := db, mail := mail1 } actor b newId now taskId1).2.mailEvents
        events1).db =
      ((Server.create { db := db, mail := mail2 } actor b newId now taskId2).2.mailEvents
        events2).db ∧
    (validateCreate b = true →
      schemaLengthsOk (jsTrim b.title) (jsTrim b.description) = true →
      ∃ c rv,
        (Server.create { db := db, mail := mail1 } actor b newId now taskId1).1 =
          .ok 201 { crime := c, reporter := rv } ∧
        ((Server.create { db := db, mail := mail1 } actor b newId now taskId1).2.mailEvents
          events1).db = { db with crimes := db.crimes ++ [c] }) := by
  refine ⟨rfl, rfl, ?_⟩
  intro hv hm
  obtain ⟨c, rv, h1, h2, _⟩ := postCrime_accepted db actor b newId now hv hm
  exact ⟨c, rv, h1, h2⟩

/-- C17 on the sample request: the scenario's report with a FIR request is created once
on an idle queue with every send failing until the task is dropped, and once on the busy
queue with the sends succeeding; response and database are the same, and the response
is 201. -/
theorem create_isolated_from_mail_witness :
    validateCreate (bikeBody none (some (.bool true))) = true ∧
    (Server.create { db := sampleDb, mail := QueueState.init } citizenA
        (bikeBody none (some (.bool true))) 200 5000 1).1.code = 201 ∧
    ((Server.create { db := sampleDb, mail := QueueState.init } citizenA
        (bikeBody none (some (.bool true))) 200 5000 1).2.mailEvents
          (threeFailures.drop 1)).mail.deliveredLog = [] ∧
    ∃ c rv,
      (Server.create { db := sampleDb, mail := QueueState.init } citizenA
          (bikeBody none (some (.bool true))) 200 5000 1).1 =
        .ok 201 { crime := c, reporter := rv } ∧
      ((Server.create { db := sampleDb, mail := QueueState.init } citizenA
          (bikeBody none (some (.bool true))) 200 5000 1).2.mailEvents
            (threeFailures.drop 1)).db = { sampleDb with crimes := sampleDb.crimes ++ [c] } :=
  ⟨by decide, by decide, by decide,
    (create_isolated_from_mail sampleDb QueueState.init busyQueue citizenA
      (bikeBody none (some (.bool true))) 200 5000 1 2 (threeFailures.drop 1)
      [.sendDone 0 .success, .delayDone 0]).2.2 (by decide) (by decide)⟩

/-! ## C18: validation of a create request -/

theorem category_isSome_iff (str : String) :
    (Category.ofStr str).isSome = true ↔ str ∈ categoryNames := by
  constructor
  · intro h
    obtain ⟨c, hc⟩ := Option.isSome_iff_exists.mp h
    have hp := List.find?_some hc
    have hstr : c.toStr = str := by simpa using hp
    rw [← hstr]
    cases c <;> decide
  · intro h
    simp only [categoryNames, List.mem_cons, List.mem_singleton, List.not_mem_nil,
      or_false] at h
    rcases h with h | h | h | h | h | h | h | h | h <;> subst h <;> decide

theorem severity_isSome_iff (str : String) :
    (Severity.ofStr str).isSome = true ↔ str ∈ severityNames := by
  constructor
  · intro h
    obtain ⟨c, hc⟩ := Option.isSome_iff_exists.mp h
    have hp := List.find?_some hc
    have hstr : c.toStr = str := by simpa using hp
    rw [← hstr]
    cases c <;> decide
  · intro h
    simp only [severityNames, List.mem_cons, List.mem_singleton, List.not_mem_nil,
      or_false] at h
    rcases h with h | h | h | h <;> subst h <;> decide

theorem isFloatIn_iff (lo hi : Rat) (x : Option Rat) :
    isFloatIn lo hi x = true ↔ ∃ v, x = some v ∧ lo ≤ v ∧ v ≤ hi := by
  cases x with
  | none => simp [isFloatIn]
  | some v => simp [isFloatIn]

/-- The validation chain of the create route, spelled out. -/
theorem validateCreate_iff (b : CreateBody) :
    validateCreate b = true ↔
      (5 ≤ (jsTrim b.title).length ∧ (jsTrim b.title).length ≤ 200) ∧
      (10 ≤ (jsTrim b.description).length ∧ (jsTrim b.description).length ≤ 1000) ∧
      b.category ∈ categoryNames ∧ b.severity ∈ severityNames ∧
      jsTrim b.address ≠ "" ∧
      (∃ v, b.lat = some v ∧ -90 ≤ v ∧ v ≤ 90) ∧
      (∃ v, b.lng = some v ∧ -180 ≤ v ∧ v ≤ 180) ∧
      b.dateTime.isSome = true ∧
      optionalIsBoolean b.isAnonymous = true ∧ optionalIsBoolean b.firRequested = true := by
  simp only [validateCreate, Bool.and_eq_true, category_isSome_iff, severity_isSome_iff,
    isFloatIn_iff, isLength, decide_eq_true_eq, bne_iff_ne, ne_eq]
  tauto

theorem bmp_sum (l : List Char) (h : ∀ c ∈ l, c.toNat < 0x10000) :
    (l.map (fun c => if c.toNat < 0x10000 then 1 else 2)).sum = l.length := by
  induction l with
  | nil => rfl
  | cons a t ih =>
    have ha : a.toNat < 0x10000 := h a (List.mem_cons_self _ _)
    have ht := ih (fun c hc => h c (List.mem_cons_of_mem _ hc))
    simp only [List.map_cons, List.sum_cons, ha, if_true, ht, List.length_cons]
    omega

/-- On a string of the basic plane the JavaScript length is the number of characters. -/
theorem utf16Length_bmp (str : String) (h : ∀ c ∈ str.data, c.toNat < 0x10000) :
    utf16Length str = str.length :=
  bmp_sum str.data h

/-- C18: the create operation answers 400, stores no report and enqueues no task whenever
the trimmed title has fewer than 5 or more than 200 characters, or the trimmed
description has fewer than 10 or more than 1000, or the category is not one of the nine
names, or the severity is not one of the four, or the latitude is not a number in
[-90, 90], or the longitude is not a number in [-180, 180].  The bounds themselves pass:
the chain accepts exactly the requests with 5 ≤ title ≤ 200, 10 ≤ description ≤ 1000,
-90 ≤ latitude ≤ 90, -180 ≤ longitude ≤ 180 (and the other fields valid), and a request
it accepts is answered 201 when title and description are text of the basic plane (more
generally, when they pass the schema's `maxlength` in UTF-16 units). -/
theorem create_rejects_invalid (db : Db) (actor : User) (b : CreateBody) (newId : ObjectId)
    (now : Time) :
    (((jsTrim b.title).length < 5 ∨ 200 < (jsTrim b.title).length ∨
      (jsTrim b.description).length < 10 ∨ 1000 < (jsTrim b.description).length ∨
      b.category ∉ categoryNames ∨ b.severity ∉ severityNames ∨
      (∀ v, b.lat = some v → v < -90 ∨ 90 < v) ∨
      (∀ v, b.lng = some v → v < -180 ∨ 180 < v)) →
      (postCrime db actor b newId now).response = .error 400 "Validation failed" ∧
      (postCrime db actor b newId now).db = db ∧
      (postCrime db actor b newId now).queued = none) ∧
    (validateCreate b = true ↔
      (5 ≤ (jsTrim b.title).length ∧ (jsTrim b.title).length ≤ 200) ∧
      (10 ≤ (jsTrim b.description).length ∧ (jsTrim b.description).length ≤ 1000) ∧
      b.category ∈ categoryNames ∧ b.severity ∈ severityNames ∧
      jsTrim b.address ≠ "" ∧
      (∃ v, b.lat = some v ∧ -90 ≤ v ∧ v ≤ 90) ∧
      (∃ v, b.lng = some v ∧ -180 ≤ v ∧ v ≤ 180) ∧
      b.dateTime.isSome = true ∧
      optionalIsBoolean b.isAnonymous = true ∧ optionalIsBoolean b.firRequested = true) ∧
    (validateCreate b = true →
      schemaLengthsOk (jsTrim b.title) (jsTrim b.description) = true →
      (postCrime db actor b newId now).response.code = 201) ∧
    (validateCreate b = true →
      (∀ c ∈ (jsTrim b.title).data ++ (jsTrim b.description).data, c.toNat < 0x10000) →
      (postCrime db actor b newId now).response.code = 201) := by
  have h201 : validateCreate b = true →
      schemaLengthsOk (jsTrim b.title) (jsTrim b.description) = true →
      (postCrime db actor b newId now).response.code = 201 := by
    intro hv hm
    obtain ⟨_, _, h, _⟩ := postCrime_valid db actor b newId now hv hm
    exact h
  refine ⟨?_, validateCreate_iff b, h201, ?_⟩
  rotate_left
  · intro hv hbmp
    apply h201 hv
    obtain ⟨⟨_, ht2⟩, ⟨_, hd2⟩, _⟩ := (validateCreate_iff b).mp hv
    have h1 := utf16Length_bmp (jsTrim b.title)
      (fun c hc => hbmp c (List.mem_append_left _ hc))
    have h2 := utf16Length_bmp (jsTrim b.description)
      (fun c hc => hbmp c (List.mem_append_right _ hc))
    simp only [schemaLengthsOk, h1, h2, Bool.and_eq_true, decide_eq_true_eq]
    exact ⟨ht2, hd2⟩
  · intro hbad
    have hnot : ¬ validateCreate b = true := by
      intro hv
      obtain ⟨⟨ht1, ht2⟩, ⟨hd1, hd2⟩, hc, hs, _, ⟨lat, hlat, hl1, hl2⟩, ⟨lng, hlng, hg1, hg2⟩, _⟩ :=
        (validateCreate_iff b).mp hv
      rcases hbad with h | h | h | h | h | h | h | h
      · omega
      · omega
      · omega
      · omega
      · exact h hc
      · exact h hs
      · rcases h lat hlat with h | h
        · exact absurd hl1 (not_le.mpr h)
        · exact absurd hl2 (not_le.mpr h)
      · rcases h lng hlng with h | h
        · exact absurd hg1 (not_le.mpr h)
        · exact absurd hg2 (not_le.mpr h)
    simp [postCrime, hnot]

set_option maxRecDepth 100000 in
/-- C18 on samples: a title of 4 characters and a latitude of 91 are refused with 400 and
nothing is stored or enqueued; the requests at the bounds 5 / 10 / -90 / -180 and
200 / 1000 / 90 / 180 are accepted with 201. -/
theorem create_rejects_invalid_witness :
    (jsTrim shortTitleBody.title).length < 5 ∧
    ((postCrime sampleDb citizenA shortTitleBody 200 5000).response =
        .error 400 "Validation failed" ∧
      (postCrime sampleDb citizenA shortTitleBody 200 5000).db = sampleDb ∧
      (postCrime sampleDb citizenA shortTitleBody 200 5000).queued = none) ∧
    ((postCrime sampleDb citizenA farNorthBody 200 5000).response =
        .error 400 "Validation failed" ∧
      (postCrime sampleDb citizenA farNorthBody 200 5000).db = sampleDb ∧
      (postCrime sampleDb citizenA farNorthBody 200 5000).queued = none) ∧
    ((jsTrim lowBoundaryBody.title).length = 5 ∧
      (jsTrim lowBoundaryBody.description).length = 10) ∧
    (postCrime sampleDb citizenA lowBoundaryBody 200 5000).response.code = 201 ∧
    ((jsTrim highBoundaryBody.title).length = 200 ∧
      (jsTrim highBoundaryBody.description).length = 1000) ∧
    (postCrime sampleDb citizenA highBoundaryBody 200 5000).response.code = 201 :=
  ⟨by decide,
    (create_rejects_invalid sampleDb citizenA shortTitleBody 200 5000).1 (Or.inl (by decide)),
    (create_rejects_invalid sampleDb citizenA farNorthBody 200 5000).1
      (Or.inr (Or.inr (Or.inr (Or.inr (Or.inr (Or.inr (Or.inl (fun v hv => by
        have h91 : v = 91 := (Option.some.inj hv).symm
        subst h91
        right
        decide)))))))),
    by decide,
    (create_rejects_invalid sampleDb citizenA lowBoundaryBody 200 5000).2.2.1 (by decide)
      (by decide),
    by decide,
    (create_rejects_invalid sampleDb citizenA highBoundaryBody 200 5000).2.2.1 (by decide)
      (by decide)⟩

/-! ## C19 and C20: updateStatus -/

theorem updateStatus_eq (c : Crime) (st : Status) (o : Option ObjectId) (note : Option String)
    (now : Time) :
    c.updateStatus st o note now =
      { c with status := st, updatedAt := now,
               policeNotes := c.policeNotes ++ statusNote o note now } := by
  unfold Crime.updateStatus statusNote
  cases o with
  | none => simp
  | some x =>
    cases note with
    | none => simp [strTruthy]
    | some n =>
      by_cases hn : n = ""
      · simp [strTruthy, hn]
      · simp [strTruthy, hn]

/-- C19: whatever the report's status, `updateStatus(newStatus, officerId, note)` sets
`status = newStatus`; the police notes after it are the notes before it, in order,
followed by one note carrying officerId, note and the clock exactly when both officerId
and a non-empty note are given, and by nothing otherwise; no field other than `status`,
`policeNotes` and `updatedAt` changes.  Through `PUT /:id/status` every status of the
enum is accepted on every existing report and the stored report is that result. -/
theorem updateStatus_sets_status (c : Crime) (st : Status) (o : Option ObjectId)
    (note : Option String) (now : Time) :
    (c.updateStatus st o note now).status = st ∧
    (c.updateStatus st o note now).policeNotes = c.policeNotes ++ statusNote o note now ∧
    ((statusNote o note now).length = 1 ↔ (o.isSome = true ∧ ∃ n, note = some n ∧ n ≠ "")) ∧
    ((statusNote o note now).length = 1 ∨ statusNote o note now = []) ∧
    (∀ x ∈ statusNote o note now, o = some x.officer ∧ note = some x.note ∧
      x.timestamp = now) ∧
    c.updateStatus st o note now =
      { c with status := st, updatedAt := now,
               policeNotes := (c.updateStatus st o note now).policeNotes } ∧
    (∀ (db : Db) (actor : User) (id : ObjectId) (noteField : Option String),
      db.findCrime id = some c → validateStatus { status := st.toStr, note := noteField } = true →
      putCrimeStatus db actor id { status := st.toStr, note := noteField } now =
        (.ok 200 (c.updateStatus st (some actor._id) (noteField.map jsTrim) now),
          db.saveCrime (c.updateStatus st (some actor._id) (noteField.map jsTrim) now))) := by
  have heq := updateStatus_eq c st o note now
  refine ⟨by rw [heq], by rw [heq], ?_, ?_, ?_, ?_, ?_⟩
  · unfold statusNote
    cases o with
    | none => simp
    | some x =>
      cases note with
      | none => simp
      | some n => by_cases hn : n = "" <;> simp [hn]
  · unfold statusNote
    cases o with
    | none => simp
    | some x =>
      cases note with
      | none => simp
      | some n => by_cases hn : n = "" <;> simp [hn]
  · intro x hx
    unfold statusNote at hx
    cases o with
    | none => simp at hx
    | some y =>
      cases note with
      | none => simp at hx
      | some n =>
        by_cases hn : n = ""
        · simp [hn] at hx
        · simp only [ne_eq, hn, not_false_eq_true, if_true, List.mem_singleton] at hx
          subst hx
          exact ⟨rfl, rfl, rfl⟩
  · rw [heq]
  · intro db actor id noteField hc hv
    have hst : Status.ofStr st.toStr = some st := by cases st <;> rfl
    simp [putCrimeStatus, hv, hc, hst]

/-- C19 on a sample: a resolved report with one note is set back to pending by officer P
with the note "reopened"; the old note stays first and the new one follows. -/
theorem updateStatus_sets_status_witness :
    resolvedReport.status = .resolved ∧
    (resolvedReport.updateStatus .pending (some 3) (some "reopened") 9000).status = .pending ∧
    (resolvedReport.updateStatus .pending (some 3) (some "reopened") 9000).policeNotes =
      resolvedReport.policeNotes ++ statusNote (some 3) (some "reopened") 9000 ∧
    (statusNote (some 3) (some "reopened") 9000).length = 1 ∧
    (∀ x ∈ statusNote (some 3) (some "reopened") 9000,
      (some 3 : Option ObjectId) = some x.officer ∧ some "reopened" = some x.note ∧
        x.timestamp = 9000) :=
  ⟨by decide,
    (updateStatus_sets_status resolvedReport .pending (some 3) (some "reopened") 9000).1,
    (updateStatus_sets_status resolvedReport .pending (some 3) (some "reopened") 9000).2.1,
    ((updateStatus_sets_status resolvedReport .pending (some 3) (some "reopened")
      9000).2.2.1).2 ⟨rfl, "reopened", rfl, by decide⟩,
    (updateStatus_sets_status resolvedReport .pending (some 3) (some "reopened")
      9000).2.2.2.2.1⟩

/-- C20 as stated fails: with an officer and a note, calling `updateStatus` twice leaves
two copies of the note where calling it once leaves one, so the two reports differ in
`policeNotes`, a field other than `updatedAt`. -/
theorem updateStatus_twice_appends_twice :
    ((bikeReport.updateStatus .resolved (some 3) (some "seen") 9000).updateStatus .resolved
        (some 3) (some "seen") 9000).policeNotes.length = 2 ∧
    (bikeReport.updateStatus .resolved (some 3) (some "seen") 9000).policeNotes.length = 1 ∧
    ¬ (∀ (c : Crime) (st : Status) (o : Option ObjectId) (note : Option String) (t1 t2 : Time),
        { (c.updateStatus st o note t1).updateStatus st o note t2 with updatedAt := 0 } =
          { c.updateStatus st o note t1 with updatedAt := 0 }) := by
  refine ⟨by decide, by decide, ?_⟩
  intro hall
  have h := hall bikeReport .resolved (some 3) (some "seen") 9000 9000
  have hlen := congrArg (fun c => c.policeNotes.length) h
  revert hlen
  decide

/-- C20, amended: calling `updateStatus(s, officerId, note)` a second time changes
nothing but `updatedAt` and `policeNotes`, and `policeNotes` only by appending the note
once more when both officerId and a non-empty note are given.  So when officerId or the
note is absent or the note is empty, the report after two calls equals the report after
one call in every field other than `updatedAt`. -/
theorem updateStatus_idempotent (c : Crime) (st : Status) (o : Option ObjectId)
    (note : Option String) (t1 t2 : Time) :
    (c.updateStatus st o note t1).updateStatus st o note t2 =
      { c.updateStatus st o note t1 with
        updatedAt := t2
        policeNotes := (c.updateStatus st o note t1).policeNotes ++ statusNote o note t2 } ∧
    ((o = none ∨ note = none ∨ note = some "") →
      (c.updateStatus st o note t1).updateStatus st o note t2 =
        { c.updateStatus st o note t1 with updatedAt := t2 }) := by
  have h1 := updateStatus_eq (c.updateStatus st o note t1) st o note t2
  have hs : (c.updateStatus st o note t1).status = st := by
    rw [updateStatus_eq c st o note t1]
  constructor
  · rw [h1]
    simp [hs]
  · intro hno
    have hnil : statusNote o note t2 = [] := by
      unfold statusNote
      rcases hno with h | h | h
      · subst h
        rfl
      · subst h
        cases o <;> rfl
      · subst h
        cases o <;> simp
    rw [h1, hnil]
    simp [hs]

/-- C20, amended, on samples: without a note two calls equal one call up to `updatedAt`;
with officer and note the second call appends the note again. -/
theorem updateStatus_idempotent_witness :
    (bikeReport.updateStatus .resolved (some 3) none 9000).updateStatus .resolved (some 3) none
        9500 =
      { bikeReport.updateStatus .resolved (some 3) none 9000 with updatedAt := 9500 } ∧
    ((bikeReport.updateStatus .resolved (some 3) (some "seen") 9000).updateStatus .resolved
        (some 3) (some "seen") 9500).policeNotes.map (fun n => (n.note, n.timestamp)) =
      [("seen", 9000), ("seen", 9500)] :=
  ⟨(updateStatus_idempotent bikeReport .resolved (some 3) none 9000 9500).2
      (Or.inr (Or.inl rfl)),
    by decide⟩

/-! ## The rendering of an id determines the id -/

theorem hexDigitValue_digitChar (d : Nat) (h : d < 16) : hexDigitValue (Nat.digitChar d) = d := by
  interval_cases d <;> decide

theorem foldl_toDigitsCore (fuel : Nat) :
    ∀ (n : Nat) (acc : List Char), n < fuel →
      (Nat.toDigitsCore 16 fuel n acc).foldl (fun v c => 16 * v + hexDigitValue c) 0 =
        acc.foldl (fun v c => 16 * v + hexDigitValue c) n := by
  induction fuel with
  | zero => intro n acc h; omega
  | succ fuel ih =>
    intro n acc h
    unfold Nat.toDigitsCore
    simp only []
    split
    · rename_i h0
      have hlt : n < 16 := by
        by_contra hc
        have : 1 ≤ n / 16 := by
          apply (Nat.le_div_iff_mul_le (by decide)).2
          omega
        omega
      simp [List.foldl, Nat.mod_eq_of_lt hlt, hexDigitValue_digitChar n hlt]
    · rename_i h0
      have hlt : n / 16 < fuel := by
        have : n / 16 < n := Nat.div_lt_self (by
          rcases Nat.eq_zero_or_pos n with h1 | h1
          · subst h1; simp at h0
          · exact h1) (by decide)
        omega
      rw [ih (n / 16) _ hlt]
      simp only [List.foldl, hexDigitValue_digitChar (n % 16) (Nat.mod_lt _ (by decide))]
      congr 1
      omega

theorem foldl_replicate_zero (k : Nat) (l : List Char) :
    (List.replicate k '0' ++ l).foldl (fun v c => 16 * v + hexDigitValue c) 0 =
      l.foldl (fun v c => 16 * v + hexDigitValue c) 0 := by
  induction k with
  | zero => simp
  | succ k ih =>
    rw [List.replicate_succ, List.cons_append, List.foldl_cons]
    have : 16 * 0 + hexDigitValue '0' = 0 := by decide
    rw [this]
    exact ih

theorem hexValue_objectIdToString (id : ObjectId) :
    hexValue (objectIdToString id).data = id := by
  unfold hexValue objectIdToString
  simp only [List.leftpad]
  rw [foldl_replicate_zero]
  unfold Nat.toDigits
  rw [foldl_toDigitsCore (id + 1) id [] (Nat.lt_succ_self id)]
  rfl

theorem objectIdToString_injective (a b : ObjectId)
    (h : objectIdToString a = objectIdToString b) : a = b := by
  have := congrArg (fun s => hexValue s.data) h
  simpa [hexValue_objectIdToString] using this

/-! ## C21 and C22: changing a role, deleting a user -/

theorem roleOfStr_toStr (r : Role) : Role.ofStr r.toStr = some r := by
  cases r <;> decide

/-- C21: for an existing user `id` other than the acting admin and each of the three
roles, `PUT /users/:id/role` answers 200 and stores the user with the new role; the
fields other than role, isVerified, badgeNumber and department are kept and no other
user changes.  To citizen: isVerified becomes true, badgeNumber and department are
cleared.  To police: isVerified becomes false, whatever it was.  To admin: isVerified,
badgeNumber and department stay as they were. -/
theorem setUserRole_effect (db : Db) (actor : User) (id : ObjectId) (user : User) (r : Role)
    (hu : db.findUser id = some user) (hne : id ≠ actor._id) :
    ∃ x, putUserRole db actor id r.toStr = (.ok 200 x, db.saveUser x) ∧
      (db.saveUser x).findUser id = some x ∧
      (∀ o, o ≠ id → (db.saveUser x).findUser o = db.findUser o) ∧
      x.role = r ∧
      x._id = user._id ∧ x.firstName = user.firstName ∧ x.lastName = user.lastName ∧
      x.email = user.email ∧ x.isActive = user.isActive ∧
      (r = .citizen → x.isVerified = true ∧ x.badgeNumber = none ∧ x.department = none) ∧
      (r = .police → x.isVerified = false) ∧
      (r = .admin → x.isVerified = user.isVerified ∧ x.badgeNumber = user.badgeNumber ∧
        x.department = user.department) := by
  have hid := findUser_id db id user hu
  have hp : objectIdToString user._id ≠ objectIdToString actor._id := by
    intro h
    exact hne (hid ▸ objectIdToString_injective _ _ h)
  have hsave : ∀ x : User, x._id = user._id →
      (db.saveUser x).findUser id = some x ∧
      (∀ o, o ≠ id → (db.saveUser x).findUser o = db.findUser o) := by
    intro x hx
    constructor
    · rw [findUser_saveUser, hu]
      simp [hx]
    · intro o ho
      rw [findUser_saveUser]
      cases hfo : db.findUser o with
      | none => rfl
      | some w =>
        have hw := findUser_id db o w hfo
        have : w._id ≠ x._id := by
          rw [hx, hid, hw]
          exact ho
        simp [this]
  cases r with
  | citizen =>
    have hs := hsave { user with role := .citizen, isVerified := true, badgeNumber := none,
                                 department := none } rfl
    exact ⟨_, by simp [putUserRole, roleOfStr_toStr, hu, hp], hs.1, hs.2, by simp⟩
  | police =>
    have hs := hsave { user with role := .police, isVerified := false } rfl
    exact ⟨_, by simp [putUserRole, roleOfStr_toStr, hu, hp], hs.1, hs.2, by simp⟩
  | admin =>
    have hs := hsave { user with role := .admin } rfl
    exact ⟨_, by simp [putUserRole, roleOfStr_toStr, hu, hp], hs.1, hs.2, by simp⟩

/-- C21 at the sample store: the admin makes the verified officer P a police user again,
and P is stored unverified. -/
theorem setUserRole_effect_witness :
    ∃ x, putUserRole firDb adminX 3 Role.police.toStr = (.ok 200 x, firDb.saveUser x) ∧
      (firDb.saveUser x).findUser 3 = some x ∧
      (∀ o, o ≠ 3 → (firDb.saveUser x).findUser o = firDb.findUser o) ∧
      x.role = .police ∧
      x._id = officerP._id ∧ x.firstName = officerP.firstName ∧
      x.lastName = officerP.lastName ∧
      x.email = officerP.email ∧ x.isActive = officerP.isActive ∧
      (Role.police = .citizen →
        x.isVerified = true ∧ x.badgeNumber = none ∧ x.department = none) ∧
      (Role.police = .police → x.isVerified = false) ∧
      (Role.police = .admin → x.isVerified = officerP.isVerified ∧
        x.badgeNumber = officerP.badgeNumber ∧ x.department = officerP.department) :=
  setUserRole_effect firDb adminX 3 officerP .police (by decide) (by decide)

/-- C22: for an existing user `id` other than the acting admin, `DELETE /users/:id` fails
exactly when some report has the user as reporter, and then it answers 400 and leaves the
database as it was; otherwise it answers 200, the users left are those with another id,
in their order, the id resolves to no user any more, and the reports are as they were. -/
theorem deleteUser_iff_no_reports (db : Db) (actor : User) (id : ObjectId) (user : User)
    (hu : db.findUser id = some user) (hne : id ≠ actor._id) :
    ((deleteUser db actor id).1.isError = true ↔ ∃ c ∈ db.crimes, c.reporter = id) ∧
    ((∃ c ∈ db.crimes, c.reporter = id) →
      (deleteUser db actor id).1.code = 400 ∧ (deleteUser db actor id).2 = db) ∧
    ((¬ ∃ c ∈ db.crimes, c.reporter = id) →
      (deleteUser db actor id).1 = .ok 200 () ∧
      (∀ u, u ∈ (deleteUser db actor id).2.users ↔ u ∈ db.users ∧ u._id ≠ id) ∧
      (deleteUser db actor id).2.users = db.users.filter (fun u => u._id != id) ∧
      (deleteUser db actor id).2.findUser id = none ∧
      (∀ o, o ≠ id → (deleteUser db actor id).2.findUser o = db.findUser o) ∧
      (deleteUser db actor id).2.crimes = db.crimes) := by
  have hid := findUser_id db id user hu
  have hp : objectIdToString user._id ≠ objectIdToString actor._id := by
    intro h
    exact hne (hid ▸ objectIdToString_injective _ _ h)
  by_cases hex : ∃ c ∈ db.crimes, c.reporter = id
  · have hn : (db.crimes.filter (fun c => c.reporter == user._id)).length > 0 := by
      obtain ⟨c, hc, hr⟩ := hex
      apply List.length_pos_of_mem (a := c)
      simp [List.mem_filter, hc, hr, hid]
    simp [deleteUser, hu, hp, hn, hex, Response.isError, Response.code]
  · have hn : ¬ (db.crimes.filter (fun c => c.reporter == user._id)).length > 0 := by
      intro hpos
      obtain ⟨c, hc⟩ := List.exists_mem_of_length_pos hpos
      simp only [List.mem_filter, beq_iff_eq] at hc
      exact hex ⟨c, hc.1, hc.2.trans hid⟩
    have hres : deleteUser db actor id =
        (.ok 200 (), { db with users := db.users.filter (fun u => u._id != id) }) := by
      simp only [deleteUser, hu, hp, if_false, hn]
    rw [hres]
    refine ⟨by simp [Response.isError, hex], fun h => absurd h hex, fun _ => ⟨rfl, ?_, rfl, ?_, ?_, rfl⟩⟩
    · intro u
      simp [List.mem_filter]
    · unfold Db.findUser
      rw [List.find?_eq_none]
      intro u hmem
      simp only [List.mem_filter, bne_iff_ne, ne_eq] at hmem
      simp [hmem.2]
    · intro o ho
      exact find_filter_other db.users o id ho

/-- C22 at the sample store: citizen A, who has filed reports, cannot be deleted and the
store stays as it was; officer P, who has filed none, is removed and nothing else
changes. -/
theorem deleteUser_iff_no_reports_witness :
    ((deleteUser firDb adminX 1).1.code = 400 ∧ (deleteUser firDb adminX 1).2 = firDb) ∧
    ((deleteUser firDb adminX 3).1 = .ok 200 () ∧
      (∀ u, u ∈ (deleteUser firDb adminX 3).2.users ↔ u ∈ firDb.users ∧ u._id ≠ 3) ∧
      (deleteUser firDb adminX 3).2.users = firDb.users.filter (fun u => u._id != 3) ∧
      (deleteUser firDb adminX 3).2.findUser 3 = none ∧
      (∀ o, o ≠ 3 → (deleteUser firDb adminX 3).2.findUser o = firDb.findUser o) ∧
      (deleteUser firDb adminX 3).2.crimes = firDb.crimes) :=
  ⟨(deleteUser_iff_no_reports firDb adminX 1 citizenA (by decide) (by decide)).2.1
      ⟨bikeReport, by decide, by decide⟩,
    (deleteUser_iff_no_reports firDb adminX 3 officerP (by decide) (by decide)).2.2
      (by decide)⟩

/-! ## C23: who can be assigned -/

/-- C23, the counterexample: the admin deactivates officer P and then assigns P to report
100; the request succeeds and stores the assignment although P is not active. -/
theorem inactive_officer_is_assigned :
    inactiveOfficerDb.findUser 3 = some { officerP with isActive := false } ∧
    (putCrimeAssign inactiveOfficerDb 100 (some 3) 9000).1 =
      .ok 200 (bikeReport.assignOfficer 3 9000) ∧
    (putCrimeAssign inactiveOfficerDb 100 (some 3) 9000).2.findCrime 100 =
      some (bikeReport.assignOfficer 3 9000) := by
  decide

/-- C23, amended: whenever `PUT /:id/assign` succeeds, `officerId` is a well-formed id
that resolves to a stored user whose role is police, the report exists, and the method
`assignOfficer(officerId)` was applied to it and the result stored; the user is the same
after the request. -/
theorem assign_success_officer_is_police (db : Db) (id : ObjectId)
    (officerId : Option ObjectId) (now : Time)
    (h : (putCrimeAssign db id officerId now).1.isError = false) :
    ∃ o u crime, officerId = some o ∧ db.findUser o = some u ∧ u.role = .police ∧
      db.findCrime id = some crime ∧
      putCrimeAssign db id officerId now =
        (.ok 200 (crime.assignOfficer o now), db.saveCrime (crime.assignOfficer o now)) ∧
      (putCrimeAssign db id officerId now).2.findUser o = some u := by
  cases officerId with
  | none => simp [putCrimeAssign, Response.isError] at h
  | some o =>
    cases hu : db.findUser o with
    | none => simp [putCrimeAssign, hu, Response.isError] at h
    | some u =>
      by_cases hr : u.role = .police
      · cases hc : db.findCrime id with
        | none => simp [putCrimeAssign, hu, hr, hc, Response.isError] at h
        | some crime =>
          refine ⟨o, u, crime, rfl, hu, hr, rfl, ?_, ?_⟩
          · simp [putCrimeAssign, hu, hr, hc]
          · simp only [putCrimeAssign, hu, hr, hc]
            simpa [Db.findUser, Db.saveCrime] using hu
      · simp [putCrimeAssign, hu, hr, Response.isError] at h

/-- C23, amended, at the sample store: assigning officer P to report 100 succeeds, and P
is a stored police user. -/
theorem assign_success_officer_is_police_witness :
    ∃ o u crime, (some 3 : Option ObjectId) = some o ∧ firDb.findUser o = some u ∧
      u.role = .police ∧ firDb.findCrime 100 = some crime ∧
      putCrimeAssign firDb 100 (some 3) 9000 =
        (.ok 200 (crime.assignOfficer o 9000), firDb.saveCrime (crime.assignOfficer o 9000)) ∧
      (putCrimeAssign firDb 100 (some 3) 9000).2.findUser o = some u :=
  assign_success_officer_is_police firDb 100 (some 3) 9000 (by decide)

/-! ## C24: free-text search -/

/-- C24, the failing request: citizen A lists the sample store with `search=laptop`.  The
role step assigns the `$or` key that the search step had set, so the response holds A's
two reports, neither of which has "laptop" in its title or description; the same request
by officer P returns no report. -/
theorem citizen_search_is_overwritten :
    (listedReports (getCrimes sampleEngines sampleDb citizenA (searchQuery "laptop"))).map
        (fun p => (p.doc._id, p.doc.title, p.doc.description)) =
      [ (102, "Bike stolen", "Bike taken from porch overnight"),
        (101, "Bike stolen", "Bike taken from porch overnight") ] ∧
    listedReports (getCrimes sampleEngines sampleDb officerP (searchQuery "laptop")) = [] := by
  decide

/-! ## C28: the list and the detail view -/

/-- C28: there are a store, a citizen and a report that is not anonymous, is closed and
was reported by somebody else, such that the access filter of the list rejects the
report, no list response to the citizen contains it whatever the query, and
`GET /api/crimes/:id` answers 200 with the report. -/
theorem list_and_detail_disagree :
    ∃ (db : Db) (actor : User) (r : Crime),
      actor.role = .citizen ∧ r ∈ db.crimes ∧ r.isAnonymous = false ∧ r.status = .closed ∧
      r.reporter ≠ actor._id ∧
      visibleReportsFilter actor r = false ∧
      (applyRoleFilter actor Filter.empty).holds r = false ∧
      (∀ (e : Engines) (q : ListQuery), ∀ p ∈ listedReports (getCrimes e db actor q),
        p.doc ≠ r) ∧
      getCrimeById db actor r._id = .ok 200 (db.populateDetail r) := by
  refine ⟨closedCaseDb, citizenB, closedReport, rfl, by decide, rfl, rfl, by decide,
    by decide, by decide, ?_, by decide⟩
  intro e q p hp hpr
  cases hr : getCrimes e closedCaseDb citizenB q with
  | error code msg => simp [hr, listedReports] at hp
  | ok code body =>
    simp only [hr, listedReports] at hp
    obtain ⟨f, hf, _, hh, _⟩ := getCrimes_mem e closedCaseDb citizenB q code body hr p hp
    rw [hpr] at hh
    rcases buildFilter_citizen_holds e citizenB q f closedReport rfl hf hh with h | h
    · exact absurd h (by decide)
    · exact absurd h.2 (by decide)

/-! ## C27: no task is stranded -/

theorem takeNext_none (l rest : List EmailTask) (h : takeNext l = (rest, none)) : rest = [] := by
  obtain ⟨sk, _, h1 | h1⟩ := takeNext_spec l
  · obtain ⟨t, r, ht, _, _⟩ := h1
    rw [ht] at h
    simp at h
  · rw [h1.1] at h
    simp at h
    exact h

theorem drainLoop_noStranded (s : QueueState) (hp : s.isProcessing = true) :
    (drainLoop s).noStranded := by
  unfold drainLoop
  cases h : takeNext s.emailQueue with
  | mk rest o =>
    cases o with
    | none =>
      have := takeNext_none _ _ h
      simp [QueueState.noStranded, this]
    | some t => simp [QueueState.noStranded, hp]

theorem processEmailQueue_noStranded (s : QueueState) : (processEmailQueue s).noStranded := by
  unfold processEmailQueue
  by_cases hp : s.isProcessing = true
  · simp [hp, QueueState.noStranded]
  · by_cases he : s.emailQueue = []
    · simp [he, QueueState.noStranded]
    · have hp2 : s.isProcessing = false := by simpa using hp
      have he2 : s.emailQueue.isEmpty = false := by
        cases hq : s.emailQueue with
        | nil => exact absurd hq he
        | cons a l => rfl
      simp only [hp2, he2, Bool.or_false, Bool.false_eq_true, if_false]
      exact drainLoop_noStranded _ rfl

theorem step_noStranded (s : QueueState) (e : QEvent) (h1 : s.singleDrainer)
    (h2 : s.noStranded) : (s.step e).noStranded := by
  cases e with
  | add task id now =>
    simp only [QueueState.step, addEmailTask]
    split
    · exact processEmailQueue_noStranded _
    · rename_i hp
      intro _
      simpa using hp
  | sendDone i o =>
    simp only [QueueState.step, sendDone]
    split
    · split <;> exact h2
    · exact h2
  | delayDone i =>
    simp only [QueueState.step, delayDone]
    split
    · rename_i hget
      rcases h1 with ⟨hp, _⟩ | ⟨_, hw⟩
      · exact drainLoop_noStranded _ hp
      · rw [hw] at hget
        simp at hget
    · exact h2
  | retryFire j =>
    simp only [QueueState.step, retryFire]
    split
    · split
      · exact processEmailQueue_noStranded _
      · rename_i hp
        intro _
        simpa using hp
    · exact h2
  | process => exact processEmailQueue_noStranded s

theorem runEvents_noStranded (events : List QEvent) :
    ∀ s : QueueState, s.singleDrainer → s.noStranded →
      (runEvents s events).noStranded := by
  induction events with
  | nil => intro s _ h; exact h
  | cons e rest ih =>
    intro s h1 h2
    simp only [runEvents, List.foldl_cons]
    exact ih _ (step_singleDrainer s e h1) (step_noStranded s e h1 h2)

theorem drainLoop_knownInFlight (s : QueueState) (h : s.knownInFlight) :
    (drainLoop s).knownInFlight := by
  unfold drainLoop
  obtain ⟨sk, _, h1 | h1⟩ := takeNext_spec s.emailQueue
  · obtain ⟨t, r, ht, _, hk⟩ := h1
    simp only [ht]
    refine ⟨?_, h.2⟩
    intro x hx
    simp only [List.mem_append, List.mem_singleton, Worker.awaitingSend.injEq] at hx
    rcases hx with hx | hx
    · exact h.1 x hx
    · rw [hx]; exact hk
  · simp only [h1.1]
    exact h

theorem processEmailQueue_knownInFlight (s : QueueState) (h : s.knownInFlight) :
    (processEmailQueue s).knownInFlight := by
  unfold processEmailQueue
  split
  · exact h
  · exact drainLoop_knownInFlight _ h

theorem step_knownInFlight (s : QueueState) (e : QEvent) (h : s.knownInFlight) :
    (s.step e).knownInFlight := by
  cases e with
  | add task id now =>
    simp only [QueueState.step, addEmailTask]
    split
    · exact processEmailQueue_knownInFlight _ h
    · exact h
  | sendDone i o =>
    simp only [QueueState.step, sendDone]
    split
    · rename_i task hget
      have hmem : Worker.awaitingSend task ∈ s.workers := List.get?_mem hget
      have hk := h.1 task hmem
      have hw : ∀ t, Worker.awaitingSend t ∈ s.workers.set i .awaitingDelay →
          knownKind t.type = true := by
        intro t ht
        rcases List.mem_or_eq_of_mem_set ht with h3 | h3
        · exact h.1 t h3
        · cases h3
      split
      · exact ⟨hw, h.2⟩
      · refine ⟨hw, ?_⟩
        intro tm htm
        unfold scheduleRetry at htm
        split at htm
        · simp only [List.mem_append, List.mem_singleton] at htm
          rcases htm with h4 | h4
          · exact h.2 tm h4
          · rw [h4]; exact hk
        · exact h.2 tm htm
    · exact h
  | delayDone i =>
    simp only [QueueState.step, delayDone]
    split
    · apply drainLoop_knownInFlight
      exact ⟨fun t ht => h.1 t (List.mem_of_mem_eraseIdx ht), h.2⟩
    · exact h
  | retryFire j =>
    simp only [QueueState.step, retryFire]
    split
    · have hsub : QueueState.knownInFlight
          { s with timers := s.timers.eraseIdx j } :=
        ⟨h.1, fun tm htm => h.2 tm (List.mem_of_mem_eraseIdx htm)⟩
      split
      · exact processEmailQueue_knownInFlight _ ⟨hsub.1, hsub.2⟩
      · exact ⟨hsub.1, hsub.2⟩
    · exact h
  | process => exact processEmailQueue_knownInFlight s h

theorem runEvents_knownInFlight (events : List QEvent) :
    ∀ s : QueueState, s.knownInFlight → (runEvents s events).knownInFlight := by
  induction events with
  | nil => intro s h; exact h
  | cons e rest ih =>
    intro s h
    simp only [runEvents, List.foldl_cons]
    exact ih _ (step_knownInFlight s e h)

/-- C27: after any sequence of turns of the event loop (enqueues, send completions, pause
ends, retry timers, direct calls of `processEmailQueue`) a queue that is not empty has
`isProcessing` set.  The drain loop clears `isProcessing` only with the queue empty, every
entry it found being of an unknown kind and skipped.  A retry timer that fires while no
worker exists puts its task back and starts a worker, which sends that task. -/
theorem no_task_stranded (events : List QEvent) :
    ((runEvents QueueState.init events).emailQueue ≠ [] →
      (runEvents QueueState.init events).isProcessing = true) ∧
    (∀ s : QueueState, s.isProcessing = true → (drainLoop s).isProcessing = false →
      (drainLoop s).emailQueue = [] ∧ ∀ t ∈ s.emailQueue, knownKind t.type = false) ∧
    (∀ (j : Nat) (tm : RetryTimer),
      (runEvents QueueState.init events).timers.get? j = some tm →
      (runEvents QueueState.init events).isProcessing = false →
      (retryFire (runEvents QueueState.init events) j).isProcessing = true ∧
      (retryFire (runEvents QueueState.init events) j).workers = [.awaitingSend tm.task] ∧
      (retryFire (runEvents QueueState.init events) j).sendLog =
        (runEvents QueueState.init events).sendLog ++ [tm.task] ∧
      (retryFire (runEvents QueueState.init events) j).emailQueue = []) := by
  have h1 : (runEvents QueueState.init events).singleDrainer :=
    runEvents_singleDrainer events _ (Or.inr ⟨rfl, rfl⟩)
  have h2 : (runEvents QueueState.init events).noStranded :=
    runEvents_noStranded events _ (Or.inr ⟨rfl, rfl⟩) (fun h => absurd rfl h)
  have h3 : (runEvents QueueState.init events).knownInFlight :=
    runEvents_knownInFlight events _
      ⟨fun t ht => by simp [QueueState.init] at ht, fun tm htm => by
        simp [QueueState.init] at htm⟩
  refine ⟨h2, ?_, ?_⟩
  · intro s hp hd
    unfold drainLoop at hd ⊢
    obtain ⟨sk, hsk, h | h⟩ := takeNext_spec s.emailQueue
    · obtain ⟨t, r, ht, _, _⟩ := h
      simp [ht, hp] at hd
    · refine ⟨by simp [h.1], ?_⟩
      rw [h.2]
      exact hsk
  · intro j tm hget hp
    generalize runEvents QueueState.init events = s at h1 h2 h3 hget hp ⊢
    have hw : s.workers = [] := by
      rcases h1 with ⟨h, _⟩ | ⟨_, h⟩
      · rw [hp] at h
        exact Bool.noConfusion h
      · exact h
    have hq : s.emailQueue = [] := by
      by_contra hne
      have := h2 hne
      rw [hp] at this
      exact Bool.noConfusion this
    have hk : knownKind tm.task.type = true := h3.2 tm (List.get?_mem hget)
    rw [List.get?_eq_getElem?] at hget
    simp [retryFire, hget, hp, hq, hw, processEmailQueue, drainLoop, takeNext, hk]

/-- C27 on samples: the busy queue holds two entries and has `isProcessing` set; after a
failed send and the pause the queue is idle with one retry timer, and when that timer
fires the task is sent again by a new worker. -/
theorem no_task_stranded_witness :
    (runEvents QueueState.init
        [.add firTaskInput 1 5000, .add resetTaskInput 2 5001,
         .add firTaskInput 3 5002]).emailQueue.length = 2 ∧
    (runEvents QueueState.init
        [.add firTaskInput 1 5000, .add resetTaskInput 2 5001,
         .add firTaskInput 3 5002]).isProcessing = true ∧
    (runEvents QueueState.init retryPending).isProcessing = false ∧
    (retryFire (runEvents QueueState.init retryPending) 0).isProcessing = true ∧
    (retryFire (runEvents QueueState.init retryPending) 0).workers =
      [.awaitingSend { newEntry firTaskInput 1 5000 with attempts := 1 }] ∧
    (retryFire (runEvents QueueState.init retryPending) 0).sendLog =
      (runEvents QueueState.init retryPending).sendLog ++
        [{ newEntry firTaskInput 1 5000 with attempts := 1 }] ∧
    (retryFire (runEvents QueueState.init retryPending) 0).emailQueue = [] :=
  ⟨by decide,
    (no_task_stranded [.add firTaskInput 1 5000, .add resetTaskInput 2 5001,
      .add firTaskInput 3 5002]).1 (by decide),
    by decide,
    (no_task_stranded retryPending).2.2 0
      { task := { newEntry firTaskInput 1 5000 with attempts := 1 }, delay := 5000 }
      (by decide) (by decide)⟩

/-! ## C30: first in, first out -/

theorem drainLoop_fifo (s : QueueState) (l : List EmailTask) (h : s.fifoUpTo l) :
    (drainLoop s).fifoUpTo l := by
  obtain ⟨h1, h2, h3⟩ := h
  unfold drainLoop
  cases hq : s.emailQueue with
  | nil =>
    simp only [takeNext]
    refine ⟨?_, h2, by simp⟩
    rw [← h1, hq]
  | cons a r =>
    have ha : knownKind a.type = true := h3 a (by simp [hq])
    simp only [takeNext, ha, if_true]
    refine ⟨?_, h2, ?_⟩
    · rw [← h1, hq]
      simp
    · intro t ht
      exact h3 t (by simp [hq, ht])

theorem processEmailQueue_fifo (s : QueueState) (l : List EmailTask) (h : s.fifoUpTo l) :
    (processEmailQueue s).fifoUpTo l := by
  unfold processEmailQueue
  split
  · exact h
  · exact drainLoop_fifo _ l h

theorem step_fifo (s : QueueState) (e : QEvent) (l : List EmailTask) (h : s.fifoUpTo l)
    (hk : e.knownAdd = true) (hs : e.noFailure = true) :
    (s.step e).fifoUpTo (l ++ enqueuedEntries [e]) := by
  obtain ⟨h1, h2, h3⟩ := h
  cases e with
  | add task id now =>
    have hadd : QueueState.fifoUpTo
        { s with emailQueue := s.emailQueue ++ [newEntry task id now] }
        (l ++ [newEntry task id now]) := by
      refine ⟨?_, h2, ?_⟩
      · simp only [← h1, List.append_assoc]
      · intro t ht
        simp only [List.mem_append, List.mem_singleton] at ht
        rcases ht with ht | ht
        · exact h3 t ht
        · rw [ht]
          exact hk
    simp only [QueueState.step, addEmailTask, enqueuedEntries]
    split
    · exact processEmailQueue_fifo _ _ hadd
    · exact hadd
  | sendDone i o =>
    have ho : o = .success := by simpa [QEvent.noFailure] using hs
    subst ho
    simp only [QueueState.step, sendDone, enqueuedEntries, List.append_nil]
    split
    · exact ⟨h1, h2, h3⟩
    · exact ⟨h1, h2, h3⟩
  | delayDone i =>
    simp only [QueueState.step, delayDone, enqueuedEntries, List.append_nil]
    split
    · exact drainLoop_fifo _ l ⟨h1, h2, h3⟩
    · exact ⟨h1, h2, h3⟩
  | retryFire j =>
    simp only [QueueState.step, retryFire, enqueuedEntries, List.append_nil]
    rw [List.get?_eq_getElem?]
    simp only [h2, List.getElem?_nil]
    exact ⟨h1, h2, h3⟩
  | process =>
    simp only [QueueState.step, enqueuedEntries, List.append_nil]
    exact processEmailQueue_fifo s l ⟨h1, h2, h3⟩

theorem enqueuedEntries_cons (e : QEvent) (rest : List QEvent) :
    enqueuedEntries (e :: rest) = enqueuedEntries [e] ++ enqueuedEntries rest := by
  cases e <;> simp [enqueuedEntries]

theorem runEvents_fifo (events : List QEvent) :
    ∀ (s : QueueState) (l : List EmailTask), s.fifoUpTo l →
      (∀ e ∈ events, e.knownAdd = true) → (∀ e ∈ events, e.noFailure = true) →
      (runEvents s events).fifoUpTo (l ++ enqueuedEntries events) := by
  induction events with
  | nil =>
    intro s l h _ _
    simpa [runEvents, enqueuedEntries] using h
  | cons e rest ih =>
    intro s l h hk hs
    have h1 := step_fifo s e l h (hk e (List.mem_cons_self _ _)) (hs e (List.mem_cons_self _ _))
    have h2 := ih (s.step e) _ h1 (fun x hx => hk x (List.mem_cons_of_mem _ hx))
      (fun x hx => hs x (List.mem_cons_of_mem _ hx))
    rw [enqueuedEntries_cons, ← List.append_assoc]
    simpa [runEvents] using h2

theorem settle_succ (o : Nat → SendOutcome) (n : Nat) (s : QueueState) :
    settle o (n + 1) s = settle o n (settleStep o s) := rfl

/-- A worker that is pausing, with the known-kind tasks `q` queued and every send
succeeding: after `2 * q.length + 1` turns the queue is quiet and the tasks of `q` were
sent in order. -/
theorem settle_fifo_delay (q : List EmailTask) :
    ∀ (sl dl : List EmailTask), (∀ t ∈ q, knownKind t.type = true) →
      settle alwaysSucceed (2 * q.length + 1)
        { emailQueue := q, isProcessing := true, workers := [.awaitingDelay], timers := [],
          sendLog := sl, deliveredLog := dl } =
      QueueState.idle (sl ++ q) (dl ++ q) := by
  induction q with
  | nil =>
    intro sl dl _
    simp [settle, settleStep, QueueState.step, delayDone, drainLoop, takeNext,
      QueueState.idle]
  | cons a r ih =>
    intro sl dl hk
    have ha : knownKind a.type = true := hk a (List.mem_cons_self _ _)
    have hr : ∀ t ∈ r, knownKind t.type = true := fun t ht => hk t (List.mem_cons_of_mem _ ht)
    have hlen : 2 * (a :: r).length + 1 = (2 * r.length + 1) + 1 + 1 := by
      simp only [List.length_cons]; omega
    rw [hlen, settle_succ, settle_succ]
    have h1 : settleStep alwaysSucceed
        { emailQueue := a :: r, isProcessing := true, workers := [.awaitingDelay],
          timers := [], sendLog := sl, deliveredLog := dl } =
        { emailQueue := r, isProcessing := true, workers := [.awaitingSend a], timers := [],
          sendLog := sl ++ [a], deliveredLog := dl } := by
      simp [settleStep, QueueState.step, delayDone, drainLoop, takeNext, ha]
    have h2 : settleStep alwaysSucceed
        { emailQueue := r, isProcessing := true, workers := [.awaitingSend a], timers := [],
          sendLog := sl ++ [a], deliveredLog := dl } =
        { emailQueue := r, isProcessing := true, workers := [.awaitingDelay], timers := [],
          sendLog := sl ++ [a], deliveredLog := dl ++ [a] } := by
      simp [settleStep, QueueState.step, sendDone, alwaysSucceed]
    rw [h1, h2, ih _ _ hr]
    simp

/-- A worker that is sending `t`, with the known-kind tasks `q` queued and every send
succeeding: after `2 * q.length + 2` turns the queue is quiet and the tasks of `q` were
sent in order. -/
theorem settle_fifo_sending (q : List EmailTask) (t : EmailTask) (sl dl : List EmailTask)
    (hk : ∀ x ∈ q, knownKind x.type = true) :
    settle alwaysSucceed (2 * q.length + 2)
      { emailQueue := q, isProcessing := true, workers := [.awaitingSend t], timers := [],
        sendLog := sl, deliveredLog := dl } =
    QueueState.idle (sl ++ q) (dl ++ t :: q) := by
  have hlen : 2 * q.length + 2 = (2 * q.length + 1) + 1 := by omega
  rw [hlen, settle_succ]
  have h2 : settleStep alwaysSucceed
      { emailQueue := q, isProcessing := true, workers := [.awaitingSend t], timers := [],
        sendLog := sl, deliveredLog := dl } =
      { emailQueue := q, isProcessing := true, workers := [.awaitingDelay], timers := [],
        sendLog := sl, deliveredLog := dl ++ [t] } := by
    simp [settleStep, QueueState.step, sendDone, alwaysSucceed]
  rw [h2, settle_fifo_delay q _ _ hk]
  simp

/-- C30: take any sequence of turns in which every enqueued task is of a known kind and
no send fails.  Then the sends made so far, followed by the entries still queued, are
exactly the enqueued entries in the order of the `addEmailTask` calls, and no retry is
scheduled; and when the queue is left to run, every send succeeding, it comes to rest
after at most two turns per queued entry plus two, having made exactly one send per
enqueued entry, in enqueue order. -/
theorem fifo_when_no_send_fails (events : List QEvent)
    (hk : ∀ e ∈ events, e.knownAdd = true) (hs : ∀ e ∈ events, e.noFailure = true) :
    (runEvents QueueState.init events).sendLog ++
        (runEvents QueueState.init events).emailQueue = enqueuedEntries events ∧
    (runEvents QueueState.init events).timers = [] ∧
    ∃ n, n ≤ 2 * (runEvents QueueState.init events).emailQueue.length + 2 ∧
      (settle alwaysSucceed n (runEvents QueueState.init events)).quiet ∧
      (settle alwaysSucceed n (runEvents QueueState.init events)).sendLog =
        enqueuedEntries events := by
  have h1 : (runEvents QueueState.init events).singleDrainer :=
    runEvents_singleDrainer events _ (Or.inr ⟨rfl, rfl⟩)
  have h2 : (runEvents QueueState.init events).noStranded :=
    runEvents_noStranded events _ (Or.inr ⟨rfl, rfl⟩) (fun h => absurd rfl h)
  have h3 : (runEvents QueueState.init events).fifoUpTo ([] ++ enqueuedEntries events) :=
    runEvents_fifo events QueueState.init [] ⟨rfl, rfl, by simp [QueueState.init]⟩ hk hs
  rw [List.nil_append] at h3
  generalize runEvents QueueState.init events = s at h1 h2 h3 ⊢
  obtain ⟨hlog, htm, hkn⟩ := h3
  refine ⟨hlog, htm, ?_⟩
  obtain ⟨q, p, ws, tms, sl, dl⟩ := s
  simp only at hlog htm hkn h2 ⊢
  subst htm
  rcases h1 with ⟨hp, hw⟩ | ⟨hp, hw⟩
  · simp only at hp hw
    subst hp
    obtain ⟨w, hw⟩ := List.length_eq_one.mp hw
    subst hw
    cases w with
    | awaitingSend t =>
      refine ⟨2 * q.length + 2, le_refl _, ?_⟩
      rw [settle_fifo_sending q t sl dl hkn]
      exact ⟨⟨rfl, rfl, rfl, rfl⟩, hlog⟩
    | awaitingDelay =>
      refine ⟨2 * q.length + 1, by omega, ?_⟩
      rw [settle_fifo_delay q sl dl hkn]
      exact ⟨⟨rfl, rfl, rfl, rfl⟩, hlog⟩
  · simp only at hp hw
    subst hp
    subst hw
    have hq : q = [] := by
      by_contra hne
      have := h2 hne
      exact Bool.noConfusion this
    subst hq
    refine ⟨0, by omega, ⟨rfl, rfl, rfl, rfl⟩, ?_⟩
    simpa [settle] using hlog

/-- C30 on a sample: three enqueues interleaved with a successful send and a pause; the
sends made and the entries queued are the three entries in enqueue order, and the queue
left to run sends each of them once, in that order. -/
theorem fifo_when_no_send_fails_witness :
    enqueuedEntries fifoEvents =
      [newEntry firTaskInput 1 5000, newEntry resetTaskInput 2 5001,
       newEntry firTaskInput 3 5002] ∧
    (runEvents QueueState.init fifoEvents).sendLog ++
        (runEvents QueueState.init fifoEvents).emailQueue = enqueuedEntries fifoEvents ∧
    (runEvents QueueState.init fifoEvents).timers = [] ∧
    ∃ n, n ≤ 2 * (runEvents QueueState.init fifoEvents).emailQueue.length + 2 ∧
      (settle alwaysSucceed n (runEvents QueueState.init fifoEvents)).quiet ∧
      (settle alwaysSucceed n (runEvents QueueState.init fifoEvents)).sendLog =
        enqueuedEntries fifoEvents :=
  ⟨by decide, fifo_when_no_send_fails fifoEvents (by decide) (by decide)⟩

/-! ## C26: pagination -/

theorem ceilDiv_least (total : Nat) (limit : Int) (hl : 1 ≤ limit) :
    ∃ n : Int, ceilDiv total limit = some n ∧ (total : Int) ≤ n * limit ∧
      ∀ m : Int, (total : Int) ≤ m * limit → n ≤ m := by
  have hl0 : limit ≠ 0 := by omega
  have hpos : (0 : Int) < limit := by omega
  refine ⟨-(Int.fdiv (-(total : Int)) limit), by simp [ceilDiv, hl0], ?_, ?_⟩
  · rw [Int.fdiv_eq_ediv _ (le_of_lt hpos)]
    have h1 := Int.ediv_add_emod (-(total : Int)) limit
    have h2 := Int.emod_nonneg (-(total : Int)) hl0
    have h3 : -(-(total : Int) / limit) * limit = -(limit * (-(total : Int) / limit)) := by ring
    rw [h3]
    omega
  · intro m hm
    rw [Int.fdiv_eq_ediv _ (le_of_lt hpos)]
    have h1 : -m * limit ≤ -(total : Int) := by
      have : -m * limit = -(m * limit) := by ring
      omega
    have h2 : -m ≤ -(total : Int) / limit := (Int.le_ediv_iff_mul_le hpos).2 h1
    omega

theorem getCrimes_page (e : Engines) (db : Db) (actor : User) (q : ListQuery) (f : Filter)
    (L P : Nat) (hf : buildFilter e actor q = some f) (hl : q.limit = some (L : Int))
    (hL : 1 ≤ L) :
    getCrimes e db actor { q with page := some ((P : Int) + 1) } =
      .ok 200
        { crimes := (((matchingReports db f).drop (P * L)).take L).map db.populate
          pagination :=
            { currentPage := (P : Int) + 1
              totalPages := ceilDiv (matchingReports db f).length L
              totalItems := (matchingReports db f).length
              itemsPerPage := L } } := by
  obtain ⟨pg0, lim, cat, st, sev, city, sd, ed, search⟩ := q
  simp only at hl
  subst hl
  have hf2 : buildFilter e actor
      { page := some ((P : Int) + 1), limit := some (L : Int), category := cat, status := st,
        severity := sev, city := city, startDate := sd, endDate := ed, search := search } =
      some f := hf
  have hskip : ((P : Int) + 1 - 1) * (L : Int) = ((P * L : Nat) : Int) := by
    push_cast; ring
  have hL0 : (L : Int) ≠ 0 := by omega
  have hlen : (matchingReports db f).length = (db.crimes.filter f.holds).length := by
    simp [matchingReports, List.length_insertionSort]
  unfold getCrimes
  simp only [hf2, Option.getD_some, hskip, hlen]
  have hneg : ¬ ((P * L : Nat) : Int) < 0 := by omega
  simp only [hneg, if_false, Int.toNat_ofNat, applyLimit, hL0, Int.natAbs_ofNat,
    matchingReports]

theorem pageReports_succ (e : Engines) (db : Db) (actor : User) (q : ListQuery) (f : Filter)
    (L P : Nat) (hf : buildFilter e actor q = some f) (hl : q.limit = some (L : Int))
    (hL : 1 ≤ L) :
    pageReports e db actor q ((P : Int) + 1) =
      (((matchingReports db f).drop (P * L)).take L).map db.populate := by
  unfold pageReports
  rw [getCrimes_page e db actor q f L P hf hl hL]
  rfl

theorem pageReports_nonpos (e : Engines) (db : Db) (actor : User) (q : ListQuery)
    (L : Nat) (pg : Int) (hl : q.limit = some (L : Int)) (hL : 1 ≤ L) (hpg : pg < 1) :
    pageReports e db actor q pg = [] := by
  have hneg : (pg - 1) * (L : Int) < 0 := by
    apply mul_neg_of_neg_of_pos
    · omega
    · omega
  unfold pageReports getCrimes
  simp only [hl, Option.getD_some]
  split
  · rfl
  · simp [hneg, listedReports]

/-- C26: take a list request whose filter builds, with `page >= 1` and `limit >= 1`.  The
response holds the matching reports, newest first, after skipping `(page - 1) * limit` of
them and cut at `limit`; `totalItems` is their number and `totalPages` is the least `n`
with `n * limit >= totalItems`, which is the ceiling of `totalItems / limit`.  Every page
holds at most `limit` reports, every page after `totalPages` is empty, and the report at
each position of the matching list is found on exactly one page of `1..totalPages`, at
the position left after the skipped ones. -/
theorem pagination_partitions (e : Engines) (db : Db) (actor : User) (q : ListQuery)
    (f : Filter) (page limit : Int) (hf : buildFilter e actor q = some f)
    (hp : q.page = some page) (hl : q.limit = some limit) (hpage : 1 ≤ page)
    (hlimit : 1 ≤ limit) :
    ∃ (body : ListBody) (n : Int), getCrimes e db actor q = .ok 200 body ∧
      body.crimes =
        (((matchingReports db f).drop ((page - 1) * limit).toNat).take limit.toNat).map
          db.populate ∧
      body.pagination =
        { currentPage := page, totalPages := some n,
          totalItems := (matchingReports db f).length, itemsPerPage := limit } ∧
      ((matchingReports db f).length : Int) ≤ n * limit ∧
      (∀ m : Int, ((matchingReports db f).length : Int) ≤ m * limit → n ≤ m) ∧
      n = ⌈((matchingReports db f).length : ℚ) / (limit : ℚ)⌉ ∧
      (∀ pg : Int, ((pageReports e db actor q pg).length : Int) ≤ limit) ∧
      (∀ pg : Int, n < pg → pageReports e db actor q pg = []) ∧
      (∀ (i : Nat) (hi : i < (matchingReports db f).length),
        ∃! pg : Int, 1 ≤ pg ∧ pg ≤ n ∧ ∃ j : Nat, (pg - 1) * limit + j = i ∧
          (pageReports e db actor q pg)[j]? =
            some (db.populate ((matchingReports db f)[i]))) := by
  obtain ⟨L, rfl⟩ := Int.eq_ofNat_of_zero_le (by omega : 0 ≤ limit)
  obtain ⟨P, hP⟩ := Int.eq_ofNat_of_zero_le (by omega : 0 ≤ page - 1)
  have hpageP : page = (P : Int) + 1 := by omega
  subst hpageP
  have hL : 1 ≤ L := by omega
  have hLpos : (0 : Int) < (L : Int) := by omega
  obtain ⟨n, hn, hge, hleast⟩ := ceilDiv_least (matchingReports db f).length (L : Int) hlimit
  have hq : { q with page := some ((P : Int) + 1) } = q := by
    obtain ⟨pg0, lim, cat, st, sev, city, sd, ed, search⟩ := q
    simp only at hp
    rw [hp]
  have hres := getCrimes_page e db actor q f L P hf hl hL
  rw [hq, hn] at hres
  have hpages := fun P' : Nat => pageReports_succ e db actor q f L P' hf hl hL
  have hlow := fun (pg : Int) (h : pg < 1) => pageReports_nonpos e db actor q L pg hl hL h
  have hskip : ((P : Int) + 1 - 1) * (L : Int) = ((P * L : Nat) : Int) := by
    push_cast; ring
  refine ⟨_, n, hres, ?_, rfl, hge, hleast, ?_, ?_, ?_, ?_⟩
  · simp only [hskip, Int.toNat_ofNat]
  · apply le_antisymm
    · apply hleast
      have h1 : ((matchingReports db f).length : ℚ) / ((L : Int) : ℚ) ≤
          (⌈((matchingReports db f).length : ℚ) / ((L : Int) : ℚ)⌉ : ℚ) := Int.le_ceil _
      have hLq : (0 : ℚ) < ((L : Int) : ℚ) := by exact_mod_cast hLpos
      rw [div_le_iff₀ hLq] at h1
      exact_mod_cast h1
    · have hLq : (0 : ℚ) < ((L : Int) : ℚ) := by exact_mod_cast hLpos
      rw [Int.ceil_le, div_le_iff₀ hLq]
      exact_mod_cast hge
  · intro pg
    by_cases hpg : pg < 1
    · rw [hlow pg hpg]
      simp
    · obtain ⟨P', hP'⟩ := Int.eq_ofNat_of_zero_le (by omega : 0 ≤ pg - 1)
      have : pg = (P' : Int) + 1 := by omega
      subst this
      rw [hpages P']
      simp only [List.length_map, List.length_take]
      exact_mod_cast Nat.min_le_left L _
  · intro pg hpg
    by_cases hpg1 : pg < 1
    · exact hlow pg hpg1
    · obtain ⟨P', hP'⟩ := Int.eq_ofNat_of_zero_le (by omega : 0 ≤ pg - 1)
      have : pg = (P' : Int) + 1 := by omega
      subst this
      rw [hpages P']
      have hnL : n * (L : Int) ≤ (P' : Int) * (L : Int) :=
        mul_le_mul_of_nonneg_right (by omega) (le_of_lt hLpos)
      have hdrop : (matchingReports db f).length ≤ P' * L := by
        have : ((matchingReports db f).length : Int) ≤ ((P' * L : Nat) : Int) := by
          push_cast
          omega
        exact_mod_cast this
      simp [List.drop_eq_nil_of_le hdrop]
  · intro i hi
    have hmod : i % L < L := Nat.mod_lt _ (by omega)
    have hdm : i / L * L + i % L = i := Nat.div_add_mod' i L
    refine ⟨((i / L : Nat) : Int) + 1,
      ⟨le_add_of_nonneg_left (Int.natCast_nonneg _), ?_, i % L, ?_, ?_⟩, ?_⟩
    · by_contra hc
      have hnle : n ≤ ((i / L : Nat) : Int) := by linarith
      have h1 : n * (L : Int) ≤ ((i / L : Nat) : Int) * (L : Int) :=
        mul_le_mul_of_nonneg_right hnle (le_of_lt hLpos)
      have h2 : ((i / L : Nat) : Int) * (L : Int) + ((i % L : Nat) : Int) = (i : Int) := by
        exact_mod_cast hdm
      have h3 : (i : Int) < ((matchingReports db f).length : Int) := by exact_mod_cast hi
      have h4 : (0 : Int) ≤ ((i % L : Nat) : Int) := Int.natCast_nonneg _
      linarith
    · have : ((i / L : Nat) : Int) * (L : Int) + ((i % L : Nat) : Int) = (i : Int) := by
        exact_mod_cast hdm
      simpa using this
    · rw [hpages (i / L)]
      simp only [List.getElem?_map, List.getElem?_take, hmod, if_true, List.getElem?_drop,
        hdm]
      simp [hi]
    · rintro pg ⟨hpg1, _, j, hj, hget⟩
      obtain ⟨P', hP'⟩ := Int.eq_ofNat_of_zero_le (by omega : 0 ≤ pg - 1)
      have hpgP : pg = (P' : Int) + 1 := by omega
      subst hpgP
      rw [hpages P'] at hget
      have hjlt : j < L := by
        have hsome := (List.getElem?_eq_some_iff.mp hget).1
        simp only [List.length_map, List.length_take] at hsome
        omega
      have hnat : P' * L + j = i := by
        have : ((P' * L + j : Nat) : Int) = (i : Int) := by
          push_cast
          have : ((P' : Int) + 1 - 1) * (L : Int) = (P' : Int) * (L : Int) := by ring
          omega
        exact_mod_cast this
      have hdiv : i / L = P' := by
        apply Nat.div_eq_of_lt_le
        · omega
        · rw [Nat.succ_mul]
          omega
      rw [hdiv]

/-- C26 at a store with five reports, two per page: page 2 skips two reports and holds
the third and fourth newest, three pages are reported, and page 4 is empty. -/
theorem pagination_partitions_witness :
    (pageReports sampleEngines fiveReportsDb officerP pageTwoOfTwo 2).map
        (fun p => p.doc._id) = [302, 301] ∧
    pageReports sampleEngines fiveReportsDb officerP pageTwoOfTwo 4 = [] ∧
    ∃ (body : ListBody) (n : Int),
      getCrimes sampleEngines fiveReportsDb officerP pageTwoOfTwo = .ok 200 body ∧
      body.crimes =
        (((matchingReports fiveReportsDb Filter.empty).drop ((2 - 1) * 2 : Int).toNat).take
          (2 : Int).toNat).map fiveReportsDb.populate ∧
      body.pagination =
        { currentPage := 2, totalPages := some n,
          totalItems := (matchingReports fiveReportsDb Filter.empty).length,
          itemsPerPage := 2 } ∧
      ((matchingReports fiveReportsDb Filter.empty).length : Int) ≤ n * 2 ∧
      (∀ m : Int, ((matchingReports fiveReportsDb Filter.empty).length : Int) ≤ m * 2 →
        n ≤ m) ∧
      n = ⌈((matchingReports fiveReportsDb Filter.empty).length : ℚ) / ((2 : Int) : ℚ)⌉ ∧
      (∀ pg : Int,
        ((pageReports sampleEngines fiveReportsDb officerP pageTwoOfTwo pg).length : Int) ≤
          2) ∧
      (∀ pg : Int, n < pg →
        pageReports sampleEngines fiveReportsDb officerP pageTwoOfTwo pg = []) ∧
      (∀ (i : Nat) (hi : i < (matchingReports fiveReportsDb Filter.empty).length),
        ∃! pg : Int, 1 ≤ pg ∧ pg ≤ n ∧ ∃ j : Nat, (pg - 1) * 2 + j = i ∧
          (pageReports sampleEngines fiveReportsDb officerP pageTwoOfTwo pg)[j]? =
            some (fiveReportsDb.populate ((matchingReports fiveReportsDb Filter.empty)[i]))) :=
  ⟨by decide, by decide,
    pagination_partitions sampleEngines fiveReportsDb officerP pageTwoOfTwo Filter.empty 2 2
      rfl rfl rfl (by decide) (by decide)⟩

/-! ## C29: the statistics summary -/

theorem countAt_countKey (acc : List (String × Nat)) (key k : String) :
    countAt (countKey acc key) k = countAt acc k + (if k = key then 1 else 0) := by
  induction acc with
  | nil =>
    by_cases h : k = key
    · simp [countKey, countAt, List.lookup, h]
    · have : (k == key) = false := by simpa using h
      simp [countKey, countAt, List.lookup, h, this]
  | cons a rest ih =>
    obtain ⟨k0, n⟩ := a
    unfold countAt at ih ⊢
    by_cases h0 : k0 = key
    · by_cases h : k = key
      · simp [countKey, List.lookup, h0, h]
      · have : (k == key) = false := by simpa using h
        simp [countKey, List.lookup, h0, h, this]
    · by_cases h1 : k = k0
      · have hk : ¬ k = key := fun hk => h0 (h1 ▸ hk)
        simp [countKey, List.lookup, h0, h1]
      · have : (k == k0) = false := by simpa using h1
        simp only [countKey, h0, if_false, List.lookup, this]
        exact ih

theorem countAt_foldl (keys : List String) :
    ∀ (acc : List (String × Nat)) (k : String),
      countAt (keys.foldl countKey acc) k = countAt acc k + keys.count k := by
  induction keys with
  | nil => intro acc k; simp
  | cons a rest ih =>
    intro acc k
    rw [List.foldl_cons, ih, countAt_countKey, List.count_cons]
    by_cases h : k = a
    · simp [h]; omega
    · have : (a == k) = false := by
        simp only [beq_eq_false_iff_ne, ne_eq]
        exact fun h2 => h h2.symm
      simp [h, this]

theorem sum_countKey (acc : List (String × Nat)) (key : String) :
    ((countKey acc key).map Prod.snd).sum = (acc.map Prod.snd).sum + 1 := by
  induction acc with
  | nil => simp [countKey]
  | cons a rest ih =>
    obtain ⟨k0, n⟩ := a
    by_cases h0 : k0 = key
    · simp [countKey, h0]; omega
    · simp [countKey, h0, ih]; omega

theorem sum_foldl_countKey (keys : List String) :
    ∀ acc : List (String × Nat),
      ((keys.foldl countKey acc).map Prod.snd).sum = (acc.map Prod.snd).sum + keys.length := by
  induction keys with
  | nil => intro acc; simp
  | cons a rest ih =>
    intro acc
    rw [List.foldl_cons, ih, sum_countKey, List.length_cons]
    omega

theorem mem_countKey (acc : List (String × Nat)) (key : String) (p : String × Nat)
    (hp : p ∈ countKey acc key) : p ∈ acc ∨ (0 < p.2 ∧ p.1 = key) := by
  induction acc with
  | nil =>
    simp only [countKey, List.mem_singleton] at hp
    subst hp
    exact Or.inr ⟨Nat.one_pos, rfl⟩
  | cons a rest ih =>
    obtain ⟨k0, n⟩ := a
    by_cases h0 : k0 = key
    · simp only [countKey, h0, if_true, List.mem_cons] at hp
      rcases hp with hp | hp
      · subst hp
        exact Or.inr ⟨Nat.succ_pos _, rfl⟩
      · exact Or.inl (List.mem_cons_of_mem _ hp)
    · simp only [countKey, h0, if_false, List.mem_cons] at hp
      rcases hp with hp | hp
      · subst hp
        exact Or.inl (List.mem_cons_self _ _)
      · rcases ih hp with h | h
        · exact Or.inl (List.mem_cons_of_mem _ h)
        · exact Or.inr h

theorem pos_foldl_countKey (keys : List String) :
    ∀ acc : List (String × Nat), (∀ p ∈ acc, 0 < p.2) →
      ∀ p ∈ keys.foldl countKey acc, 0 < p.2 := by
  induction keys with
  | nil => intro acc h; simpa using h
  | cons a rest ih =>
    intro acc h
    rw [List.foldl_cons]
    apply ih
    intro p hp
    rcases mem_countKey acc a p hp with h1 | h1
    · exact h p h1
    · exact h1.1

theorem fst_mem_countKey (acc : List (String × Nat)) (key k : String)
    (hk : k ∈ (countKey acc key).map Prod.fst) : k = key ∨ k ∈ acc.map Prod.fst := by
  simp only [List.mem_map] at hk ⊢
  obtain ⟨p, hp, rfl⟩ := hk
  rcases mem_countKey acc key p hp with h | h
  · exact Or.inr ⟨p, h, rfl⟩
  · exact Or.inl h.2

theorem nodup_countKey (acc : List (String × Nat)) (key : String)
    (h : (acc.map Prod.fst).Nodup) : ((countKey acc key).map Prod.fst).Nodup := by
  induction acc with
  | nil => simp [countKey]
  | cons a rest ih =>
    obtain ⟨k0, n⟩ := a
    simp only [List.map_cons, List.nodup_cons] at h
    by_cases h0 : k0 = key
    · simp only [countKey, h0, if_true, List.map_cons, List.nodup_cons]
      rw [← h0]
      exact h
    · simp only [countKey, h0, if_false, List.map_cons, List.nodup_cons]
      refine ⟨?_, ih h.2⟩
      intro hmem
      rcases fst_mem_countKey rest key k0 hmem with h1 | h1
      · exact h0 h1
      · exact h.1 h1

theorem nodup_foldl_countKey (keys : List String) :
    ∀ acc : List (String × Nat), (acc.map Prod.fst).Nodup →
      ((keys.foldl countKey acc).map Prod.fst).Nodup := by
  induction keys with
  | nil => intro acc h; simpa using h
  | cons a rest ih =>
    intro acc h
    rw [List.foldl_cons]
    exact ih _ (nodup_countKey acc a h)

theorem countAt_of_mem (obj : List (String × Nat)) (h : (obj.map Prod.fst).Nodup)
    (p : String × Nat) (hp : p ∈ obj) : countAt obj p.1 = p.2 := by
  induction obj with
  | nil => simp at hp
  | cons a rest ih =>
    obtain ⟨k0, n⟩ := a
    simp only [List.map_cons, List.nodup_cons] at h
    rcases List.mem_cons.mp hp with h1 | h1
    · subst h1
      simp [countAt, List.lookup]
    · have hne : p.1 ≠ k0 := by
        intro he
        apply h.1
        rw [← he]
        exact List.mem_map_of_mem _ h1
      have : (p.1 == k0) = false := by simpa using hne
      have := ih h.2 h1
      unfold countAt at this ⊢
      simpa [List.lookup, ‹(p.1 == k0) = false›] using this

/-- The object the `reduce` builds: each key is held once, with the number of times it
occurs among the pushed values, which is positive; a value that was not pushed is no key;
the counts add up to the number of pushed values. -/
theorem breakdown_counts (keys : List String) :
    (∀ p ∈ breakdown keys, p.2 = keys.count p.1 ∧ 0 < p.2) ∧
    (∀ k, countAt (breakdown keys) k = keys.count k) ∧
    ((breakdown keys).map Prod.fst).Nodup ∧
    ((breakdown keys).map Prod.snd).sum = keys.length := by
  have hcount : ∀ k, countAt (breakdown keys) k = keys.count k := by
    intro k
    unfold breakdown
    rw [countAt_foldl]
    simp [countAt]
  have hnodup : ((breakdown keys).map Prod.fst).Nodup :=
    nodup_foldl_countKey keys [] (by simp)
  refine ⟨?_, hcount, hnodup, ?_⟩
  · intro p hp
    refine ⟨?_, pos_foldl_countKey keys [] (by simp) p hp⟩
    rw [← hcount, countAt_of_mem _ hnodup p hp]
  · unfold breakdown
    rw [sum_foldl_countKey]
    simp

theorem count_category (matched : List Crime) (cat : Category) :
    (matched.map (fun c => c.category.toStr)).count cat.toStr =
      matched.countP (fun c => c.category = cat) := by
  have hinj : ∀ a b : Category, a.toStr = b.toStr ↔ a = b := by
    intro a b
    cases a <;> cases b <;> decide
  induction matched with
  | nil => rfl
  | cons a rest ih =>
    simp only [List.map_cons, List.count_cons, List.countP_cons, ih, beq_iff_eq, hinj,
      decide_eq_true_eq]

theorem count_severity (matched : List Crime) (sev : Severity) :
    (matched.map (fun c => c.severity.toStr)).count sev.toStr =
      matched.countP (fun c => c.severity = sev) := by
  have hinj : ∀ a b : Severity, a.toStr = b.toStr ↔ a = b := by
    intro a b
    cases a <;> cases b <;> decide
  induction matched with
  | nil => rfl
  | cons a rest ih =>
    simp only [List.map_cons, List.count_cons, List.countP_cons, ih, beq_iff_eq, hinj,
      decide_eq_true_eq]

theorem count_map_toStr (matched : List Crime) (f : Crime → String) (k : String) :
    (matched.map f).count k = matched.countP (fun c => f c = k) := by
  induction matched with
  | nil => rfl
  | cons a rest ih =>
    simp only [List.map_cons, List.count_cons, List.countP_cons, ih, beq_iff_eq,
      decide_eq_true_eq]

theorem sum_ones (matched : List Crime) : (matched.map (fun _ => 1)).sum = matched.length := by
  induction matched with
  | nil => rfl
  | cons a rest ih => simp [ih]; omega

theorem sum_indicator (matched : List Crime) (st : Status) :
    (matched.map (fun c => if c.status = st then 1 else 0)).sum =
      matched.countP (fun c => c.status = st) := by
  induction matched with
  | nil => rfl
  | cons a rest ih =>
    by_cases h : a.status = st
    · simp [ih, h, List.countP_cons]; omega
    · simp [ih, h, List.countP_cons]

theorem pending_resolved_le (matched : List Crime) :
    matched.countP (fun c => c.status = .pending) +
      matched.countP (fun c => c.status = .resolved) ≤ matched.length := by
  induction matched with
  | nil => simp
  | cons a rest ih =>
    simp only [List.countP_cons, List.length_cons]
    cases hs : a.status <;> simp <;> omega

/-- C29: when at least one report passes the `$match` stage, the summary answers 200 and
`totalReports` is the number of matching reports; each key of `categoryBreakdown` is held
once and its count is positive and is the number of matching reports with that category,
a category without matching report is no key, and likewise for `severityBreakdown`; the
counts of either breakdown add up to `totalReports`; `pendingReports` and
`resolvedReports` are the numbers of matching reports with these statuses, and their sum
is at most `totalReports`. -/
theorem stats_breakdowns_count (db : Db) (actor : User) (q : StatsQuery)
    (hne : statsMatching db actor q ≠ []) :
    ∃ body, getStatsSummary db actor q = .ok 200 body ∧
      body.totalReports = (statsMatching db actor q).length ∧
      (∀ p ∈ body.categoryBreakdown, 0 < p.2 ∧
        p.2 = (statsMatching db actor q).countP (fun c => c.category.toStr = p.1)) ∧
      (∀ cat : Category, countAt body.categoryBreakdown cat.toStr =
        (statsMatching db actor q).countP (fun c => c.category = cat)) ∧
      (body.categoryBreakdown.map Prod.fst).Nodup ∧
      (∀ p ∈ body.severityBreakdown, 0 < p.2 ∧
        p.2 = (statsMatching db actor q).countP (fun c => c.severity.toStr = p.1)) ∧
      (∀ sev : Severity, countAt body.severityBreakdown sev.toStr =
        (statsMatching db actor q).countP (fun c => c.severity = sev)) ∧
      (body.severityBreakdown.map Prod.fst).Nodup ∧
      (body.categoryBreakdown.map Prod.snd).sum = body.totalReports ∧
      (body.severityBreakdown.map Prod.snd).sum = body.totalReports ∧
      body.pendingReports = (statsMatching db actor q).countP (fun c => c.status = .pending) ∧
      body.resolvedReports =
        (statsMatching db actor q).countP (fun c => c.status = .resolved) ∧
      body.pendingReports + body.resolvedReports ≤ body.totalReports := by
  obtain ⟨a, r, hm⟩ := List.exists_cons_of_ne_nil hne
  have hres : getStatsSummary db actor q =
      .ok 200
        { totalReports := ((statsMatching db actor q).map (fun _ => 1)).sum
          pendingReports :=
            ((statsMatching db actor q).map
              (fun c => if c.status = .pending then 1 else 0)).sum
          resolvedReports :=
            ((statsMatching db actor q).map
              (fun c => if c.status = .resolved then 1 else 0)).sum
          categoryBreakdown :=
            breakdown ((statsMatching db actor q).map (fun c => c.category.toStr))
          severityBreakdown :=
            breakdown ((statsMatching db actor q).map (fun c => c.severity.toStr)) } := by
    simp only [getStatsSummary, hm, groupStats]
  generalize statsMatching db actor q = matched at hres ⊢
  have hc := breakdown_counts (matched.map (fun c => c.category.toStr))
  have hs := breakdown_counts (matched.map (fun c => c.severity.toStr))
  refine ⟨_, hres, sum_ones matched, ?_, ?_, hc.2.2.1, ?_, ?_, hs.2.2.1, ?_, ?_,
    sum_indicator matched .pending, sum_indicator matched .resolved, ?_⟩
  · intro p hp
    refine ⟨(hc.1 p hp).2, ?_⟩
    rw [(hc.1 p hp).1, count_map_toStr]
  · intro cat
    rw [hc.2.1, count_category]
  · intro p hp
    refine ⟨(hs.1 p hp).2, ?_⟩
    rw [(hs.1 p hp).1, count_map_toStr]
  · intro sev
    rw [hs.2.1, count_severity]
  · simp only [hc.2.2.2, List.length_map, sum_ones]
  · simp only [hs.2.2.2, List.length_map, sum_ones]
  · simp only [sum_indicator, sum_ones]
    exact pending_resolved_le matched

/-- C29 at a store with two thefts and one assault: the admin's summary counts three
reports, two pending and one resolved, two thefts and one assault, two of low and one of
high severity. -/
theorem stats_breakdowns_count_witness :
    getStatsSummary statsDb adminX allTime =
      .ok 200
        { totalReports := 3, pendingReports := 2, resolvedReports := 1,
          categoryBreakdown := [("theft", 2), ("assault", 1)],
          severityBreakdown := [("low", 2), ("high", 1)] } ∧
    ∃ body, getStatsSummary statsDb adminX allTime = .ok 200 body ∧
      body.totalReports = (statsMatching statsDb adminX allTime).length ∧
      (∀ p ∈ body.categoryBreakdown, 0 < p.2 ∧
        p.2 = (statsMatching statsDb adminX allTime).countP
          (fun c => c.category.toStr = p.1)) ∧
      (∀ cat : Category, countAt body.categoryBreakdown cat.toStr =
        (statsMatching statsDb adminX allTime).countP (fun c => c.category = cat)) ∧
      (body.categoryBreakdown.map Prod.fst).Nodup ∧
      (∀ p ∈ body.severityBreakdown, 0 < p.2 ∧
        p.2 = (statsMatching statsDb adminX allTime).countP
          (fun c => c.severity.toStr = p.1)) ∧
      (∀ sev : Severity, countAt body.severityBreakdown sev.toStr =
        (statsMatching statsDb adminX allTime).countP (fun c => c.severity = sev)) ∧
      (body.severityBreakdown.map Prod.fst).Nodup ∧
      (body.categoryBreakdown.map Prod.snd).sum = body.totalReports ∧
      (body.severityBreakdown.map Prod.snd).sum = body.totalReports ∧
      body.pendingReports =
        (statsMatching statsDb adminX allTime).countP (fun c => c.status = .pending) ∧
      body.resolvedReports =
        (statsMatching statsDb adminX allTime).countP (fun c => c.status = .resolved) ∧
      body.pendingReports + body.resolvedReports ≤ body.totalReports :=
  ⟨by decide, stats_breakdowns_count statsDb adminX allTime (by decide)⟩

/-! ## C25: the action buttons of the case detail modal -/

theorem renderPhotos_no_status_button (photos : List EvidenceItem) :
    ∀ (index : Nat), ∀ b ∈ renderPhotos photos index, b.isStatusButton = false := by
  induction photos with
  | nil => intro index b hb; simp [renderPhotos] at hb
  | cons photo rest ih =>
    intro index b hb
    simp only [renderPhotos, renderPhoto, List.mem_append, List.mem_cons,
      List.mem_singleton] at hb
    rcases hb with ((hb | hb | hb) | hb) | hb
    · subst hb; rfl
    · subst hb; rfl
    · simp at hb
    · split at hb
      · simp only [List.mem_singleton] at hb
        subst hb; rfl
      · simp at hb
    · exact ih _ b hb

theorem renderEvidence_no_status_button (d : DetailBody) :
    ∀ b ∈ renderEvidence d, b.isStatusButton = false := by
  intro b hb
  unfold renderEvidence at hb
  simp only [] at hb
  split at hb
  · simp only [List.mem_append, List.mem_singleton] at hb
    rcases hb with ((hb | hb) | hb) | hb
    · subst hb; rfl
    · split at hb
      · simp only [List.mem_append, List.mem_singleton] at hb
        rcases hb with hb | hb
        · subst hb; rfl
        · exact renderPhotos_no_status_button _ _ b hb
      · simp at hb
    · split at hb
      · simp only [List.mem_append, List.mem_singleton, List.mem_flatMap] at hb
        rcases hb with hb | ⟨v, _, hb⟩
        · subst hb; rfl
        · simp only [renderVideo, List.mem_append, List.mem_singleton] at hb
          rcases hb with hb | hb
          · subst hb; rfl
          · split at hb
            · simp only [List.mem_singleton] at hb
              subst hb; rfl
            · simp at hb
      · simp at hb
    · split at hb
      · simp only [List.mem_append, List.mem_singleton, List.mem_flatMap] at hb
        rcases hb with hb | ⟨v, _, hb⟩
        · subst hb; rfl
        · simp only [renderDocument, List.mem_cons, List.mem_singleton] at hb
          rcases hb with hb | hb | hb | hb | hb
          · subst hb; rfl
          · subst hb; rfl
          · subst hb; rfl
          · subst hb; rfl
          · simp at hb
      · simp at hb
  · simp at hb

theorem renderBasics_no_status_button (d : DetailBody) :
    ∀ b ∈ renderBasics d, b.isStatusButton = false := by
  intro b hb
  simp only [renderBasics, List.mem_cons, List.mem_singleton] at hb
  rcases hb with hb | hb | hb | hb | hb | hb | hb | hb
  all_goals first
    | (subst hb; rfl)
    | simp at hb

theorem renderLocation_no_status_button (st : ModalState) (d : DetailBody) :
    ∀ b ∈ renderLocation st d, b.isStatusButton = false := by
  intro b hb
  simp only [renderLocation, List.mem_append, List.mem_cons, List.mem_singleton] at hb
  rcases hb with ((hb | hb | hb) | hb) | hb
  · subst hb; rfl
  · subst hb; rfl
  · simp at hb
  · split at hb
    · simp only [List.mem_singleton] at hb
      subst hb; rfl
    · simp at hb
  · split at hb
    · simp only [List.mem_singleton] at hb
      subst hb; rfl
    · simp only [List.mem_singleton] at hb
      subst hb; rfl

theorem renderCaseInformation_no_status_button (d : DetailBody) :
    ∀ b ∈ renderCaseInformation d, b.isStatusButton = false := by
  intro b hb
  simp only [renderCaseInformation, List.mem_append] at hb
  rcases hb with ((hb | hb) | hb) | hb
  · simp only [List.mem_cons, List.mem_singleton] at hb
    rcases hb with hb | hb | hb | hb | hb | hb | hb | hb
    all_goals first
      | (subst hb; rfl)
      | simp at hb
  · split at hb
    · simp only [List.mem_cons, List.mem_singleton] at hb
      rcases hb with hb | hb | hb
      all_goals first
        | (subst hb; rfl)
        | simp at hb
    · simp at hb
  · split at hb
    · simp only [List.mem_cons, List.mem_singleton] at hb
      rcases hb with hb | hb | hb
      all_goals first
        | (subst hb; rfl)
        | simp at hb
    · simp at hb
  · split at hb
    · simp only [List.mem_cons, List.mem_singleton] at hb
      rcases hb with hb | hb | hb
      all_goals first
        | (subst hb; rfl)
        | simp at hb
    · simp at hb

theorem renderPoliceNotes_no_status_button (d : DetailBody) :
    ∀ b ∈ renderPoliceNotes d, b.isStatusButton = false := by
  intro b hb
  unfold renderPoliceNotes at hb
  split at hb
  · simp only [List.mem_append, List.mem_singleton, List.mem_flatMap] at hb
    rcases hb with hb | ⟨n, _, hb⟩
    · subst hb; rfl
    · simp only [renderNote, List.mem_cons, List.mem_singleton] at hb
      rcases hb with hb | hb | hb | hb
      all_goals first
        | (subst hb; rfl)
        | simp at hb
  · simp at hb

theorem renderImageModal_no_status_button (st : ModalState) :
    ∀ b ∈ renderImageModal st, b.isStatusButton = false := by
  intro b hb
  unfold renderImageModal at hb
  split at hb
  · simp only [List.mem_append, List.mem_cons, List.mem_singleton] at hb
    rcases hb with (hb | hb | hb) | hb
    · subst hb; rfl
    · subst hb; rfl
    · simp at hb
    · split at hb
      · simp only [List.mem_singleton] at hb
        subst hb; rfl
      · simp at hb
  · simp at hb

/-- C25: a closed modal renders nothing.  An open modal that shows a loaded case renders
all four status buttons when `userRole` is police or admin, and otherwise renders no
button at all whose handler updates the status; so the four buttons are rendered exactly
for these two roles. -/
theorem action_buttons_iff_police_or_admin (p : ModalProps) (st : ModalState)
    (d : DetailBody) :
    (p.isOpen = false → CaseDetailModal p st = none) ∧
    (p.isOpen = true → st.loading = false → st.caseData = some d →
      ∃ out, CaseDetailModal p st = some out ∧
        ((∀ b ∈ statusActionButtons, b ∈ out) ↔
          (p.userRole = some "police" ∨ p.userRole = some "admin")) ∧
        ((∃ b ∈ out, b.isStatusButton = true) ↔
          (p.userRole = some "police" ∨ p.userRole = some "admin"))) := by
  constructor
  · intro h
    simp [CaseDetailModal, h]
  · intro hopen hload hdata
    refine ⟨[Rendered.text "Case Details", .button "" .close] ++ renderContent p st ++
      renderImageModal st, by simp [CaseDetailModal, hopen], ?_⟩
    have hno : ¬ (p.userRole = some "police" ∨ p.userRole = some "admin") →
        ∀ b ∈ [Rendered.text "Case Details", .button "" .close] ++ renderContent p st ++
          renderImageModal st, b.isStatusButton = false := by
      intro hrole b hb
      simp only [List.mem_append] at hb
      rcases hb with (hb | hb) | hb
      · simp only [List.mem_cons, List.mem_singleton] at hb
        rcases hb with hb | hb | hb
        · subst hb; rfl
        · subst hb; rfl
        · simp at hb
      · simp only [renderContent, hload, hdata, Bool.false_eq_true, if_false,
          List.mem_append] at hb
        rcases hb with ((((hb | hb) | hb) | hb) | hb) | hb
        · exact renderBasics_no_status_button d b hb
        · exact renderLocation_no_status_button st d b hb
        · exact renderEvidence_no_status_button d b hb
        · exact renderCaseInformation_no_status_button d b hb
        · exact renderPoliceNotes_no_status_button d b hb
        · have : (p.userRole = some "police" || p.userRole = some "admin") = false := by
            simpa using hrole
          simp [renderActions, this] at hb
      · exact renderImageModal_no_status_button st b hb
    have hyes : (p.userRole = some "police" ∨ p.userRole = some "admin") →
        ∀ b ∈ statusActionButtons,
          b ∈ [Rendered.text "Case Details", .button "" .close] ++ renderContent p st ++
            renderImageModal st := by
      intro hrole b hb
      have : (p.userRole = some "police" || p.userRole = some "admin") = true := by
        simpa using hrole
      simp only [List.mem_append]
      left; right
      simp only [renderContent, hload, hdata, Bool.false_eq_true, if_false, List.mem_append]
      right
      simp only [renderActions, this, if_true, List.mem_append]
      right
      exact hb
    constructor
    · constructor
      · intro hall
        by_contra hrole
        have h1 := hall (.button "Mark Resolved" (.updateStatus "resolved"))
          (by simp [statusActionButtons])
        have h2 := hno hrole _ h1
        simp [Rendered.isStatusButton] at h2
      · exact hyes
    · constructor
      · rintro ⟨b, hb, hs⟩
        by_contra hrole
        have := hno hrole b hb
        rw [hs] at this
        exact Bool.noConfusion this
      · intro hrole
        exact ⟨.button "Mark Resolved" (.updateStatus "resolved"),
          hyes hrole _ (by simp [statusActionButtons]), rfl⟩

/-- C25 on samples: the open modal on the loaded report 100 shows the four buttons to a
police user and none to a citizen, and the closed modal renders nothing. -/
theorem action_buttons_iff_police_or_admin_witness :
    CaseDetailModal { caseId := some 100, isOpen := false, userRole := some "police" }
      loadedState = none ∧
    (∃ out, CaseDetailModal { caseId := some 100, isOpen := true, userRole := some "police" }
        loadedState = some out ∧
      ((∀ b ∈ statusActionButtons, b ∈ out) ↔
        ((some "police" : Option String) = some "police" ∨
          (some "police" : Option String) = some "admin")) ∧
      ((∃ b ∈ out, b.isStatusButton = true) ↔
        ((some "police" : Option String) = some "police" ∨
          (some "police" : Option String) = some "admin"))) ∧
    (∃ out, CaseDetailModal { caseId := some 100, isOpen := true, userRole := some "citizen" }
        loadedState = some out ∧
      ((∀ b ∈ statusActionButtons, b ∈ out) ↔
        ((some "citizen" : Option String) = some "police" ∨
          (some "citizen" : Option String) = some "admin")) ∧
      ((∃ b ∈ out, b.isStatusButton = true) ↔
        ((some "citizen" : Option String) = some "police" ∨
          (some "citizen" : Option String) = some "admin"))) :=
  ⟨(action_buttons_iff_police_or_admin
      { caseId := some 100, isOpen := false, userRole := some "police" } loadedState
      loadedCase).1 rfl,
    (action_buttons_iff_police_or_admin
      { caseId := some 100, isOpen := true, userRole := some "police" } loadedState
      loadedCase).2 rfl rfl rfl,
    (action_buttons_iff_police_or_admin
      { caseId := some 100, isOpen := true, userRole := some "citizen" } loadedState
      loadedCase).2 rfl rfl rfl⟩

end CrimeReporting
